import Mathlib

/-!
Verification of the Fusion compiler front end against its specification.

This file shallowly embeds the parts of the Fusion compiler
(`src/compiler/src/{lexer,parser,layout,sema,multifile,codegen}.cpp`)
that the spec's testable properties talk about, and proves or refutes
each property.  Every definition mirrors the corresponding C++ function;
`std::vector` becomes `List`, `std::unordered_map`/assoc lookups become
association lists searched front-to-back in the order the C++ iterates,
`size_t` becomes `Nat`, `int64_t` becomes `Int`, and fallible functions
return `Option`/`Except`.
-/

set_option maxHeartbeats 1000000

namespace Fusion

/-! ## Core data model (`ast.hpp`) -/

/-- FFI type kind, mirrors `enum class FfiType` in `ast.hpp`. -/
inductive FfiType where
  | Void
  | I32
  | I64
  | F32
  | F64
  | Ptr
  deriving DecidableEq, Repr, Inhabited

/-- Mirrors `enum class BinOp`. -/
inductive BinOp where
  | Add | Sub | Mul | Div
  deriving DecidableEq, Repr, Inhabited

/-- Mirrors `enum class CompareOp`. -/
inductive CompareOp where
  | Eq | Ne | Lt | Le | Gt | Ge
  deriving DecidableEq, Repr, Inhabited

/-! ## Layout engine (`layout.hpp` / `layout.cpp`) -/

/-- Mirrors `ffi_type_size` in `layout.hpp`: I32/F32 are 4 bytes,
I64/F64/Ptr are 8 bytes, Void is 0. -/
def ffi_type_size : FfiType → Nat
  | .I32 => 4
  | .I64 => 8
  | .F32 => 4
  | .F64 => 8
  | .Ptr => 8
  | .Void => 0

/-- Mirrors `ffi_type_align` in `layout.hpp`: alignment equals size. -/
def ffi_type_align (t : FfiType) : Nat :=
  ffi_type_size t

/-- Mirrors `struct StructDef` (with the `exported` flag used by
`parser.cpp` and `multifile.cpp`). -/
structure StructDef where
  name : String
  exported : Bool := false
  fields : List (String × FfiType)
  deriving DecidableEq, Repr, Inhabited

/-- Mirrors `struct FieldLayout`. -/
structure FieldLayout where
  offset : Nat := 0
  type : FfiType := .Void
  deriving DecidableEq, Repr, Inhabited

/-- Mirrors `struct StructLayout`. -/
structure StructLayout where
  size : Nat := 0
  alignment : Nat := 0
  fields : List (String × FieldLayout) := []
  deriving DecidableEq, Repr, Inhabited

/-- The loop body of `compute_layout` in `layout.cpp`, carrying the
running `(alignment, offset, fields)` state over the field list.
Fields whose align or size is 0 are skipped, exactly as the C++
`if (align == 0 || size == 0) continue;`. -/
def layoutLoop : Nat → Nat → List (String × FieldLayout) →
    List (String × FfiType) → Nat × Nat × List (String × FieldLayout)
  | alignment, offset, acc, [] => (alignment, offset, acc)
  | alignment, offset, acc, (fname, ty) :: rest =>
    let align := ffi_type_align ty
    let size := ffi_type_size ty
    if align = 0 ∨ size = 0 then
      layoutLoop alignment offset acc rest
    else
      let alignment' := if alignment < align then align else alignment
      let rem := offset % align
      let offset' := if rem ≠ 0 then offset + (align - rem) else offset
      layoutLoop alignment' (offset' + size)
        (acc ++ [(fname, { offset := offset', type := ty })]) rest

/-- Mirrors `compute_layout` in `layout.cpp`. -/
def compute_layout (d : StructDef) : StructLayout :=
  if d.fields.isEmpty then {} else
  let s := layoutLoop 0 0 [] d.fields
  let alignment := s.1
  let offset := s.2.1
  let rem := offset % alignment
  let offset' := if rem ≠ 0 then offset + (alignment - rem) else offset
  { size := offset', alignment := alignment, fields := s.2.2 }

/-- Mirrors `build_layout_map` in `layout.cpp`; the map is an association
list keyed by struct name (later definitions overwrite earlier ones in the
C++ `unordered_map`, so lookup searches back-to-front here we instead
insert by replacement: the C++ writes `map[def.name] = ...` for each def in
order, meaning the *last* def with a given name wins; we model the map as
the list of `(name, layout)` pairs with lookup taking the last match). -/
def build_layout_map (defs : List StructDef) : List (String × StructLayout) :=
  defs.map (fun d => (d.name, compute_layout d))

/-- `round_up(x, a)`: the least multiple of `a` that is `≥ x`
(for `a = 0` we take `x` itself).  This is the spec's rounding
operation, written from the spec's words for comparison against
the code's remainder-adjustment. -/
def roundUp (x a : Nat) : Nat :=
  if a = 0 then x else ((x + a - 1) / a) * a

/-- The fields of a record that the layout engine keeps (non-Void,
known size): mirrors the skip condition in the `compute_layout` loop. -/
def keptFields (fields : List (String × FfiType)) : List (String × FfiType) :=
  fields.filter (fun p => !(ffi_type_align p.2 = 0 ∨ ffi_type_size p.2 = 0))

/-- Reference form of the field placement: each field is placed at the
current offset rounded up to its alignment, and the offset advances by
the field's size.  Used to characterise `layoutLoop`. -/
def layoutFieldsSpec (o : Nat) : List (String × FfiType) → List (String × FieldLayout)
  | [] => []
  | (f, t) :: rest =>
    let ro := roundUp o (ffi_type_align t)
    (f, { offset := ro, type := t }) :: layoutFieldsSpec (ro + ffi_type_size t) rest

/-- The running offset after placing all fields, starting from `o`. -/
def endOff (o : Nat) : List (String × FfiType) → Nat
  | [] => o
  | (_, t) :: rest => endOff (roundUp o (ffi_type_align t) + ffi_type_size t) rest

/-- The running maximum alignment, starting from `a`. -/
def maxAl (a : Nat) : List (String × FfiType) → Nat
  | [] => a
  | (_, t) :: rest => maxAl (max a (ffi_type_align t)) rest

/-- Predicate: every field in the list is kept (nonzero align and size). -/
def allKept (fs : List (String × FfiType)) : Prop :=
  ∀ p ∈ fs, ¬(ffi_type_align p.2 = 0 ∨ ffi_type_size p.2 = 0)

/-- A concrete record used to witness the layout theorem:
`struct Vec { tag: i32; x: f64; y: f32; }`. -/
def c2Demo : StructDef :=
  { name := "Vec"
    exported := false
    fields := [("tag", FfiType.I32), ("x", FfiType.F64), ("y", FfiType.F32)] }

/-! ## Lexer (`lexer.hpp` / `lexer.cpp`)

The token kinds are the union of the kinds the lexer, the parser and the
repository's tests refer to. -/

inductive TokenKind where
  | Eof
  | IntLiteral
  | FloatLiteral
  | StringLiteral
  | Ident
  | LParen
  | RParen
  | LCurly
  | RCurly
  | LBracket
  | RBracket
  | Plus
  | Minus
  | Star
  | Slash
  | Comma
  | Semicolon
  | Colon
  | Equals
  | EqEq
  | Ne
  | Lt
  | Gt
  | Le
  | Ge
  | Arrow
  | KwExtern
  | KwLib
  | KwImport
  | KwExport
  | KwFn
  | KwF64
  | KwF32
  | KwI64
  | KwI32
  | KwU64
  | KwU32
  | KwVoid
  | KwPtr
  | KwCstring
  | KwAs
  | KwLet
  | KwReturn
  | KwOpaque
  | KwStruct
  | KwIf
  | KwElse
  | KwElif
  | KwFor
  | KwIn
  deriving DecidableEq, Repr, Inhabited

/-- Mirrors `struct Token` in `lexer.hpp`.  `int64_t` is modelled as `Int`
(the lexer's digit accumulation is far from overflow on every input that
appears in a theorem below). -/
structure Token where
  kind : TokenKind := .Eof
  int_value : Int := 0
  float_value : Float := 0.0
  str_value : String := ""
  ident : String := ""
  line : Nat := 0
  column : Nat := 0

/-- Mirrors `keyword_from_ident` in `lexer.cpp`: note that the chain covers
`extern … elif` and `cstring` but contains no case for `import`, `export`,
`for` or `in`. -/
def keyword_from_ident (ident : String) : TokenKind :=
  if ident = "extern" then .KwExtern
  else if ident = "lib" then .KwLib
  else if ident = "fn" then .KwFn
  else if ident = "f64" then .KwF64
  else if ident = "f32" then .KwF32
  else if ident = "i64" then .KwI64
  else if ident = "i32" then .KwI32
  else if ident = "u64" then .KwU64
  else if ident = "u32" then .KwU32
  else if ident = "void" then .KwVoid
  else if ident = "ptr" then .KwPtr
  else if ident = "cstring" then .KwCstring
  else if ident = "as" then .KwAs
  else if ident = "let" then .KwLet
  else if ident = "return" then .KwReturn
  else if ident = "opaque" then .KwOpaque
  else if ident = "struct" then .KwStruct
  else if ident = "if" then .KwIf
  else if ident = "else" then .KwElse
  else if ident = "elif" then .KwElif
  else .Ident

/-- The position update of `advance()` in `lex`. -/
def advancePos (c : Char) (line col : Nat) : Nat × Nat :=
  if c = '\n' then (line + 1, 1) else (line, col + 1)

/-- The whitespace test of the inner skip loop in `lex`. -/
def isWsChar (c : Char) : Bool :=
  c = ' ' || c = '\t' || c = '\n' || c = '\r'

/-- The whitespace-skipping inner loop of `lex`. -/
def skipWs : List Char → Nat → Nat → List Char × Nat × Nat
  | [], line, col => ([], line, col)
  | c :: rest, line, col =>
    if isWsChar c then
      let p := advancePos c line col
      skipWs rest p.1 p.2
    else (c :: rest, line, col)

/-- The comment-skipping loop of `lex` (`while (i < size && source[i] != '\n') advance()`). -/
def skipComment : List Char → Nat → Nat → List Char × Nat × Nat
  | [], line, col => ([], line, col)
  | c :: rest, line, col =>
    if c = '\n' then (c :: rest, line, col)
    else
      let p := advancePos c line col
      skipComment rest p.1 p.2

/-- The string-literal body loop of `lex` (escape handling included);
returns the unescaped contents and the rest of the input starting at the
closing quote (if any). -/
def lexStringBody : List Char → Nat → Nat → String × List Char × Nat × Nat
  | [], line, col => ("", [], line, col)
  | c :: rest, line, col =>
    if c = '"' then ("", c :: rest, line, col)
    else if c = '\\' then
      let p := advancePos c line col
      match rest with
      | [] => ("", [], p.1, p.2)
      | e :: rest2 =>
        let mapped : Char :=
          if e = 'n' then '\n'
          else if e = 't' then '\t'
          else if e = '"' then '"'
          else if e = '\\' then '\\'
          else e
        let p2 := advancePos e p.1 p.2
        let r := lexStringBody rest2 p2.1 p2.2
        (String.mk (mapped :: r.1.data), r.2.1, r.2.2.1, r.2.2.2)
    else
      let p := advancePos c line col
      let r := lexStringBody rest p.1 p.2
      (String.mk (c :: r.1.data), r.2.1, r.2.2.1, r.2.2.2)

/-- The integer-digit loop of `lex` (`int_val = int_val * 10 + digit`). -/
def takeDigits : List Char → Nat → Nat → Int → Int × List Char × Nat × Nat
  | [], line, col, acc => (acc, [], line, col)
  | c :: rest, line, col, acc =>
    if c.isDigit then
      let p := advancePos c line col
      takeDigits rest p.1 p.2 (acc * 10 + (c.toNat - '0'.toNat : Nat))
    else (acc, c :: rest, line, col)

/-- The fractional-digit loop of the float branch of `lex`
(`frac += (source[i]-'0') * place; place *= 0.1`). -/
def takeFrac : List Char → Nat → Nat → Float → Float → Float × List Char × Nat × Nat
  | [], line, col, frac, _ => (frac, [], line, col)
  | c :: rest, line, col, frac, place =>
    if c.isDigit then
      let p := advancePos c line col
      takeFrac rest p.1 p.2 (frac + Float.ofNat (c.toNat - '0'.toNat) * place)
        (place * 0.1)
    else (frac, c :: rest, line, col)

/-- The identifier loop of `lex` (`isalnum || '_'`). -/
def takeIdent : List Char → Nat → Nat → String × List Char × Nat × Nat
  | [], line, col => ("", [], line, col)
  | c :: rest, line, col =>
    if c.isAlphanum || c = '_' then
      let p := advancePos c line col
      let r := takeIdent rest p.1 p.2
      (String.mk (c :: r.1.data), r.2.1, r.2.2.1, r.2.2.2)
    else ("", c :: rest, line, col)

/-- One iteration step plus recursion of the main `while` loop of `lex`
in `lexer.cpp`.  `fuel` only bounds the number of loop iterations; since
each iteration consumes at least one character, `length + 1` fuel makes
the function total without changing its value.  Note what is missing,
exactly as in the source: no cases form a `-` (when not `->`), `*`, `/`,
`[`, `]` or lone `!` token — those bytes fall through to the final
`advance()` and are silently dropped. -/
def lexLoop : Nat → List Char → Nat → Nat → List Token
  | 0, _, _, _ => []
  | fuel + 1, chars, line, col =>
    match skipWs chars line col with
    | ([], l, c) => [{ kind := .Eof, line := l, column := c }]
    | (ch :: rest, line, col) =>
      if ch = '#' then
        let r := skipComment (ch :: rest) line col
        lexLoop fuel r.1 r.2.1 r.2.2
      else
      let startLine := line
      let startCol := col
      if ch = '"' then
        let p := advancePos ch line col
        let r := lexStringBody rest p.1 p.2
        let strVal := r.1
        match r.2.1, r.2.2.1, r.2.2.2 with
        | [], l2, c2 =>
          { kind := .StringLiteral, str_value := strVal,
            line := startLine, column := startCol } :: lexLoop fuel [] l2 c2
        | q :: rest2, l2, c2 =>
          let p2 := advancePos q l2 c2
          { kind := .StringLiteral, str_value := strVal,
            line := startLine, column := startCol } :: lexLoop fuel rest2 p2.1 p2.2
      else if ch.isDigit then
        let r := takeDigits (ch :: rest) line col 0
        let intVal := r.1
        match r.2.1, r.2.2.1, r.2.2.2 with
        | '.' :: rest2, l1, c1 =>
          let p1 := advancePos '.' l1 c1
          let fr := takeFrac rest2 p1.1 p1.2 0.0 0.1
          let floatVal := Float.ofInt intVal + fr.1
          { kind := .FloatLiteral, float_value := floatVal,
            line := startLine, column := startCol }
            :: lexLoop fuel fr.2.1 fr.2.2.1 fr.2.2.2
        | r1, l1, c1 =>
          { kind := .IntLiteral, int_value := intVal,
            line := startLine, column := startCol } :: lexLoop fuel r1 l1 c1
      else if ch.isAlpha || ch = '_' then
        let r := takeIdent (ch :: rest) line col
        let identVal := r.1
        { kind := keyword_from_ident identVal, ident := identVal,
          line := startLine, column := startCol }
          :: lexLoop fuel r.2.1 r.2.2.1 r.2.2.2
      else if ch = '-' && (rest.head?.map (· == '>')).getD false then
        let p1 := advancePos ch line col
        let p2 := advancePos '>' p1.1 p1.2
        { kind := .Arrow, line := startLine, column := startCol }
          :: lexLoop fuel rest.tail p2.1 p2.2
      else if ch = '(' then
        let p := advancePos ch line col
        { kind := .LParen, line := startLine, column := startCol }
          :: lexLoop fuel rest p.1 p.2
      else if ch = ')' then
        let p := advancePos ch line col
        { kind := .RParen, line := startLine, column := startCol }
          :: lexLoop fuel rest p.1 p.2
      else if ch = '{' then
        let p := advancePos ch line col
        { kind := .LCurly, line := startLine, column := startCol }
          :: lexLoop fuel rest p.1 p.2
      else if ch = '}' then
        let p := advancePos ch line col
        { kind := .RCurly, line := startLine, column := startCol }
          :: lexLoop fuel rest p.1 p.2
      else if ch = '+' then
        let p := advancePos ch line col
        { kind := .Plus, line := startLine, column := startCol }
          :: lexLoop fuel rest p.1 p.2
      else if ch = ',' then
        let p := advancePos ch line col
        { kind := .Comma, line := startLine, column := startCol }
          :: lexLoop fuel rest p.1 p.2
      else if ch = ';' then
        let p := advancePos ch line col
        { kind := .Semicolon, line := startLine, column := startCol }
          :: lexLoop fuel rest p.1 p.2
      else if ch = ':' then
        let p := advancePos ch line col
        { kind := .Colon, line := startLine, column := startCol }
          :: lexLoop fuel rest p.1 p.2
      else if ch = '=' && (rest.head?.map (· == '=')).getD false then
        let p1 := advancePos ch line col
        let p2 := advancePos '=' p1.1 p1.2
        { kind := .EqEq, line := startLine, column := startCol }
          :: lexLoop fuel rest.tail p2.1 p2.2
      else if ch = '=' then
        let p := advancePos ch line col
        { kind := .Equals, line := startLine, column := startCol }
          :: lexLoop fuel rest p.1 p.2
      else if ch = '!' && (rest.head?.map (· == '=')).getD false then
        let p1 := advancePos ch line col
        let p2 := advancePos '=' p1.1 p1.2
        { kind := .Ne, line := startLine, column := startCol }
          :: lexLoop fuel rest.tail p2.1 p2.2
      else if ch = '<' && (rest.head?.map (· == '=')).getD false then
        let p1 := advancePos ch line col
        let p2 := advancePos '=' p1.1 p1.2
        { kind := .Le, line := startLine, column := startCol }
          :: lexLoop fuel rest.tail p2.1 p2.2
      else if ch = '<' then
        let p := advancePos ch line col
        { kind := .Lt, line := startLine, column := startCol }
          :: lexLoop fuel rest p.1 p.2
      else if ch = '>' && (rest.head?.map (· == '=')).getD false then
        let p1 := advancePos ch line col
        let p2 := advancePos '=' p1.1 p1.2
        { kind := .Ge, line := startLine, column := startCol }
          :: lexLoop fuel rest.tail p2.1 p2.2
      else if ch = '>' then
        let p := advancePos ch line col
        { kind := .Gt, line := startLine, column := startCol }
          :: lexLoop fuel rest p.1 p.2
      else
        let p := advancePos ch line col
        lexLoop fuel rest p.1 p.2

/-- Mirrors `lex` in `lexer.cpp`. -/
def lex (source : String) : List Token :=
  lexLoop (source.length + 1) source.data 1 1

/-! ## Expression and statement trees (`ast.hpp` / `ast.cpp`)

The C++ `Expr` is one struct with a `kind` tag and a field bag; we model
it as an inductive with one constructor per kind, each carrying exactly
the fields that kind uses.  The `call` constructor also carries the
inferred-signature writeback slots (`inferred_call_param_types`,
`inferred_call_result_type`) that `sema.cpp` and `codegen.cpp` use. -/

inductive Expr where
  | intLit (value : Int)
  | floatLit (value : Float)
  | strLit (value : String)
  | binop (op : BinOp) (left right : Expr)
  | compare (op : CompareOp) (left right : Expr)
  | call (callee : String) (args : List Expr) (call_type_arg : String)
      (inferred_params : List FfiType) (inferred_result : FfiType)
  | varRef (name : String)
  | alloc (type_name : String)
  | allocArray (elem_type : String) (count : Expr)
  | allocBytes (size : Expr)
  | addrOf (e : Expr)
  | load (p : Expr)
  | loadF64 (p : Expr)
  | loadI32 (p : Expr)
  | loadPtr (p : Expr)
  | store (p v : Expr)
  | loadField (p : Expr) (struct_name field_name : String)
  | storeField (p : Expr) (struct_name field_name : String) (v : Expr)
  | cast (e : Expr) (target : String)
  | index (base idx : Expr)
  deriving Repr, Inhabited

/-- `Expr::make_call` defaults: no type argument, no inferred signature. -/
def Expr.mkCall (callee : String) (args : List Expr)
    (call_type_arg : String := "") : Expr :=
  .call callee args call_type_arg [] .Void

/-- Mirrors `struct Stmt`.  `sema.cpp`'s `For` case also reads `cond`,
`for_init` and `for_update` fields that `ast.hpp` does not list and the
parser never sets; the `forS` constructor carries them as options so the
semantic analyzer can be translated verbatim. -/
inductive Stmt where
  | ret (e : Expr)
  | letS (name : String) (init : Expr)
  | exprS (e : Expr)
  | ifS (cond : Expr) (then_body else_body : List Stmt)
  | forS (name : String) (iterable : Option Expr) (cond : Option Expr)
      (for_init for_update : Option Stmt) (body : List Stmt)
  | assign (target value : Expr)
  deriving Repr, Inhabited

/-! ## Parser, expression grammar (`parser.cpp`)

Each parser function takes the remaining token list and returns the
parsed node together with the tokens left over, `none` on failure —
mirroring the C++ index-advancing convention.  A `fuel` argument bounds
the recursion depth; every entry point passes enough fuel that it never
runs out (each chain of four nested calls consumes at least one token). -/

/-- `tokens[i]` with the end-of-input sentinel. -/
def peekKind : List Token → TokenKind
  | [] => .Eof
  | t :: _ => t.kind

/-- Mirrors `at_eof` in `parser.cpp`. -/
def at_eof (ts : List Token) : Bool :=
  peekKind ts == .Eof

/-- Mirrors `is_type_keyword` in `parser.cpp`. -/
def is_type_keyword (k : TokenKind) : Bool :=
  k == .KwVoid || k == .KwI32 || k == .KwI64 || k == .KwF32 || k == .KwF64 || k == .KwPtr

/-- Mirrors `token_to_ffi_type` in `parser.cpp`. -/
def token_to_ffi_type : TokenKind → FfiType
  | .KwVoid => .Void
  | .KwI32 => .I32
  | .KwI64 => .I64
  | .KwF32 => .F32
  | .KwF64 => .F64
  | .KwPtr => .Ptr
  | _ => .Void

/-- Mirrors `is_comparison` in `parser.cpp`. -/
def is_comparison (k : TokenKind) : Bool :=
  k == .EqEq || k == .Ne || k == .Lt || k == .Gt || k == .Le || k == .Ge

/-- Mirrors `token_to_compare_op` in `parser.cpp`. -/
def token_to_compare_op : TokenKind → CompareOp
  | .EqEq => .Eq
  | .Ne => .Ne
  | .Lt => .Lt
  | .Gt => .Gt
  | .Le => .Le
  | .Ge => .Ge
  | _ => .Eq

/-- The `alloc`/`alloc_array` type-name switch in `parse_primary`
(`Ident` is handled by the caller; `KwVoid` falls to `default: return
nullptr`). -/
def alloc_type_name_of_kind : TokenKind → Option String
  | .KwI32 => some "i32"
  | .KwI64 => some "i64"
  | .KwF32 => some "f32"
  | .KwF64 => some "f64"
  | .KwPtr => some "ptr"
  | _ => none

/-- The `range`/`from_str` type-argument cases (`i64|i32|f64|f32`). -/
def range_type_arg_of_kind : TokenKind → Option String
  | .KwI64 => some "i64"
  | .KwI32 => some "i32"
  | .KwF64 => some "f64"
  | .KwF32 => some "f32"
  | _ => none

/-- The `as`-cast target switch at the end of `parse_additive`. -/
def cast_target_of_kind : TokenKind → Option String
  | .KwPtr => some "ptr"
  | .KwI64 => some "i64"
  | .KwI32 => some "i32"
  | .KwF64 => some "f64"
  | .KwF32 => some "f32"
  | _ => none

mutual

/-- Mirrors `parse_primary` in `parser.cpp`. -/
def parse_primary : Nat → List Token → Option (Expr × List Token)
  | 0, _ => none
  | fuel + 1, ts =>
    if at_eof ts then none else
    match ts with
    | [] => none
    | t :: ts1 =>
      match t.kind with
      | .IntLiteral => some (.intLit t.int_value, ts1)
      | .FloatLiteral => some (.floatLit t.float_value, ts1)
      | .StringLiteral => some (.strLit t.str_value, ts1)
      | .Ident =>
        let name := t.ident
        if at_eof ts1 || !(peekKind ts1 == .LParen) then
          some (.varRef name, ts1)
        else
        let ts2 := ts1.tail
        if name == "alloc" then
          if at_eof ts2 then none else
          match ts2 with
          | [] => none
          | tt :: ts3 =>
            let tn? : Option String :=
              if tt.kind == .Ident then some tt.ident
              else if is_type_keyword tt.kind then alloc_type_name_of_kind tt.kind
              else none
            match tn? with
            | none => none
            | some tn =>
              if at_eof ts3 || !(peekKind ts3 == .RParen) then none
              else some (.alloc tn, ts3.tail)
        else if name == "alloc_array" then
          if at_eof ts2 then none else
          match ts2 with
          | [] => none
          | tt :: ts3 =>
            let tn? : Option String :=
              if tt.kind == .Ident then some tt.ident
              else if is_type_keyword tt.kind then alloc_type_name_of_kind tt.kind
              else none
            match tn? with
            | none => none
            | some tn =>
              if at_eof ts3 || !(peekKind ts3 == .Comma) then none
              else
                match parse_expr fuel ts3.tail with
                | none => none
                | some (cnt, ts4) =>
                  if at_eof ts4 || !(peekKind ts4 == .RParen) then none
                  else some (.allocArray tn cnt, ts4.tail)
        else if name == "alloc_bytes" then
          match parse_expr fuel ts2 with
          | none => none
          | some (sz, ts3) =>
            if at_eof ts3 || !(peekKind ts3 == .RParen) then none
            else some (.allocBytes sz, ts3.tail)
        else if name == "addr_of" then
          match parse_expr fuel ts2 with
          | none => none
          | some (inner, ts3) =>
            if at_eof ts3 || !(peekKind ts3 == .RParen) then none
            else some (.addrOf inner, ts3.tail)
        else if name == "load" then
          match parse_expr fuel ts2 with
          | none => none
          | some (inner, ts3) =>
            if at_eof ts3 || !(peekKind ts3 == .RParen) then none
            else some (.load inner, ts3.tail)
        else if name == "load_f64" then
          match parse_expr fuel ts2 with
          | none => none
          | some (inner, ts3) =>
            if at_eof ts3 || !(peekKind ts3 == .RParen) then none
            else some (.loadF64 inner, ts3.tail)
        else if name == "load_i32" then
          match parse_expr fuel ts2 with
          | none => none
          | some (inner, ts3) =>
            if at_eof ts3 || !(peekKind ts3 == .RParen) then none
            else some (.loadI32 inner, ts3.tail)
        else if name == "load_ptr" then
          match parse_expr fuel ts2 with
          | none => none
          | some (inner, ts3) =>
            if at_eof ts3 || !(peekKind ts3 == .RParen) then none
            else some (.loadPtr inner, ts3.tail)
        else if name == "store" then
          match parse_expr fuel ts2 with
          | none => none
          | some (pe, ts3) =>
            if at_eof ts3 || !(peekKind ts3 == .Comma) then none
            else
              match parse_expr fuel ts3.tail with
              | none => none
              | some (ve, ts4) =>
                if at_eof ts4 || !(peekKind ts4 == .RParen) then none
                else some (.store pe ve, ts4.tail)
        else if name == "load_field" then
          match parse_expr fuel ts2 with
          | none => none
          | some (pe, ts3) =>
            if at_eof ts3 || !(peekKind ts3 == .Comma) then none else
            match ts3.tail with
            | [] => none
            | ts' =>
              if at_eof ts' || !(peekKind ts' == .Ident) then none else
              match ts' with
              | [] => none
              | st :: ts4 =>
                let sname := st.ident
                if at_eof ts4 || !(peekKind ts4 == .Comma) then none else
                match ts4.tail with
                | [] => none
                | ts'' =>
                  if at_eof ts'' || !(peekKind ts'' == .Ident) then none else
                  match ts'' with
                  | [] => none
                  | ft :: ts5 =>
                    let fname := ft.ident
                    if at_eof ts5 || !(peekKind ts5 == .RParen) then none
                    else some (.loadField pe sname fname, ts5.tail)
        else if name == "store_field" then
          match parse_expr fuel ts2 with
          | none => none
          | some (pe, ts3) =>
            if at_eof ts3 || !(peekKind ts3 == .Comma) then none else
            match ts3.tail with
            | [] => none
            | ts' =>
              if at_eof ts' || !(peekKind ts' == .Ident) then none else
              match ts' with
              | [] => none
              | st :: ts4 =>
                let sname := st.ident
                if at_eof ts4 || !(peekKind ts4 == .Comma) then none else
                match ts4.tail with
                | [] => none
                | ts'' =>
                  if at_eof ts'' || !(peekKind ts'' == .Ident) then none else
                  match ts'' with
                  | [] => none
                  | ft :: ts5 =>
                    let fname := ft.ident
                    if at_eof ts5 || !(peekKind ts5 == .Comma) then none else
                    match parse_expr fuel ts5.tail with
                    | none => none
                    | some (ve, ts6) =>
                      if at_eof ts6 || !(peekKind ts6 == .RParen) then none
                      else some (.storeField pe sname fname ve, ts6.tail)
        else if name == "range" then
          match parse_expr fuel ts2 with
          | none => none
          | some (first, ts3) =>
            let state : Option (List Expr × String × List Token) :=
              if !(at_eof ts3) && peekKind ts3 == .Comma then
                let ts4 := ts3.tail
                if at_eof ts4 then some ([first], "", ts4) else
                match range_type_arg_of_kind (peekKind ts4) with
                | some ty => some ([first], ty, ts4.tail)
                | none =>
                  match parse_expr fuel ts4 with
                  | none => none
                  | some (second, ts5) =>
                    if !(at_eof ts5) && peekKind ts5 == .Comma then
                      let ts6 := ts5.tail
                      if at_eof ts6 then some ([first, second], "", ts6) else
                      match range_type_arg_of_kind (peekKind ts6) with
                      | some ty => some ([first, second], ty, ts6.tail)
                      | none => some ([first, second], "", ts6)
                    else some ([first, second], "", ts5)
              else some ([first], "", ts3)
            match state with
            | none => none
            | some (args, tyArg, tsEnd) =>
              if at_eof tsEnd || !(peekKind tsEnd == .RParen) then none
              else some (.call "range" args tyArg [] .Void, tsEnd.tail)
        else if name == "from_str" then
          match parse_expr fuel ts2 with
          | none => none
          | some (se, ts3) =>
            let state : String × List Token :=
              if !(at_eof ts3) && peekKind ts3 == .Comma then
                let ts4 := ts3.tail
                if at_eof ts4 then ("", ts4) else
                if peekKind ts4 == .KwI64 then ("i64", ts4.tail)
                else if peekKind ts4 == .KwF64 then ("f64", ts4.tail)
                else ("", ts4)
              else ("", ts3)
            if at_eof state.2 || !(peekKind state.2 == .RParen) then none
            else some (.call "from_str" [se] state.1 [] .Void, state.2.tail)
        else
          let argsRes : Option (List Expr × List Token) :=
            if !(at_eof ts2) && !(peekKind ts2 == .RParen) then
              match parse_expr fuel ts2 with
              | none => none
              | some (arg, ts3) => parse_call_args fuel [arg] ts3
            else some ([], ts2)
          match argsRes with
          | none => none
          | some (args, ts3) =>
            if at_eof ts3 || !(peekKind ts3 == .RParen) then none
            else some (.call name args "" [] .Void, ts3.tail)
      | .LParen =>
        match parse_expr fuel ts1 with
        | none => none
        | some (inner, ts2) =>
          if at_eof ts2 || !(peekKind ts2 == .RParen) then none
          else some (inner, ts2.tail)
      | _ => none

/-- The `while (Comma)`-argument loop of the generic call case in
`parse_primary`. -/
def parse_call_args : Nat → List Expr → List Token → Option (List Expr × List Token)
  | 0, _, _ => none
  | fuel + 1, args, ts =>
    if !(at_eof ts) && peekKind ts == .Comma then
      match parse_expr fuel ts.tail with
      | none => none
      | some (arg, ts2) => parse_call_args fuel (args ++ [arg]) ts2
    else some (args, ts)

/-- Mirrors `parse_postfix` in `parser.cpp`: zero or more `[ expr ]`
subscripts. -/
def parse_postfix : Nat → Expr → List Token → Option (Expr × List Token)
  | 0, _, _ => none
  | fuel + 1, base, ts =>
    if !(at_eof ts) && peekKind ts == .LBracket then
      match parse_expr fuel ts.tail with
      | none => none
      | some (idx, ts2) =>
        if at_eof ts2 || !(peekKind ts2 == .RBracket) then none
        else parse_postfix fuel (.index base idx) ts2.tail
    else some (base, ts)

/-- Mirrors `parse_multiplicative` in `parser.cpp`. -/
def parse_multiplicative : Nat → List Token → Option (Expr × List Token)
  | 0, _ => none
  | fuel + 1, ts =>
    match parse_primary fuel ts with
    | none => none
    | some (left, ts1) =>
      match parse_postfix fuel left ts1 with
      | none => none
      | some (left, ts2) => parse_mul_loop fuel left ts2

/-- The `while (Star | Slash)` loop of `parse_multiplicative`. -/
def parse_mul_loop : Nat → Expr → List Token → Option (Expr × List Token)
  | 0, _, _ => none
  | fuel + 1, left, ts =>
    if !(at_eof ts) && (peekKind ts == .Star || peekKind ts == .Slash) then
      let op : BinOp := if peekKind ts == .Star then .Mul else .Div
      match parse_primary fuel ts.tail with
      | none => none
      | some (right, ts2) =>
        match parse_postfix fuel right ts2 with
        | none => none
        | some (right, ts3) => parse_mul_loop fuel (.binop op left right) ts3
    else some (left, ts)

/-- Mirrors `parse_additive` in `parser.cpp` (including the trailing
optional `as TYPE` cast). -/
def parse_additive : Nat → List Token → Option (Expr × List Token)
  | 0, _ => none
  | fuel + 1, ts =>
    match parse_multiplicative fuel ts with
    | none => none
    | some (left, ts1) =>
      match parse_add_loop fuel left ts1 with
      | none => none
      | some (left, ts2) =>
        if !(at_eof ts2) && peekKind ts2 == .KwAs then
          let ts3 := ts2.tail
          if at_eof ts3 then none else
          match cast_target_of_kind (peekKind ts3) with
          | none => none
          | some tn => some (.cast left tn, ts3.tail)
        else some (left, ts2)

/-- The `while (Plus | Minus)` loop of `parse_additive`. -/
def parse_add_loop : Nat → Expr → List Token → Option (Expr × List Token)
  | 0, _, _ => none
  | fuel + 1, left, ts =>
    if !(at_eof ts) && (peekKind ts == .Plus || peekKind ts == .Minus) then
      let op : BinOp := if peekKind ts == .Plus then .Add else .Sub
      match parse_multiplicative fuel ts.tail with
      | none => none
      | some (right, ts2) => parse_add_loop fuel (.binop op left right) ts2
    else some (left, ts)

/-- Mirrors `parse_expr` in `parser.cpp`: comparison level, lowest
precedence, left associative. -/
def parse_expr : Nat → List Token → Option (Expr × List Token)
  | 0, _ => none
  | fuel + 1, ts =>
    match parse_additive fuel ts with
    | none => none
    | some (left, ts1) => parse_cmp_loop fuel left ts1

/-- The `while (is_comparison)` loop of `parse_expr`. -/
def parse_cmp_loop : Nat → Expr → List Token → Option (Expr × List Token)
  | 0, _, _ => none
  | fuel + 1, left, ts =>
    if !(at_eof ts) && is_comparison (peekKind ts) then
      let op := token_to_compare_op (peekKind ts)
      match parse_additive fuel ts.tail with
      | none => none
      | some (right, ts2) => parse_cmp_loop fuel (.compare op left right) ts2
    else some (left, ts)

end

/-- A token that carries only a kind (operator and end-of-input tokens in
the streams below). -/
def tokOf (k : TokenKind) : Token :=
  { kind := k }

/-- The expression an identifier-or-literal operand token parses to. -/
def operandExpr (t : Token) : Expr :=
  match t.kind with
  | .IntLiteral => .intLit t.int_value
  | .FloatLiteral => .floatLit t.float_value
  | .StringLiteral => .strLit t.str_value
  | _ => .varRef t.ident

/-- Operand shape for the precedence theorem: an integer literal, float
literal, string literal, or identifier token. -/
def isOperandTok (t : Token) : Prop :=
  t.kind = .IntLiteral ∨ t.kind = .FloatLiteral ∨ t.kind = .StringLiteral ∨
    t.kind = .Ident

/-! ## Program structure (`ast.hpp`, with the fields the `.cpp` files use) -/

/-- Mirrors `struct FnPtrSig` (`sema.hpp`). -/
structure FnPtrSig where
  params : List FfiType := []
  result : FfiType := .Void
  deriving DecidableEq, Repr, Inhabited

/-- Mirrors `struct ExternLib`. -/
structure ExternLib where
  path : String
  name : String := ""
  deriving DecidableEq, Repr, Inhabited

/-- Mirrors `struct ExternFn`. -/
structure ExternFn where
  name : String
  params : List (String × FfiType) := []
  param_type_names : List String := []
  return_type : FfiType := .Void
  return_type_name : String := ""
  lib_name : String := ""
  deriving DecidableEq, Repr, Inhabited

/-- Mirrors `struct FnDef` (with the `exported` flag used by the parser
and the import resolver). -/
structure FnDef where
  name : String
  params : List (String × FfiType) := []
  param_type_names : List String := []
  return_type : FfiType := .Void
  return_type_name : String := ""
  body : List Stmt := []
  exported : Bool := false
  deriving Repr, Inhabited

/-- Mirrors `struct FnDecl` (import-request function declaration,
`multifile.hpp`). -/
structure FnDecl where
  name : String
  params : List (String × FfiType) := []
  param_type_names : List String := []
  return_type : FfiType := .Void
  return_type_name : String := ""
  deriving DecidableEq, Repr, Inhabited

/-- Mirrors `struct ImportLib`. -/
structure ImportLib where
  name : String
  struct_names : List String := []
  fn_decls : List FnDecl := []
  deriving Repr, Inhabited

/-- Mirrors `struct LetBinding`. -/
structure LetBinding where
  name : String
  init : Expr
  deriving Repr, Inhabited

/-- Mirrors `TopLevelItem = std::variant<LetBinding, ExprPtr, StmtPtr>`. -/
inductive TopLevelItem where
  | letB (b : LetBinding)
  | expr (e : Expr)
  | stmt (s : Stmt)
  deriving Repr, Inhabited

/-- Mirrors `struct Program`. -/
structure Program where
  opaque_types : List String := []
  struct_defs : List StructDef := []
  libs : List ExternLib := []
  extern_fns : List ExternFn := []
  user_fns : List FnDef := []
  import_libs : List ImportLib := []
  top_level : List TopLevelItem := []
  deriving Repr, Inhabited

/-! ## Semantic analyzer (`sema.cpp`)

`unordered_map`s become association lists where an insert conses at the
front and a lookup takes the first match (so a later insert for the same
key shadows the earlier one, like the C++ overwrite).  A scope stack is a
list whose head is the innermost scope (the C++ `vector::back()`), and a
scope lookup walks the stack from the head, i.e. in the C++
`rbegin()…rend()` order.  Errors are returned through `Except String`
instead of the C++ `ctx.err` out-parameter; the few code paths that
`return false` without setting a message become `.error ""`. -/

/-- First-match association-list lookup. -/
def mapFind {α : Type} (m : List (String × α)) (k : String) : Option α :=
  (m.find? (fun p => p.1 == k)).map (·.2)

/-- Insert with shadowing (lookup-equivalent to `unordered_map`
assignment). -/
def mapInsert {α : Type} (m : List (String × α)) (k : String) (v : α) :
    List (String × α) :=
  (k, v) :: m

/-- Scope-stack lookup, innermost scope first. -/
def scopesFind {α : Type} : List (List (String × α)) → String → Option α
  | [], _ => none
  | scope :: rest, name =>
    match mapFind scope name with
    | some v => some v
    | none => scopesFind rest name

/-- Mirrors `fn_def_to_sig` (both `sema.cpp` and `codegen.cpp` define it
identically). -/
def fn_def_to_sig (d : FnDef) : FnPtrSig :=
  { params := d.params.map Prod.snd, result := d.return_type }

/-- Mirrors `extern_fn_to_sig`. -/
def extern_fn_to_sig (e : ExternFn) : FnPtrSig :=
  { params := e.params.map Prod.snd, result := e.return_type }

/-- Mirrors `struct SemaContext` (the fields the translated functions
read; `lib_names` is a local of `check` in the C++ and lives there). -/
structure SemaCtx where
  extern_fn_by_name : List (String × ExternFn) := []
  user_fn_by_name : List (String × FnDef) := []
  var_scope_stack : List (List (String × FfiType)) := []
  array_element_scope_stack : List (List (String × FfiType)) := []
  fnptr_scope_stack : List (List (String × FnPtrSig)) := []
  layout_map : List (String × StructLayout) := []
  program : Program := {}
  has_expected_return_type : Bool := false
  expected_return_type : FfiType := .Void
  deriving Inhabited

/-- Mirrors `var_type_lookup` in `sema.cpp`. -/
def var_type_lookup (ctx : SemaCtx) (name : String) : Option FfiType :=
  scopesFind ctx.var_scope_stack name

/-- Mirrors `array_elem_lookup` in `sema.cpp` (Void when unknown). -/
def sema_array_elem_lookup (ctx : SemaCtx) (name : String) : FfiType :=
  (scopesFind ctx.array_element_scope_stack name).getD .Void

/-- Mirrors `is_alloc_type` in `sema.cpp`. -/
def is_alloc_type (name : String) (program : Program) : Bool :=
  name == "i32" || name == "i64" || name == "f32" || name == "f64" || name == "ptr"
    || program.struct_defs.any (fun s => s.name == name)

/-- Mirrors `get_array_element_type` in `sema.cpp`. -/
def get_array_element_type (ctx : SemaCtx) : Expr → FfiType
  | .varRef nm => sema_array_elem_lookup ctx nm
  | .allocArray t _ =>
    if t == "i32" then .I32
    else if t == "i64" then .I64
    else if t == "f32" then .F32
    else if t == "f64" then .F64
    else if t == "ptr" then .Ptr
    else .Void
  | _ => .Void

/-- Mirrors `lookup_fnptr_sig` in `sema.cpp`: scope stack first, then the
user-function table, then the extern table; or the `get_func_ptr(NAME)`
shape. -/
def lookup_fnptr_sig (ctx : SemaCtx) : Expr → Option FnPtrSig
  | .varRef nm =>
    match scopesFind ctx.fnptr_scope_stack nm with
    | some s => some s
    | none =>
      match mapFind ctx.user_fn_by_name nm with
      | some d => some (fn_def_to_sig d)
      | none =>
        match mapFind ctx.extern_fn_by_name nm with
        | some e => some (extern_fn_to_sig e)
        | none => none
  | .call callee args _ _ _ =>
    if callee == "get_func_ptr" then
      match args with
      | [Expr.varRef fn_name] =>
        match mapFind ctx.user_fn_by_name fn_name with
        | some d => some (fn_def_to_sig d)
        | none =>
          match mapFind ctx.extern_fn_by_name fn_name with
          | some e => some (extern_fn_to_sig e)
          | none => none
      | _ => none
    else none
  | _ => none

/-- The struct-field type lookup used by `expr_type` for `LoadField`. -/
def layout_field_type (m : List (String × StructLayout)) (sname fname : String) :
    FfiType :=
  match mapFind m sname with
  | none => .Void
  | some l =>
    match l.fields.find? (fun f => f.1 == fname) with
    | some f => f.2.type
    | none => .Void

/-- Mirrors `expr_type` in `sema.cpp`.  The C++ takes a nullable context
pointer but every call inside the analyzer passes a real context, so the
`if (ctx)` guards are always taken. -/
def sema_expr_type (ctx : SemaCtx) : Expr → FfiType
  | .intLit _ => .I64
  | .floatLit _ => .F64
  | .strLit _ => .Ptr
  | .binop _ l r =>
    if sema_expr_type ctx l == .F64 || sema_expr_type ctx r == .F64 then .F64 else .I64
  | .call callee args call_type_arg inferred_params inferred_result =>
    if callee == "get_func_ptr" then .Ptr
    else if callee == "call" then
      match args with
      | target :: _ =>
        match lookup_fnptr_sig ctx target with
        | some sig => sig.result
        | none => if inferred_params.isEmpty then .Void else inferred_result
      | [] => .Void
    else if callee == "print" then .Void
    else if callee == "len" then .I64
    else if callee == "read_line" || callee == "read_line_file" then .Ptr
    else if callee == "to_str" then .Ptr
    else if callee == "from_str" then
      if call_type_arg == "i64" then .I64
      else if call_type_arg == "f64" then .F64
      else .Void
    else if callee == "open" then .Ptr
    else if callee == "close" then .Void
    else if callee == "write_file" then .Void
    else if callee == "eof_file" || callee == "line_count_file" then .I64
    else
      match mapFind ctx.extern_fn_by_name callee with
      | some e => e.return_type
      | none =>
        match mapFind ctx.user_fn_by_name callee with
        | some d => d.return_type
        | none => .Void
  | .varRef nm => (var_type_lookup ctx nm).getD .Void
  | .alloc _ => .Ptr
  | .allocArray _ _ => .Ptr
  | .allocBytes _ => .Ptr
  | .addrOf _ => .Ptr
  | .load _ => .I64
  | .loadI32 _ => .I64
  | .loadF64 _ => .F64
  | .loadPtr _ => .Ptr
  | .store _ _ => .Void
  | .storeField _ _ _ _ => .Void
  | .loadField _ sname fname => layout_field_type ctx.layout_map sname fname
  | .cast _ tn =>
    if tn == "ptr" then .Ptr
    else if tn == "i64" then .I64
    else if tn == "i32" then .I32
    else if tn == "f64" then .F64
    else if tn == "f32" then .F32
    else .Void
  | .compare _ _ _ => .I64
  | .index base _ =>
    let elem := get_array_element_type ctx base
    if elem != .Void then elem else .I64

/-- The argument-compatibility rule of the `call` builtin in `check_expr`
(numeric coercions and the Ptr⇄I64 pair). -/
def call_arg_compat (arg_ty want : FfiType) : Bool :=
  arg_ty == want
    || (arg_ty == .I64 && (want == .F64 || want == .F32))
    || (arg_ty == .F64 && want == .I64)
    || (arg_ty == .Ptr && want == .I64)
    || (arg_ty == .I64 && want == .Ptr)

mutual

/-- Mirrors `check_expr` in `sema.cpp`.  Instead of mutating the AST and
an error slot, it returns the annotated expression or the first error
message.  In the `call` builtin with an unresolvable target, the C++
checks the arguments once to infer the signature and then re-runs the
same checks in the validation loop; the second run is a no-op on the
already-annotated arguments, so the translation performs the checks once
and validates the inferred types directly. -/
def check_expr (ctx : SemaCtx) : Expr → Except String Expr
  | .intLit v => .ok (.intLit v)
  | .floatLit v => .ok (.floatLit v)
  | .strLit v => .ok (.strLit v)
  | .binop op l r => do
    let l' ← check_expr ctx l
    let r' ← check_expr ctx r
    .ok (.binop op l' r')
  | .call callee args cta ip ir =>
    if callee == "get_func_ptr" then
      match args with
      | [a] =>
        match a with
        | .varRef fn_name =>
          if (mapFind ctx.user_fn_by_name fn_name).isNone
              && (mapFind ctx.extern_fn_by_name fn_name).isNone then
            .error ("get_func_ptr: unknown function '" ++ fn_name ++ "'")
          else .ok (.call callee args cta ip ir)
        | _ => .error "get_func_ptr argument must be a function name"
      | _ => .error "get_func_ptr expects exactly one argument"
    else if callee == "call" then
      match args with
      | [] => .error "call expects at least a function pointer argument"
      | target :: rest => do
        let target' ← check_expr ctx target
        if !(sema_expr_type ctx target' == .Ptr) then
          .error "call first argument must be a function pointer"
        else
          match lookup_fnptr_sig ctx target' with
          | some sig =>
            if rest.length != sig.params.length then
              .error "call: wrong number of arguments for function pointer"
            else do
              let rest' ← check_call_known ctx rest sig.params
              .ok (.call callee (target' :: rest') cta ip ir)
          | none => do
            let rest' ← check_expr_list ctx rest
            let sigParams := rest'.map (sema_expr_type ctx)
            let sigResult :=
              if ctx.has_expected_return_type then ctx.expected_return_type
              else FfiType.Void
            if rest'.length != sigParams.length then
              .error "call: wrong number of arguments for function pointer"
            else if (rest'.zip sigParams).all
                (fun p => call_arg_compat (sema_expr_type ctx p.1) p.2) then
              .ok (.call callee (target' :: rest') cta sigParams sigResult)
            else .error "call: argument type mismatch for function pointer"
    else if callee == "print" then
      if args.length != 1 && args.length != 2 then
        .error "print expects 1 or 2 arguments"
      else
        match args with
        | a :: restArgs => do
          let a' ← check_expr ctx a
          let arg_ty := sema_expr_type ctx a'
          if !(arg_ty == .I64) && !(arg_ty == .F64) && !(arg_ty == .Ptr) then
            .error "print expects i64, f64, or pointer argument"
          else
            match restArgs with
            | [] => .ok (.call callee [a'] cta ip ir)
            | b :: _ => do
              let b' ← check_expr ctx b
              if !(sema_expr_type ctx b' == .I64) then
                .error "print stream argument must be i64"
              else .ok (.call callee [a', b'] cta ip ir)
        | [] => .error "print expects 1 or 2 arguments"
    else if callee == "read_line" then
      if args.length != 0 then .error "read_line expects no arguments"
      else .ok (.call callee args cta ip ir)
    else if callee == "to_str" then
      match args with
      | [a] => do
        let a' ← check_expr ctx a
        let t := sema_expr_type ctx a'
        if !(t == .I64) && !(t == .F64) then
          .error "to_str expects i64 or f64 argument"
        else .ok (.call callee [a'] cta ip ir)
      | _ => .error "to_str expects exactly one argument"
    else if callee == "from_str" then
      match args with
      | [a] => do
        let a' ← check_expr ctx a
        if !(sema_expr_type ctx a' == .Ptr) then
          .error "from_str expects pointer (string) argument"
        else if cta != "i64" && cta != "f64" then
          .error "from_str requires type argument: use from_str(s, i64) or from_str(s, f64)"
        else .ok (.call callee [a'] cta ip ir)
      | _ => .error "from_str expects one argument (string)"
    else if callee == "open" then
      match args with
      | [a, b] => do
        let a' ← check_expr ctx a
        let b' ← check_expr ctx b
        if !(sema_expr_type ctx a' == .Ptr) || !(sema_expr_type ctx b' == .Ptr) then
          .error "open expects two pointer (string) arguments"
        else .ok (.call callee [a', b'] cta ip ir)
      | _ => .error "open expects (path, mode)"
    else if callee == "close" then
      match args with
      | [a] => do
        let a' ← check_expr ctx a
        if !(sema_expr_type ctx a' == .Ptr) then
          .error "close expects pointer argument"
        else .ok (.call callee [a'] cta ip ir)
      | _ => .error "close expects one argument (file handle)"
    else if callee == "read_line_file" then
      match args with
      | [a] => do
        let a' ← check_expr ctx a
        if !(sema_expr_type ctx a' == .Ptr) then
          .error "read_line_file expects pointer argument"
        else .ok (.call callee [a'] cta ip ir)
      | _ => .error "read_line_file expects one argument (file handle)"
    else if callee == "write_file" then
      match args with
      | [a, b] => do
        let a' ← check_expr ctx a
        let b' ← check_expr ctx b
        if !(sema_expr_type ctx a' == .Ptr) then
          .error "write_file first argument must be pointer (file handle)"
        else
          let val_ty := sema_expr_type ctx b'
          if !(val_ty == .I64) && !(val_ty == .F64) && !(val_ty == .Ptr) then
            .error "write_file second argument must be i64, f64, or ptr"
          else .ok (.call callee [a', b'] cta ip ir)
      | _ => .error "write_file expects (handle, value)"
    else if callee == "eof_file" then
      match args with
      | [a] => do
        let a' ← check_expr ctx a
        if !(sema_expr_type ctx a' == .Ptr) then
          .error "eof_file expects pointer argument"
        else .ok (.call callee [a'] cta ip ir)
      | _ => .error "eof_file expects one argument (file handle)"
    else if callee == "line_count_file" then
      match args with
      | [a] => do
        let a' ← check_expr ctx a
        if !(sema_expr_type ctx a' == .Ptr) then
          .error "line_count_file expects pointer argument"
        else .ok (.call callee [a'] cta ip ir)
      | _ => .error "line_count_file expects one argument (file handle)"
    else if callee == "len" then
      match args with
      | [a] => do
        let a' ← check_expr ctx a
        if !(sema_expr_type ctx a' == .Ptr) then
          .error "len expects a pointer (array)"
        else .ok (.call callee [a'] cta ip ir)
      | _ => .error "len expects 1 argument"
    else
      match mapFind ctx.extern_fn_by_name callee with
      | some ext =>
        if args.length != ext.params.length then
          .error ("call to '" ++ callee ++ "' has wrong number of arguments")
        else do
          let args' ← check_args_exact ctx args (ext.params.map Prod.snd) callee
          .ok (.call callee args' cta ip ir)
      | none =>
        match mapFind ctx.user_fn_by_name callee with
        | some d =>
          if args.length != d.params.length then
            .error ("call to '" ++ callee ++ "' has wrong number of arguments")
          else do
            let args' ← check_args_exact ctx args (d.params.map Prod.snd) callee
            .ok (.call callee args' cta ip ir)
        | none => .error ("unknown function '" ++ callee ++ "'")
  | .varRef nm =>
    if (var_type_lookup ctx nm).isNone then
      .error ("undefined variable '" ++ nm ++ "'")
    else .ok (.varRef nm)
  | .alloc tn =>
    if !(is_alloc_type tn ctx.program) then
      .error ("alloc: unknown type '" ++ tn ++ "'")
    else .ok (.alloc tn)
  | .allocArray tn cnt =>
    if !(is_alloc_type tn ctx.program) then
      .error ("alloc_array: unknown element type '" ++ tn ++ "'")
    else do
      let cnt' ← check_expr ctx cnt
      if !(sema_expr_type ctx cnt' == .I64) then
        .error "alloc_array: count must be i64"
      else .ok (.allocArray tn cnt')
  | .index b i => do
    let b' ← check_expr ctx b
    let i' ← check_expr ctx i
    if !(sema_expr_type ctx b' == .Ptr) then
      .error "index: base must be a pointer (array)"
    else if !(sema_expr_type ctx i' == .I64) then
      .error "index: index must be i64"
    else .ok (.index b' i')
  | .allocBytes sz => do
    let sz' ← check_expr ctx sz
    if !(sema_expr_type ctx sz' == .I64) then
      .error "alloc_bytes: size must be i64"
    else .ok (.allocBytes sz')
  | .addrOf e =>
    match e with
    | .varRef nm => do
      let e' ← check_expr ctx (.varRef nm)
      .ok (.addrOf e')
    | _ => .error "addr_of: argument must be a variable"
  | .load p => do
    let p' ← check_expr ctx p
    if !(sema_expr_type ctx p' == .Ptr) then
      .error "load/load_f64/load_ptr: argument must be a pointer"
    else .ok (.load p')
  | .loadF64 p => do
    let p' ← check_expr ctx p
    if !(sema_expr_type ctx p' == .Ptr) then
      .error "load/load_f64/load_ptr: argument must be a pointer"
    else .ok (.loadF64 p')
  | .loadI32 p => do
    let p' ← check_expr ctx p
    if !(sema_expr_type ctx p' == .Ptr) then
      .error "load/load_f64/load_ptr: argument must be a pointer"
    else .ok (.loadI32 p')
  | .loadPtr p => do
    let p' ← check_expr ctx p
    if !(sema_expr_type ctx p' == .Ptr) then
      .error "load/load_f64/load_ptr: argument must be a pointer"
    else .ok (.loadPtr p')
  | .store p v => do
    let p' ← check_expr ctx p
    let v' ← check_expr ctx v
    if !(sema_expr_type ctx p' == .Ptr) then
      .error "store: first argument must be a pointer"
    else .ok (.store p' v')
  | .loadField p sname fname => do
    let p' ← check_expr ctx p
    if !(sema_expr_type ctx p' == .Ptr) then
      .error "load_field: first argument must be a pointer"
    else
      match mapFind ctx.layout_map sname with
      | none => .error ("load_field: unknown struct '" ++ sname ++ "'")
      | some l =>
        if l.fields.any (fun f => f.1 == fname) then
          .ok (.loadField p' sname fname)
        else
          .error ("load_field: unknown field '" ++ fname ++ "' in struct '"
            ++ sname ++ "'")
  | .storeField p sname fname v => do
    let p' ← check_expr ctx p
    let v' ← check_expr ctx v
    if !(sema_expr_type ctx p' == .Ptr) then
      .error "store_field: first argument must be a pointer"
    else
      match mapFind ctx.layout_map sname with
      | none => .error ("store_field: unknown struct '" ++ sname ++ "'")
      | some l =>
        let field_ty :=
          match l.fields.find? (fun f => f.1 == fname) with
          | some f => f.2.type
          | none => FfiType.Void
        if field_ty == .Void then
          .error ("store_field: unknown field '" ++ fname ++ "' in struct '"
            ++ sname ++ "'")
        else
          let val_ty := sema_expr_type ctx v'
          if val_ty == field_ty
              || (val_ty == .Ptr && field_ty == .I64)
              || (val_ty == .I64 && field_ty == .Ptr) then
            .ok (.storeField p' sname fname v')
          else .error "store_field: value type does not match field type"
  | .cast e tn =>
    if tn == "" then .error ""
    else do
      let e' ← check_expr ctx e
      let from_ty := sema_expr_type ctx e'
      if tn == "ptr" then
        if !(from_ty == .Ptr) then .error "cast to ptr: operand must be a pointer"
        else .ok (.cast e' tn)
      else if tn == "i64" || tn == "i32" || tn == "f64" || tn == "f32" then
        if from_ty == .I64 || from_ty == .I32 || from_ty == .F64 || from_ty == .F32 then
          .ok (.cast e' tn)
        else .error "cast to numeric type: operand must be i64, i32, f64, or f32"
      else .error "cast: target type must be ptr, i64, i32, f64, or f32"
  | .compare op l r => do
    let l' ← check_expr ctx l
    let r' ← check_expr ctx r
    let lt := sema_expr_type ctx l'
    let rt := sema_expr_type ctx r'
    if lt == .Ptr && rt == .Ptr then
      if !(op == CompareOp.Eq) && !(op == CompareOp.Ne) then
        .error "pointer comparison only supports == and !="
      else .ok (.compare op l' r')
    else
      if (lt == .I64 || lt == .F64) && (rt == .I64 || rt == .F64) then
        .ok (.compare op l' r')
      else .error "comparison operands must be numeric (i64 or f64)"

/-- The first-pass check of the `call` builtin's arguments when the
signature must be inferred. -/
def check_expr_list (ctx : SemaCtx) : List Expr → Except String (List Expr)
  | [] => .ok []
  | a :: rest => do
    let a' ← check_expr ctx a
    let rest' ← check_expr_list ctx rest
    .ok (a' :: rest')

/-- The validation loop of the `call` builtin when the signature was
resolved by `lookup_fnptr_sig`. -/
def check_call_known (ctx : SemaCtx) :
    List Expr → List FfiType → Except String (List Expr)
  | [], _ => .ok []
  | a :: rest, wants =>
    match wants with
    | [] => .ok []
    | w :: ws => do
      let a' ← check_expr ctx a
      if call_arg_compat (sema_expr_type ctx a') w then do
        let rest' ← check_call_known ctx rest ws
        .ok (a' :: rest')
      else .error "call: argument type mismatch for function pointer"

/-- The per-argument loop of a direct call to an external or user
function: each argument's type must equal the declared parameter type. -/
def check_args_exact (ctx : SemaCtx) :
    List Expr → List FfiType → String → Except String (List Expr)
  | [], _, _ => .ok []
  | a :: rest, wants, callee =>
    match wants with
    | [] => .ok []
    | w :: ws => do
      let a' ← check_expr ctx a
      if !(sema_expr_type ctx a' == w) then
        .error ("argument type mismatch in call to '" ++ callee ++ "'")
      else do
        let rest' ← check_args_exact ctx rest ws callee
        .ok (a' :: rest')

end

/-- `expr->kind == Expr::Kind::Call` test. -/
def Expr.isCallKind : Expr → Bool
  | .call .. => true
  | _ => false

/-- Push a fresh scope onto all three scope stacks (the
`push_back({})` triple in `check_stmt`). -/
def semaPushScopes (ctx : SemaCtx) : SemaCtx :=
  { ctx with
    var_scope_stack := [] :: ctx.var_scope_stack
    array_element_scope_stack := [] :: ctx.array_element_scope_stack
    fnptr_scope_stack := [] :: ctx.fnptr_scope_stack }

/-- Pop the innermost scope from all three scope stacks. -/
def semaPopScopes (ctx : SemaCtx) : SemaCtx :=
  { ctx with
    var_scope_stack := ctx.var_scope_stack.tail
    array_element_scope_stack := ctx.array_element_scope_stack.tail
    fnptr_scope_stack := ctx.fnptr_scope_stack.tail }

/-- `stack.back()[name] = v`: insert into the innermost scope. -/
def scopesInsertBack {α : Type} :
    List (List (String × α)) → String → α → List (List (String × α))
  | [], _, _ => []
  | s :: rest, n, v => mapInsert s n v :: rest

/-- The "duplicate variable" message (with or without a surrounding
function). -/
def dupVarMsg (fd : Option FnDef) (name : String) : String :=
  match fd with
  | some d => "duplicate variable '" ++ name ++ "' in function '" ++ d.name ++ "'"
  | none => "duplicate variable '" ++ name ++ "'"

mutual

/-- Mirrors `check_stmt` in `sema.cpp`.  The context is threaded through
instead of mutated; the statements' annotated expressions only live
locally (nothing later in the analyzer reads them back).  The `For` case
follows the source verbatim: it requires the C-style `cond`/`for_init`/
`for_update` fields (which the parser's for-in statements do not set) and
fails without a message when `cond` is absent. -/
def check_stmt (ctx : SemaCtx) (fd : Option FnDef) : Stmt → Except String SemaCtx
  | .ret e =>
    match fd with
    | none => .error "return only allowed inside a function"
    | some d => do
      let ctx' := { ctx with has_expected_return_type := true,
                             expected_return_type := d.return_type }
      let e' ← check_expr ctx' e
      let ctx'' := { ctx' with has_expected_return_type := false }
      if !(sema_expr_type ctx'' e' == d.return_type) then
        .error ("return type does not match function return type in '"
          ++ d.name ++ "'")
      else .ok ctx''
  | .letS name init => do
    let init' ← check_expr ctx init
    if ctx.var_scope_stack.isEmpty
        || (mapFind (ctx.var_scope_stack.headD []) name).isSome then
      .error (dupVarMsg fd name)
    else
      let let_ty := sema_expr_type ctx init'
      let ctx1 := { ctx with
        var_scope_stack := scopesInsertBack ctx.var_scope_stack name let_ty }
      let ctx2 :=
        if let_ty == FfiType.Ptr && !ctx1.fnptr_scope_stack.isEmpty then
          match lookup_fnptr_sig ctx1 init' with
          | some sig => { ctx1 with
              fnptr_scope_stack := scopesInsertBack ctx1.fnptr_scope_stack name sig }
          | none => ctx1
        else ctx1
      let elem_ty := get_array_element_type ctx2 init'
      let ctx3 :=
        if elem_ty != FfiType.Void then
          { ctx2 with array_element_scope_stack :=
              scopesInsertBack ctx2.array_element_scope_stack name elem_ty }
        else
          match init' with
          | .loadField _ sname fname =>
            if let_ty == FfiType.Ptr then
              match mapFind ctx2.layout_map sname with
              | some l =>
                if l.fields.any (fun f => f.1 == fname && f.2.type == FfiType.Ptr) then
                  { ctx2 with array_element_scope_stack :=
                      scopesInsertBack ctx2.array_element_scope_stack name FfiType.Ptr }
                else ctx2
              | none => ctx2
            else ctx2
          | .call .. =>
            if let_ty == FfiType.Ptr then
              { ctx2 with array_element_scope_stack :=
                  scopesInsertBack ctx2.array_element_scope_stack name FfiType.Ptr }
            else ctx2
          | _ => ctx2
      .ok ctx3
  | .exprS e => do
    let _ ← check_expr ctx e
    .ok ctx
  | .ifS cond then_body else_body => do
    let _ ← check_expr ctx cond
    let ctxT ← check_stmt_list (semaPushScopes ctx) fd then_body
    let ctx1 := semaPopScopes ctxT
    if else_body.isEmpty then .ok ctx1
    else do
      let ctxE ← check_stmt_list (semaPushScopes ctx1) fd else_body
      .ok (semaPopScopes ctxE)
  | .forS _ _ cond for_init for_update body =>
    match cond with
    | none => .error ""
    | some condE => do
      let ctx0 := semaPushScopes ctx
      let ctx1 ←
        match for_init with
        | none => pure ctx0
        | some fi =>
          match fi with
          | .letS n init => do
            let init' ← check_expr ctx0 init
            if (mapFind (ctx0.var_scope_stack.headD []) n).isSome then
              .error (dupVarMsg fd n)
            else
              pure { ctx0 with var_scope_stack :=
                scopesInsertBack ctx0.var_scope_stack n (sema_expr_type ctx0 init') }
          | .assign _ _ => check_stmt ctx0 fd fi
          | _ => pure ctx0
      let _ ← check_expr ctx1 condE
      let ctx2 ←
        match for_update with
        | none => pure ctx1
        | some fu =>
          match fu with
          | .assign _ _ => check_stmt ctx1 fd fu
          | _ => .error ""
      let ctx3 ← check_stmt_list ctx2 fd body
      .ok (semaPopScopes ctx3)
  | .assign target value => do
    let target' ← check_expr ctx target
    let value' ← check_expr ctx value
    match target' with
    | .varRef vn =>
      let var_ty := sema_expr_type ctx (.varRef vn)
      let val_ty := sema_expr_type ctx value'
      if var_ty == val_ty
          || (var_ty == FfiType.Ptr && val_ty == FfiType.I64)
          || (var_ty == FfiType.I64 && val_ty == FfiType.Ptr) then
        if var_ty == FfiType.Ptr && val_ty == FfiType.Ptr
            && !ctx.fnptr_scope_stack.isEmpty then
          match lookup_fnptr_sig ctx value' with
          | some sig => .ok { ctx with
              fnptr_scope_stack := scopesInsertBack ctx.fnptr_scope_stack vn sig }
          | none => .ok ctx
        else .ok ctx
      else .error "assignment type mismatch"
    | .index bse _ =>
      let elem0 := get_array_element_type ctx bse
      let elem_ty := if elem0 == FfiType.Void then FfiType.I64 else elem0
      let val_ty := sema_expr_type ctx value'
      if elem_ty == val_ty
          || (elem_ty == FfiType.Ptr && val_ty == FfiType.I64)
          || (elem_ty == FfiType.I64 && val_ty == FfiType.Ptr) then
        .ok ctx
      else .error "assignment type mismatch for array element"
    | _ => .error "assignment target must be a variable or index"

/-- Statement-sequence checking, threading the context. -/
def check_stmt_list (ctx : SemaCtx) (fd : Option FnDef) :
    List Stmt → Except String SemaCtx
  | [] => .ok ctx
  | s :: rest => do
    let ctx' ← check_stmt ctx fd s
    check_stmt_list ctx' fd rest

end

/-- Mirrors `check_fn_def` in `sema.cpp`: parameters seed the innermost
variable scope (Ptr parameters also seed the array-element scope). -/
def check_fn_def (ctx : SemaCtx) (d : FnDef) : Except String Unit :=
  let localMap := d.params.foldl (fun m p => mapInsert m p.1 p.2) []
  let arrayLocal := d.params.foldl
    (fun m p => if p.2 == FfiType.Ptr then mapInsert m p.1 FfiType.Ptr else m) []
  let fn_ctx : SemaCtx :=
    { layout_map := ctx.layout_map
      program := ctx.program
      extern_fn_by_name := ctx.extern_fn_by_name
      user_fn_by_name := ctx.user_fn_by_name
      var_scope_stack := [localMap]
      array_element_scope_stack := [arrayLocal]
      fnptr_scope_stack := [[]] }
  (check_stmt_list fn_ctx (some d) d.body).map (fun _ => ())

/-- Mirrors `is_named_type_known` in `sema.cpp`. -/
def is_named_type_known (name : String) (p : Program) : Bool :=
  p.opaque_types.any (· == name) || p.struct_defs.any (fun s => s.name == name)

/-- The non-empty-name parameter-type check inside `check`'s extern loop. -/
def check_extern_param_types (p : Program) (ename : String) :
    List String → Except String Unit
  | [] => .ok ()
  | ptn :: rest =>
    if ptn != "" && !(is_named_type_known ptn p) then
      .error ("unknown type '" ++ ptn ++ "' in extern fn '" ++ ename ++ "'")
    else check_extern_param_types p ename rest

/-- The per-extern-function validation loop of `check` in `sema.cpp`:
lib-name membership first, then named parameter types, then the named
return type. -/
def check_extern_fn_loop (lib_names : List String) (p : Program) :
    List ExternFn → Except String Unit
  | [] => .ok ()
  | ext :: rest =>
    if !(lib_names.contains ext.lib_name) then
      .error ("extern fn '" ++ ext.name ++ "' references unknown lib '"
        ++ ext.lib_name ++ "'")
    else
      match (if ext.param_type_names.length == ext.params.length then
          check_extern_param_types p ext.name ext.param_type_names
        else .ok ()) with
      | .error m => .error m
      | .ok _ =>
        if ext.return_type_name != ""
            && !(is_named_type_known ext.return_type_name p) then
          .error ("unknown return type '" ++ ext.return_type_name
            ++ "' in extern fn '" ++ ext.name ++ "'")
        else check_extern_fn_loop lib_names p rest

/-- The user-function registration loop of `check` (conflict with extern
names and duplicate definitions rejected). -/
def register_user_fns (ctx : SemaCtx) : List FnDef → Except String SemaCtx
  | [] => .ok ctx
  | d :: rest =>
    if (mapFind ctx.extern_fn_by_name d.name).isSome then
      .error ("function '" ++ d.name ++ "' conflicts with extern function")
    else if (mapFind ctx.user_fn_by_name d.name).isSome then
      .error ("duplicate function definition '" ++ d.name ++ "'")
    else
      register_user_fns
        { ctx with user_fn_by_name := mapInsert ctx.user_fn_by_name d.name d } rest

/-- The per-function body-checking loop of `check`. -/
def check_fn_defs (ctx : SemaCtx) : List FnDef → Except String Unit
  | [] => .ok ()
  | d :: rest => do
    let _ ← check_fn_def ctx d
    check_fn_defs ctx rest

/-- The top-level item loop of `check` in `sema.cpp`. -/
def check_top_level (ctx : SemaCtx) : List TopLevelItem → Except String SemaCtx
  | [] => .ok ctx
  | item :: rest =>
    match item with
    | .letB b => do
      let init' ← check_expr ctx b.init
      let ty := sema_expr_type ctx init'
      if (mapFind (ctx.var_scope_stack.headD []) b.name).isSome then
        .error ("duplicate variable '" ++ b.name ++ "'")
      else
        let ctx1 := { ctx with
          var_scope_stack := scopesInsertBack ctx.var_scope_stack b.name ty }
        let ctx2 :=
          if ty == FfiType.Ptr then
            match lookup_fnptr_sig ctx1 init' with
            | some sig => { ctx1 with
                fnptr_scope_stack := scopesInsertBack ctx1.fnptr_scope_stack b.name sig }
            | none => ctx1
          else ctx1
        let elem := get_array_element_type ctx2 init'
        let ctx3 :=
          if elem != FfiType.Void then
            { ctx2 with array_element_scope_stack :=
                scopesInsertBack ctx2.array_element_scope_stack b.name elem }
          else if ty == FfiType.Ptr && init'.isCallKind then
            { ctx2 with array_element_scope_stack :=
                scopesInsertBack ctx2.array_element_scope_stack b.name FfiType.Ptr }
          else ctx2
        check_top_level ctx3 rest
    | .expr e => do
      let _ ← check_expr ctx e
      check_top_level ctx rest
    | .stmt s => do
      let ctx' ← check_stmt ctx none s
      check_top_level ctx' rest

/-- Mirrors `check` in `sema.cpp` (the `SemaResult` becomes
`Except String Unit`: `.ok ()` iff the C++ sets `r.ok = true`, and the
error value is the C++ `r.error.message`). -/
def check (p : Program) : Except String Unit :=
  if p.top_level.isEmpty then .error "no program or no statements"
  else if !p.extern_fns.isEmpty && p.libs.isEmpty then
    .error "at least one extern lib required when declaring extern fn"
  else
    let lib_names := p.libs.map (·.name)
    match check_extern_fn_loop lib_names p p.extern_fns with
    | .error m => .error m
    | .ok _ =>
      let layout_map := (build_layout_map p.struct_defs).reverse
      let ctx0 : SemaCtx :=
        { layout_map := layout_map
          program := p
          extern_fn_by_name := p.extern_fns.foldl (fun m e => mapInsert m e.name e) [] }
      match register_user_fns ctx0 p.user_fns with
      | .error m => .error m
      | .ok ctx1 =>
        match check_fn_defs ctx1 p.user_fns with
        | .error m => .error m
        | .ok _ =>
          match check_top_level (semaPushScopes ctx1) p.top_level with
          | .error m => .error m
          | .ok _ => .ok ()

/-- A program with declarations but an empty top-level item list
(for the C9 witness). -/
def c9Demo : Program :=
  { struct_defs := [c2Demo]
    libs := [{ path := "libm.so.6", name := "__lib0" }]
    extern_fns := [{ name := "cos", params := [("x", FfiType.F64)]
                     param_type_names := [""], return_type := FfiType.F64
                     lib_name := "__lib0" }]
    user_fns := [{ name := "id1", params := [("x", FfiType.I64)]
                   param_type_names := [""], return_type := FfiType.I64
                   body := [.ret (.varRef "x")] }]
    top_level := [] }

/-- A program with one extern fn, no extern libs, and a non-empty
top level (for the C10 counterexample's sibling demo). -/
def c10Demo1 : Program :=
  { extern_fns := [{ name := "cos", params := [("x", FfiType.F64)]
                     param_type_names := [""], return_type := FfiType.F64
                     lib_name := "__lib0" }]
    top_level := [.expr (.intLit 1)] }

/-- A program whose extern fn references a lib name that is not
declared. -/
def c10Demo2 : Program :=
  { libs := [{ path := "x.so", name := "L" }]
    extern_fns := [{ name := "foo", lib_name := "M" }]
    top_level := [.expr (.intLit 1)] }

/-- A program with one extern fn, no extern libs, and an *empty* top
level: the C10 counterexample input. -/
def c10Counter : Program :=
  { extern_fns := [{ name := "cos", lib_name := "__lib0" }]
    top_level := [] }

/-! ## IR emitter (`codegen.cpp`)

The emitter builds LLVM IR through `IRBuilder`.  The functions below
embed, for the lowering sites the claims are about, the *computation the
emitted code performs*: each definition mirrors the emitter's case
line by line — the same type dispatch, the same constants, the same
branch conditions — and returns the run-time meaning of the emitted
block (the allocation request, the bounds-check outcome, the recovered
indirect-call signature) instead of builder calls. -/

/-- The codegen-side environment: the fields of `CodegenEnv` that the
translated functions read.  Scope stacks are lists with the innermost
scope at the head, looked up in the C++ `rbegin()…rend()` order. -/
structure CodegenEnv where
  program : Program := {}
  layout_map : List (String × StructLayout) := []
  array_element_scope_stack : List (List (String × FfiType)) := []
  fnptr_scope_stack : List (List (String × FnPtrSig)) := []
  var_types : Option (List (String × FfiType)) := none
  deriving Inhabited

/-- Mirrors the codegen-side `expr_type` in `codegen.cpp` (it differs
from the sema one: e.g. `Cast` only yields `Ptr` for a `ptr` target and
`Index` is always `I64`).  The `VarRef` case recurses into top-level
`let` initializers (`binding_type`), which is not structural, so a fuel
argument bounds the depth; the C++ has the same unbounded recursion and
relies on the analyzer having rejected self-referential bindings. -/
def codegen_expr_type : Nat → Program → Option (List (String × FfiType)) →
    Expr → FfiType
  | 0, _, _, _ => .Void
  | fuel + 1, prog, local_types, e =>
    match e with
    | .intLit _ => .I64
    | .floatLit _ => .F64
    | .strLit _ => .Ptr
    | .binop _ l r =>
      if codegen_expr_type fuel prog local_types l == .F64
          || codegen_expr_type fuel prog local_types r == .F64 then .F64
      else .I64
    | .varRef nm =>
      match local_types.bind (fun lt => mapFind lt nm) with
      | some t => t
      | none =>
        match prog.top_level.findSome? (fun item =>
            match item with
            | .letB b => if b.name == nm then some b.init else none
            | _ => none) with
        | some init => codegen_expr_type fuel prog none init
        | none => .Void
    | .call callee args cta _ _ =>
      if callee == "get_func_ptr" then .Ptr
      else if callee == "call" then
        match args with
        | .call icallee iargs _ _ _ :: _ =>
          if icallee == "get_func_ptr" then
            match iargs with
            | [.varRef fn_name] =>
              match prog.user_fns.find? (fun d => d.name == fn_name) with
              | some d => d.return_type
              | none =>
                match prog.extern_fns.find? (fun x => x.name == fn_name) with
                | some x => x.return_type
                | none => .Void
            | _ => .Void
          else .Void
        | _ => .Void
      else if callee == "print" then .Void
      else if callee == "range" then .Ptr
      else if callee == "read_line" || callee == "read_line_file"
          || callee == "to_str" then .Ptr
      else if callee == "from_str" then
        if cta == "i64" then .I64
        else if cta == "f64" then .F64
        else .Void
      else if callee == "open" then .Ptr
      else if callee == "close" || callee == "write_file" then .Void
      else if callee == "eof_file" || callee == "line_count_file" then .I64
      else
        match prog.extern_fns.find? (fun x => x.name == callee) with
        | some x => x.return_type
        | none =>
          match prog.user_fns.find? (fun d => d.name == callee) with
          | some d => d.return_type
          | none => .Void
    | .alloc _ => .Ptr
    | .allocArray _ _ => .Ptr
    | .allocBytes _ => .Ptr
    | .addrOf _ => .Ptr
    | .loadPtr _ => .Ptr
    | .load _ => .I64
    | .loadI32 _ => .I64
    | .loadF64 _ => .F64
    | .store _ _ => .Void
    | .storeField _ _ _ _ => .Void
    | .loadField _ sname fname =>
      layout_field_type ((build_layout_map prog.struct_defs).reverse) sname fname
    | .cast _ tn => if tn == "ptr" then .Ptr else .Void
    | .compare _ _ _ => .I64
    | .index _ _ => .I64

/-- Mirrors `codegen_lookup_fnptr_sig` in `codegen.cpp`. -/
def codegen_lookup_fnptr_sig (env : CodegenEnv) : Expr → Option FnPtrSig
  | .varRef nm =>
    match scopesFind env.fnptr_scope_stack nm with
    | some s => some s
    | none =>
      match env.program.user_fns.find? (fun d => d.name == nm) with
      | some d => some (fn_def_to_sig d)
      | none =>
        match env.program.extern_fns.find? (fun e => e.name == nm) with
        | some e => some (extern_fn_to_sig e)
        | none => none
  | .call callee args _ _ _ =>
    if callee == "get_func_ptr" then
      match args with
      | [Expr.varRef fn_name] =>
        match env.program.user_fns.find? (fun d => d.name == fn_name) with
        | some d => some (fn_def_to_sig d)
        | none =>
          match env.program.extern_fns.find? (fun e => e.name == fn_name) with
          | some e => some (extern_fn_to_sig e)
          | none => none
      | _ => none
    else none
  | _ => none

/-- Mirrors `array_elem_lookup` in `codegen.cpp`. -/
def codegen_array_elem_lookup (env : CodegenEnv) (name : String) : FfiType :=
  (scopesFind env.array_element_scope_stack name).getD .Void

/-- Mirrors `array_element_type_from_expr` in `codegen.cpp`. -/
def array_element_type_from_expr (env : CodegenEnv) : Expr → FfiType
  | .varRef nm => codegen_array_elem_lookup env nm
  | .call callee _ cta _ _ =>
    if callee == "range" then
      if cta != "" then
        if cta == "i32" then .I32
        else if cta == "i64" then .I64
        else if cta == "f32" then .F32
        else if cta == "f64" then .F64
        else .I64
      else .I64
    else .Void
  | .allocArray t _ =>
    if t == "i32" then .I32
    else if t == "i64" then .I64
    else if t == "f32" then .F32
    else if t == "f64" then .F64
    else if t == "ptr" then .Ptr
    else .Void
  | _ => .Void

/-- What the code emitted for `alloc_array(T, n)` does at run time:
which allocator it calls, how many bytes it requests, and what value it
stores into the first 8 bytes.  (The lowering then returns the allocated
base pointer.) -/
structure AllocArrayLowering where
  allocator : String
  total_bytes : Int
  len_stored : Int
  deriving DecidableEq, Repr

/-- Mirrors the `Expr::Kind::AllocArray` case of `emit_expr` in
`codegen.cpp`, given the evaluated (i64) element count `n`: the element
size comes from the same name dispatch (`i32`/`f32` → 4, `i64`/`f64`/
`ptr` → 8, otherwise the struct layout's size, defaulting to 8), the
request is `8 + n * elem_size` bytes from `malloc`, and `n` is stored
through the base as the length prefix. -/
def emit_alloc_array (env : CodegenEnv) (elem_name : String) (n : Int) :
    AllocArrayLowering :=
  let elem_size : Nat :=
    if elem_name == "i32" || elem_name == "f32" then 4
    else if elem_name == "i64" || elem_name == "f64" || elem_name == "ptr" then 8
    else
      match mapFind env.layout_map elem_name with
      | some l => l.size
      | none => 8
  { allocator := "malloc"
    total_bytes := 8 + n * (elem_size : Int)
    len_stored := n }

/-- `sizeof(T)` as the spec defines it, for comparison with the emitted
code: the primitive size table (i32/f32 = 4, i64/f64/ptr = 8), and a
record's computed layout size for a record name.  This definition
follows the spec's words, not the code. -/
def specSizeofAllocElem (layout_map : List (String × StructLayout))
    (elem_name : String) : Option Nat :=
  if elem_name = "i32" ∨ elem_name = "f32" then some 4
  else if elem_name = "i64" ∨ elem_name = "f64" ∨ elem_name = "ptr" then some 8
  else (mapFind layout_map elem_name).map (·.size)

/-- The run-time outcome of the emitted array-index block, given the
length-prefix value and the index value. -/
inductive IndexOutcome where
  | panic (msg : String)
  | access (byte_offset : Int) (elem : FfiType)
  deriving DecidableEq, Repr

/-- The element type the `Index` lowering uses (`Void` defaults to
`I64`, as in `emit_expr`). -/
def index_lowering_elem_ty (env : CodegenEnv) (base : Expr) : FfiType :=
  let t := array_element_type_from_expr env base
  if t == .Void then .I64 else t

/-- Mirrors the `Expr::Kind::Index` case of `emit_expr` in
`codegen.cpp`, as the run-time behaviour of the emitted block: `len` is
the 8-byte value the emitted code loads from offset 0 of the base, `i`
the evaluated index; the emitted `or(i <s 0, i >=s len)` selects the
panic block, which calls `rt_panic` with "index out of bounds";
otherwise the element is read at byte offset `8 + i * elem_size`, with
`elem_size` 4 for I32/F32 elements and 8 otherwise. -/
def emit_index_outcome (env : CodegenEnv) (base : Expr) (len i : Int) :
    IndexOutcome :=
  let elem_ty := index_lowering_elem_ty env base
  let elem_size : Nat := if elem_ty == .I32 || elem_ty == .F32 then 4 else 8
  if i < 0 ∨ len ≤ i then .panic "index out of bounds"
  else .access (8 + i * (elem_size : Int)) elem_ty

/-- The run-time outcome of the emitted index-assignment block. -/
inductive IndexAssignOutcome where
  | panic (msg : String)
  | storeAt (byte_offset : Int) (elem : FfiType)
  deriving DecidableEq, Repr

/-- Mirrors the index-LHS branch of the `Stmt::Kind::Assign` case of
`emit_stmt` in `codegen.cpp` (a byte-for-byte sibling of the `Index`
load: same length load, same out-of-bounds condition, same panic
message, same element offset, with a store instead of a load). -/
def emit_index_assign_outcome (env : CodegenEnv) (base : Expr) (len i : Int) :
    IndexAssignOutcome :=
  let elem_ty := index_lowering_elem_ty env base
  let elem_size : Nat := if elem_ty == .I32 || elem_ty == .F32 then 4 else 8
  if i < 0 ∨ len ≤ i then .panic "index out of bounds"
  else .storeAt (8 + i * (elem_size : Int)) elem_ty

/-- Mirrors the scope-annotation tail of the `Stmt::Kind::Let` case of
`emit_stmt` in `codegen.cpp` (the non-Void slot path): a Ptr-typed
binding records the initializer's function-pointer signature when
`codegen_lookup_fnptr_sig` recovers one, and the binding records the
initializer's array element type (a Ptr-typed `load_field` of a Ptr
field, or any Ptr-typed call, records `Ptr`). -/
def codegen_let_annotate (fuel : Nat) (env : CodegenEnv) (name : String)
    (init : Expr) : CodegenEnv :=
  let let_ty := codegen_expr_type fuel env.program env.var_types init
  let env1 :=
    if let_ty == FfiType.Ptr then
      match codegen_lookup_fnptr_sig env init with
      | some sig => { env with
          fnptr_scope_stack := scopesInsertBack env.fnptr_scope_stack name sig }
      | none => env
    else env
  let elem_ty := array_element_type_from_expr env1 init
  if elem_ty != FfiType.Void then
    { env1 with array_element_scope_stack :=
        scopesInsertBack env1.array_element_scope_stack name elem_ty }
  else
    match init with
    | .loadField _ sname fname =>
      match mapFind env1.layout_map sname with
      | some l =>
        if l.fields.any (fun f => f.1 == fname && f.2.type == FfiType.Ptr) then
          { env1 with array_element_scope_stack :=
              scopesInsertBack env1.array_element_scope_stack name FfiType.Ptr }
        else env1
      | none => env1
    | .call .. =>
      if let_ty == FfiType.Ptr then
        { env1 with array_element_scope_stack :=
            scopesInsertBack env1.array_element_scope_stack name FfiType.Ptr }
      else env1
    | _ => env1

/-- Mirrors the function-pointer annotation of a variable assignment in
`emit_stmt` (`Assign` to a `VarRef` whose stack slot is pointer-typed). -/
def codegen_assign_annotate (env : CodegenEnv) (name : String)
    (slot_is_ptr : Bool) (rhs : Expr) : CodegenEnv :=
  if slot_is_ptr && !env.fnptr_scope_stack.isEmpty then
    match codegen_lookup_fnptr_sig env rhs with
    | some sig => { env with
        fnptr_scope_stack := scopesInsertBack env.fnptr_scope_stack name sig }
    | none => env
  else env

/-- Mirrors the signature recovery at the start of the `call` builtin
case of `emit_expr` in `codegen.cpp`: `codegen_lookup_fnptr_sig` on the
target, falling back to the analyzer's inferred signature when its arity
matches, else the "cannot determine function signature for call" error.
The emitted indirect call's LLVM function type is built from exactly the
returned signature's parameter and result types. -/
def emit_call_sig (env : CodegenEnv) (target : Expr) (n_call_args : Nat)
    (inferred_params : List FfiType) (inferred_result : FfiType) :
    Except String FnPtrSig :=
  match codegen_lookup_fnptr_sig env target with
  | some sig => .ok sig
  | none =>
    if inferred_params.length == n_call_args then
      .ok { params := inferred_params, result := inferred_result }
    else .error "cannot determine function signature for call"

/-- The spec's element-type/size table for `alloc_array`'s primitive
element names (`sizeof(T)` and the element's primitive tag).  Written
from the spec's words for comparison with the emitted code. -/
def specPrimElem : String → Option (FfiType × Nat) := fun s =>
  if s = "i32" then some (.I32, 4)
  else if s = "i64" then some (.I64, 8)
  else if s = "f32" then some (.F32, 4)
  else if s = "f64" then some (.F64, 8)
  else if s = "ptr" then some (.Ptr, 8)
  else none

/-- A minimal codegen environment with one (empty) open scope, as the
emitter always maintains. -/
def cgDemoEnv : CodegenEnv :=
  { program := { top_level := [.expr (.intLit 1)] }
    array_element_scope_stack := [[]]
    fnptr_scope_stack := [[]] }

/-- A record struct `S { x: i64; y: i64; }` (size 16) and an
environment that knows it: the C1 counterexample input. -/
def c1S : StructDef :=
  { name := "S", fields := [("x", FfiType.I64), ("y", FfiType.I64)] }

/-- Codegen environment for the C1 counterexample. -/
def c1Env : CodegenEnv :=
  { program := { struct_defs := [c1S], top_level := [.expr (.intLit 1)] }
    layout_map := (build_layout_map [c1S]).reverse
    array_element_scope_stack := [[]]
    fnptr_scope_stack := [[]] }

/-- The stale-annotation scenario for C1: an enclosing
`let a = alloc_array(i32, 5)` annotates `a` with element type `i32`, a
nested block pushes a fresh scope, and the inner `let a = alloc_array(S, 2)`
records nothing for the record element — so the lookup for `a[i]` still
finds the outer `i32` annotation. -/
def c1StaleEnv : CodegenEnv :=
  let outer := codegen_let_annotate 9 c1Env "a" (.allocArray "i32" (.intLit 5))
  { outer with array_element_scope_stack := [] :: outer.array_element_scope_stack }

/-- Demo function and environment for the C3 witness:
`fn add(x: i64, y: f64) -> f64`. -/
def c3Add : FnDef :=
  { name := "add", params := [("x", FfiType.I64), ("y", FfiType.F64)]
    param_type_names := ["", ""], return_type := FfiType.F64 }

/-- Codegen environment containing `add` (for the C3 witness). -/
def c3Env : CodegenEnv :=
  { program := { user_fns := [c3Add], top_level := [.expr (.intLit 1)] }
    array_element_scope_stack := [[]]
    fnptr_scope_stack := [[]] }

/-- Semantic-analyzer context containing `add` (for the C3 witness). -/
def c3Sctx : SemaCtx :=
  { user_fn_by_name := [("add", c3Add)]
    var_scope_stack := [[]]
    array_element_scope_stack := [[]]
    fnptr_scope_stack := [[]] }

/-- Extern function and environment for the extern half of the C3
witness. -/
def c3Cos : ExternFn :=
  { name := "cos", params := [("x", FfiType.F64)], param_type_names := [""]
    return_type := FfiType.F64, lib_name := "__lib0" }

/-- Codegen environment containing only extern `cos`. -/
def c3EnvExt : CodegenEnv :=
  { program := { libs := [{ path := "libm.so.6", name := "__lib0" }]
                 extern_fns := [c3Cos], top_level := [.expr (.intLit 1)] }
    array_element_scope_stack := [[]]
    fnptr_scope_stack := [[]] }

/-! ## Import resolution (`multifile.cpp`)

`merge_library_into_main` merges one loaded library into the main
program, phase by phase: requested structs, requested functions, extern
libs, extern fns, then transitively-needed helper functions.  Each phase
is translated as a function on the lists it reads and writes; the
`unordered_set` of needed helpers becomes a name list with membership
semantics (the C++ iterates it in unspecified hash order; the list here
is one deterministic linearization, and the phase's observable effect —
which definitions end up present — does not depend on the order). -/

/-- Mirrors `fn_def_signature_equal`: same arity, same parameter FFI
types, same parameter type names where both lists cover the index, same
return type and return type name. -/
def fn_def_signature_equal (a b : FnDef) : Bool :=
  a.params.length == b.params.length &&
  (a.params.zip b.params).all (fun pq => pq.1.2 == pq.2.2) &&
  ((a.param_type_names.zip b.param_type_names).take a.params.length).all
    (fun pq => pq.1 == pq.2) &&
  a.return_type == b.return_type &&
  a.return_type_name == b.return_type_name

/-- Mirrors `fndecl_matches_fndef`. -/
def fndecl_matches_fndef (d : FnDecl) (f : FnDef) : Bool :=
  d.name == f.name &&
  d.params.length == f.params.length &&
  (d.params.zip f.params).all (fun pq => pq.1.2 == pq.2.2) &&
  ((d.param_type_names.zip f.param_type_names).take d.params.length).all
    (fun pq => pq.1 == pq.2) &&
  d.return_type == f.return_type &&
  d.return_type_name == f.return_type_name

/-- Mirrors `get_lib_path_by_name` (first lib with the name; "" when
absent), on the program's lib list. -/
def get_lib_path_by_name (libs : List ExternLib) (lib_name : String) : String :=
  match libs.find? (fun l => l.name == lib_name) with
  | some l => l.path
  | none => ""

/-- Mirrors `extern_fn_signature_equal` (the C++ indexes
`param_type_names[i]` for every parameter index, assuming the list
covers them). -/
def extern_fn_signature_equal (a b : ExternFn) : Bool :=
  a.name == b.name &&
  a.return_type == b.return_type &&
  a.return_type_name == b.return_type_name &&
  a.params.length == b.params.length &&
  (a.params.zip b.params).all (fun pq => pq.1.2 == pq.2.2) &&
  ((a.param_type_names.zip b.param_type_names).take a.params.length).all
    (fun pq => pq.1 == pq.2)

/-- Mirrors `lib_has_path`. -/
def lib_has_path (libs : List ExternLib) (path : String) : Bool :=
  libs.any (fun l => l.path == path)

/-- Mirrors `struct_defs_equal`: same name, same field names and types
in order (the `exported` flag is not compared). -/
def struct_defs_equal (a b : StructDef) : Bool :=
  a.name == b.name &&
  a.fields.length == b.fields.length &&
  (a.fields.zip b.fields).all (fun pq => pq.1.1 == pq.2.1 && pq.1.2 == pq.2.2)

/-- Mirrors `find_extern_fn` (first extern fn with the name). -/
def find_extern_fn (extern_fns : List ExternFn) (name : String) : Option ExternFn :=
  extern_fns.find? (fun e => e.name == name)

/-- Mirrors `lib_user_by_name` (`map[f.name] = &f` over the lib's
functions: a later duplicate name overwrites, which the shadowing
`mapInsert` fold reproduces for `mapFind`). -/
def buildLibUserMap (fns : List FnDef) : List (String × FnDef) :=
  fns.foldl (fun mp f => mapInsert mp f.name f) []

mutual

/-- Mirrors `collect_called_user_fns_in_expr`: a `Call` contributes the
`get_func_ptr(NAME)` target or its callee when the lib defines it, and
every sub-expression (the C++ `left`/`right`/`args` slots) is visited. -/
def collectCalledExpr (m : List (String × FnDef)) : Expr → List String
  | .call callee args _ _ _ =>
    (if callee == "get_func_ptr" then
      match args with
      | [.varRef fn_name] =>
        if (mapFind m fn_name).isSome then [fn_name] else []
      | _ => if (mapFind m callee).isSome then [callee] else []
    else if (mapFind m callee).isSome then [callee] else []) ++
    collectCalledArgs m args
  | .binop _ l r => collectCalledExpr m l ++ collectCalledExpr m r
  | .compare _ l r => collectCalledExpr m l ++ collectCalledExpr m r
  | .allocArray _ c => collectCalledExpr m c
  | .allocBytes sz => collectCalledExpr m sz
  | .addrOf e => collectCalledExpr m e
  | .load p => collectCalledExpr m p
  | .loadF64 p => collectCalledExpr m p
  | .loadI32 p => collectCalledExpr m p
  | .loadPtr p => collectCalledExpr m p
  | .store p v => collectCalledExpr m p ++ collectCalledExpr m v
  | .loadField p _ _ => collectCalledExpr m p
  | .storeField p _ _ v => collectCalledExpr m p ++ collectCalledExpr m v
  | .cast e _ => collectCalledExpr m e
  | .index b i => collectCalledExpr m b ++ collectCalledExpr m i
  | _ => []

def collectCalledArgs (m : List (String × FnDef)) : List Expr → List String
  | [] => []
  | e :: rest => collectCalledExpr m e ++ collectCalledArgs m rest

end

mutual

/-- Mirrors `collect_called_user_fns_in_stmt` (the `For` case visits
`for_init`, `cond`, `for_update` and `body`, not `iterable`). -/
def collectCalledStmt (m : List (String × FnDef)) : Stmt → List String
  | .ret e => collectCalledExpr m e
  | .exprS e => collectCalledExpr m e
  | .letS _ init => collectCalledExpr m init
  | .ifS cond tb eb =>
    collectCalledExpr m cond ++ collectCalledStmts m tb ++ collectCalledStmts m eb
  | .forS _ _ cond fi fu body =>
    (match fi with | some st => collectCalledStmt m st | none => []) ++
    (match cond with | some c => collectCalledExpr m c | none => []) ++
    (match fu with | some st => collectCalledStmt m st | none => []) ++
    collectCalledStmts m body
  | .assign target value =>
    collectCalledExpr m target ++ collectCalledExpr m value

def collectCalledStmts (m : List (String × FnDef)) : List Stmt → List String
  | [] => []
  | st :: rest => collectCalledStmt m st ++ collectCalledStmts m rest

end

/-- Mirrors `collect_called_user_fns_in_body`. -/
def collectCalledBody (m : List (String × FnDef)) (f : FnDef) : List String :=
  collectCalledStmts m f.body

/-- The worklist closure computing `needed_helpers`: pop a function,
mark it visited, record its lib-defined callees as needed, and push the
unvisited ones.  The C++ `while` terminates because each iteration
either shrinks the worklist or visits a new name; the fuel below is an
upper bound on the total number of iterations, so exhaustion is
unreachable.  (The C++ pops from the vector's back; the resulting
*set* of needed names is the same call-graph closure either way.) -/
def helperClosure (m : List (String × FnDef)) :
    Nat → List FnDef → List String → List String → List String
  | 0, _, _, needed => needed
  | _ + 1, [], _, needed => needed
  | fuel + 1, fn :: work, visited, needed =>
    if visited.contains fn.name then helperClosure m fuel work visited needed
    else
      let visited2 := fn.name :: visited
      let called := (collectCalledBody m fn).filter (fun c => (mapFind m c).isSome)
      let pushes := (called.filter (fun c => !visited2.contains c)).filterMap
        (fun c => mapFind m c)
      helperClosure m fuel (pushes ++ work) visited2 (needed ++ called)

/-- Iteration bound for `helperClosure`: initial worklist plus the total
number of pushes (each visit pushes at most its called list; visits are
bounded by the imported and lib functions). -/
def helperFuel (lib_user : List (String × FnDef)) (imported : List FnDef) : Nat :=
  imported.length + 1 +
  imported.foldl (fun n f => n + (collectCalledBody lib_user f).length) 0 +
  lib_user.foldl (fun n p => n + (collectCalledBody lib_user p.2).length) 0

/-- The duplicate scan of the struct phase: walk the main program's
structs; at the first one with the requested name, succeed (skip the
copy) if the shapes agree, else fail with the duplicate-symbol error. -/
def structDupCheck (rqn sname : String) (sdef : StructDef) :
    List StructDef → Except String Bool
  | [] => .ok false
  | existing :: rest =>
    if existing.name == sname then
      if struct_defs_equal existing sdef then .ok true
      else .error ("duplicate symbol '" ++ sname ++ "': exported by lib '"
        ++ rqn ++ "' and already defined")
    else structDupCheck rqn sname sdef rest

/-- The struct phase of `merge_library_into_main`: for each requested
struct name, find the lib's exported def, check duplicates in the main
list, and append a copy when absent. -/
def merge_structs (lib_structs : List StructDef) (rqn : String) :
    List StructDef → List String → Except String (List StructDef)
  | mains, [] => .ok mains
  | mains, sname :: rest =>
    match lib_structs.find? (fun s => s.exported && s.name == sname) with
    | none => .error ("import lib '" ++ rqn ++ "': missing exported struct " ++ sname)
    | some sdef =>
      match structDupCheck rqn sname sdef mains with
      | .error e => .error e
      | .ok true => merge_structs lib_structs rqn mains rest
      | .ok false => merge_structs lib_structs rqn (mains ++ [sdef]) rest

/-- The duplicate scan of the function phase. -/
def fnDupCheck (rqn : String) (fdecl : FnDecl) : List FnDef → Except String Bool
  | [] => .ok false
  | f :: rest =>
    if f.name == fdecl.name then
      if fndecl_matches_fndef fdecl f then .ok true
      else .error ("duplicate symbol '" ++ fdecl.name ++ "': exported by lib '"
        ++ rqn ++ "' and already defined")
    else fnDupCheck rqn fdecl rest

/-- The function phase: for each requested declaration, find the lib's
exported matching def, check duplicates, append a clone when absent, and
collect the newly imported defs. -/
def merge_fns (lib_fns : List FnDef) (rqn : String) :
    List FnDef → List FnDecl → Except String (List FnDef × List FnDef)
  | mains, [] => .ok (mains, [])
  | mains, fdecl :: rest =>
    match lib_fns.find? (fun f => f.exported && fndecl_matches_fndef fdecl f) with
    | none => .error ("import lib '" ++ rqn
        ++ "': missing or signature mismatch for exported fn " ++ fdecl.name)
    | some fdef =>
      match fnDupCheck rqn fdecl mains with
      | .error e => .error e
      | .ok true => merge_fns lib_fns rqn mains rest
      | .ok false =>
        match merge_fns lib_fns rqn (mains ++ [fdef]) rest with
        | .error e => .error e
        | .ok (m, fns) => .ok (m, fdef :: fns)

/-- The extern-lib phase: reuse the main lib with the same path, else
push the lib under a fresh `__libN` name; also build the
path-to-main-name map (the `std::map` writes coincide for a duplicated
path, so first-match lookup is faithful). -/
def merge_libs : List ExternLib → List ExternLib →
    List ExternLib × List (String × String)
  | mains, [] => (mains, [])
  | mains, lib :: rest =>
    if lib_has_path mains lib.path then
      let mname :=
        match mains.find? (fun l2 => l2.path == lib.path) with
        | some l2 => l2.name
        | none => ""
      let r := merge_libs mains rest
      (r.1, (lib.path, mname) :: r.2)
    else
      let main_name := "__lib" ++ toString mains.length
      let r := merge_libs (mains ++ [{ lib with name := main_name }]) rest
      (r.1, (lib.path, main_name) :: r.2)

/-- The extern-fn phase: an already-present name must agree in resolved
lib path and signature, else the conflict error; an absent one is pushed
with its lib name remapped through the path map. -/
def merge_externs (lib_libs : List ExternLib) (rqn : String)
    (pm : List (String × String)) (main_libs : List ExternLib) :
    List ExternFn → List ExternFn → Except String (List ExternFn)
  | mains, [] => .ok mains
  | mains, ext :: rest =>
    let ext_path := get_lib_path_by_name lib_libs ext.lib_name
    match find_extern_fn mains ext.name with
    | some existing =>
      if get_lib_path_by_name main_libs existing.lib_name != ext_path
          || !extern_fn_signature_equal existing ext then
        .error ("extern fn '" ++ ext.name ++ "' declared by lib '" ++ rqn
          ++ "' conflicts (different signature or lib)")
      else merge_externs lib_libs rqn pm main_libs mains rest
    | none =>
      let e2 :=
        match mapFind pm ext_path with
        | some mn => { ext with lib_name := mn }
        | none => ext
      merge_externs lib_libs rqn pm main_libs (mains ++ [e2]) rest

/-- The duplicate scan of the helper phase (compares full definition
signatures). -/
def helperDupCheck (rqn hname : String) (hdef : FnDef) :
    List FnDef → Except String Bool
  | [] => .ok false
  | existing :: rest =>
    if existing.name == hname then
      if fn_def_signature_equal existing hdef then .ok true
      else .error ("duplicate symbol '" ++ hname ++ "': helper function from lib '"
        ++ rqn ++ "' and already defined")
    else helperDupCheck rqn hname hdef rest

/-- The helper phase: append each needed helper definition from the lib
unless an identically-signed one is already present. -/
def merge_helpers (lib_user : List (String × FnDef)) (rqn : String) :
    List FnDef → List String → Except String (List FnDef)
  | mains, [] => .ok mains
  | mains, hname :: rest =>
    match mapFind lib_user hname with
    | none => merge_helpers lib_user rqn mains rest
    | some hdef =>
      match helperDupCheck rqn hname hdef mains with
      | .error e => .error e
      | .ok true => merge_helpers lib_user rqn mains rest
      | .ok false => merge_helpers lib_user rqn (mains ++ [hdef]) rest

/-- Mirrors `merge_library_into_main`, composing the phases; the helper
phase runs only when this merge actually imported new functions. -/
def merge_library_into_main (main lib : Program) (req : ImportLib) :
    Except String Program :=
  let lib_user := buildLibUserMap lib.user_fns
  match merge_structs lib.struct_defs req.name main.struct_defs req.struct_names with
  | .error e => .error e
  | .ok structs2 =>
    match merge_fns lib.user_fns req.name main.user_fns req.fn_decls with
    | .error e => .error e
    | .ok (fns2, imported) =>
      let lp := merge_libs main.libs lib.libs
      match merge_externs lib.libs req.name lp.2 lp.1 main.extern_fns lib.extern_fns with
      | .error e => .error e
      | .ok externs2 =>
        if imported.isEmpty then
          .ok { main with
                struct_defs := structs2
                user_fns := fns2
                libs := lp.1
                extern_fns := externs2 }
        else
          let needed0 := helperClosure lib_user (helperFuel lib_user imported)
            imported [] []
          let needed := needed0.filter
            (fun n => !(imported.map (fun f => f.name)).contains n)
          match merge_helpers lib_user req.name fns2 needed with
          | .error e => .error e
          | .ok fns3 =>
            .ok { main with
                  struct_defs := structs2
                  user_fns := fns3
                  libs := lp.1
                  extern_fns := externs2 }

/-- Demo programs for the C5 witness: a main with one function, a
library exporting struct `P` and fn `g` (which calls the non-exported
helper `h`), with one extern lib/fn. -/
def c5P : StructDef :=
  { name := "P", exported := true, fields := [("x", FfiType.I64)] }

/-- The library's exported `g`, calling the helper `h`. -/
def c5G : FnDef :=
  { name := "g", return_type := FfiType.I64, exported := true
    body := [.ret (Expr.mkCall "h" [])] }

/-- The library's non-exported helper `h`. -/
def c5H : FnDef :=
  { name := "h", return_type := FfiType.I64
    body := [.ret (.intLit 1)] }

/-- The import request: struct `P` and fn `g`. -/
def c5Gdecl : FnDecl :=
  { name := "g", return_type := FfiType.I64 }

/-- The import request for the C5 witness. -/
def c5Req : ImportLib :=
  { name := "mylib", struct_names := ["P"], fn_decls := [c5Gdecl] }

/-- The library program for the C5 witness. -/
def c5Lib : Program :=
  { struct_defs := [c5P]
    libs := [{ path := "libm.so", name := "__lib0" }]
    extern_fns := [{ name := "sin", params := [("x", FfiType.F64)]
                     param_type_names := [""], return_type := FfiType.F64
                     lib_name := "__lib0" }]
    user_fns := [c5G, c5H] }

/-- The main program for the C5 witness. -/
def c5Main : Program :=
  { user_fns := [{ name := "m", body := [.ret (.intLit 0)] }]
    top_level := [.expr (.intLit 1)] }

/-- The merged program (the first merge's output). -/
def c5M1 : Program :=
  (merge_library_into_main c5Main c5Lib c5Req).toOption.getD {}

/-- A main program already defining a different-shaped struct `P`. -/
def c5MainClash : Program :=
  { struct_defs := [{ name := "P", fields := [("a", FfiType.I32)] }]
    top_level := [.expr (.intLit 1)] }

/-- A function-only import request (for the fn-clash half). -/
def c5ReqF : ImportLib :=
  { name := "mylib", fn_decls := [c5Gdecl] }

/-- A main program already defining `g` with a different signature. -/
def c5MainFClash : Program :=
  { user_fns := [{ name := "g", return_type := FfiType.F64
                   body := [.ret (.floatLit 0.5)] }]
    top_level := [.expr (.intLit 1)] }

theorem roundUp_eq_adjust (o a : Nat) (ha : a ≠ 0) :
    roundUp o a = if o % a ≠ 0 then o + (a - o % a) else o := by
  have ha' : 0 < a := Nat.pos_of_ne_zero ha
  unfold roundUp
  rw [if_neg ha]
  rcases eq_or_ne (o % a) 0 with h | h
  · rw [if_neg (by simp [h])]
    obtain ⟨q, hq⟩ : a ∣ o := Nat.dvd_of_mod_eq_zero h
    subst hq
    have h1 : a * q + a - 1 = (a - 1) + a * q := by omega
    rw [h1, Nat.add_mul_div_left _ _ ha', Nat.div_eq_of_lt (by omega)]
    ring
  · rw [if_pos h]
    have hmod := Nat.mod_lt o ha'
    have hdm := Nat.div_add_mod o a
    set q := o / a with hq
    set r := o % a with hr
    have hr1 : 1 ≤ r := Nat.pos_of_ne_zero h
    have hexp : a * (q + 1) = a * q + a := by ring
    have h1 : o + a - 1 = (r - 1) + a * (q + 1) := by omega
    rw [h1, Nat.add_mul_div_left _ _ ha', Nat.div_eq_of_lt (by omega)]
    have h2 : (0 + (q + 1)) * a = a * q + a := by ring
    omega

theorem roundUp_zero (a : Nat) : roundUp 0 a = 0 := by
  rcases eq_or_ne a 0 with h | h
  · simp [roundUp, h]
  · rw [roundUp_eq_adjust 0 a h]; simp

theorem roundUp_dvd (o a : Nat) (ha : a ≠ 0) : a ∣ roundUp o a := by
  unfold roundUp
  rw [if_neg ha]
  exact dvd_mul_left a _

theorem le_roundUp (o a : Nat) : o ≤ roundUp o a := by
  rcases eq_or_ne a 0 with h | h
  · simp [roundUp, h]
  · rw [roundUp_eq_adjust o a h]
    split <;> omega

theorem roundUp_lt_add (o a : Nat) (ha : a ≠ 0) : roundUp o a < o + a := by
  have := Nat.mod_lt o (Nat.pos_of_ne_zero ha)
  rw [roundUp_eq_adjust o a ha]
  split <;> omega

/-- `layoutLoop` only looks at the kept fields. -/
theorem layoutLoop_eq_kept (a o : Nat) (acc : List (String × FieldLayout))
    (fs : List (String × FfiType)) :
    layoutLoop a o acc fs = layoutLoop a o acc (keptFields fs) := by
  induction fs generalizing a o acc with
  | nil => rfl
  | cons p rest ih =>
    obtain ⟨f, t⟩ := p
    by_cases h : ffi_type_align t = 0 ∨ ffi_type_size t = 0
    · have hb : (!decide (ffi_type_align t = 0 ∨ ffi_type_size t = 0)) = false := by
        simp [h]
      have h2 : keptFields ((f, t) :: rest) = keptFields rest := by
        unfold keptFields
        rw [List.filter_cons, hb]
        simp
      have h1 : layoutLoop a o acc ((f, t) :: rest) = layoutLoop a o acc rest := by
        simp only [layoutLoop]
        rw [if_pos h]
      rw [h1, h2]
      exact ih a o acc
    · have hb : (!decide (ffi_type_align t = 0 ∨ ffi_type_size t = 0)) = true := by
        simp [h]
      have h2 : keptFields ((f, t) :: rest) = (f, t) :: keptFields rest := by
        unfold keptFields
        rw [List.filter_cons, hb]
        simp
      rw [h2]
      simp only [layoutLoop]
      rw [if_neg h, if_neg h]
      exact ih _ _ _

theorem keptFields_allKept (fs : List (String × FfiType)) :
    allKept (keptFields fs) := by
  intro p hp
  have := List.of_mem_filter hp
  simpa using this

/-- On an all-kept field list, `layoutLoop` computes exactly the reference
placement `layoutFieldsSpec`, the end offset `endOff`, and the running
maximum alignment `maxAl`. -/
theorem layoutLoop_spec (fs : List (String × FfiType)) (hfs : allKept fs) :
    ∀ (a o : Nat) (acc : List (String × FieldLayout)),
    layoutLoop a o acc fs = (maxAl a fs, endOff o fs, acc ++ layoutFieldsSpec o fs) := by
  induction fs with
  | nil => intro a o acc; simp [layoutLoop, maxAl, endOff, layoutFieldsSpec]
  | cons p rest ih =>
    intro a o acc
    obtain ⟨f, t⟩ := p
    have hkept : ¬(ffi_type_align t = 0 ∨ ffi_type_size t = 0) :=
      hfs (f, t) (List.mem_cons_self _ _)
    have ha : ffi_type_align t ≠ 0 := fun h => hkept (Or.inl h)
    have hrest : allKept rest := fun q hq => hfs q (List.mem_cons_of_mem _ hq)
    simp only [layoutLoop]
    rw [if_neg hkept]
    rw [ih hrest]
    have hmax : (if a < ffi_type_align t then ffi_type_align t else a)
        = max a (ffi_type_align t) := by
      rcases Nat.lt_or_ge a (ffi_type_align t) with h | h
      · rw [if_pos h, Nat.max_eq_right (Nat.le_of_lt h)]
      · rw [if_neg (Nat.not_lt.2 h), Nat.max_eq_left h]
    have hoff : (if o % ffi_type_align t ≠ 0
          then o + (ffi_type_align t - o % ffi_type_align t) else o)
        = roundUp o (ffi_type_align t) := (roundUp_eq_adjust o _ ha).symm
    rw [hmax, hoff]
    simp [maxAl, endOff, layoutFieldsSpec]

theorem layoutFieldsSpec_map_fst (o : Nat) (fs : List (String × FfiType)) :
    (layoutFieldsSpec o fs).map Prod.fst = fs.map Prod.fst := by
  induction fs generalizing o with
  | nil => rfl
  | cons p rest ih => obtain ⟨f, t⟩ := p; simp [layoutFieldsSpec, ih]

theorem layoutFieldsSpec_map_type (o : Nat) (fs : List (String × FfiType)) :
    (layoutFieldsSpec o fs).map (fun p => p.2.type) = fs.map Prod.snd := by
  induction fs generalizing o with
  | nil => rfl
  | cons p rest ih => obtain ⟨f, t⟩ := p; simp [layoutFieldsSpec, ih]

/-- The first placed field sits at the start offset rounded up to its own
alignment. -/
theorem layoutFieldsSpec_head (gs : List (String × FfiType)) (o : Nat)
    (q : String × FieldLayout) (h : (layoutFieldsSpec o gs)[0]? = some q) :
    q.2.offset = roundUp o (ffi_type_align q.2.type) := by
  cases gs with
  | nil => simp [layoutFieldsSpec] at h
  | cons p rest =>
    obtain ⟨g, s⟩ := p
    simp only [layoutFieldsSpec, List.getElem?_cons_zero, Option.some.injEq] at h
    subst h
    rfl

/-- The consecutive-offset equation holds throughout the reference placement. -/
theorem layoutFieldsSpec_chain (fs : List (String × FfiType)) :
    ∀ (o j : Nat) (p q : String × FieldLayout),
    (layoutFieldsSpec o fs)[j]? = some p →
    (layoutFieldsSpec o fs)[j + 1]? = some q →
    q.2.offset = roundUp (p.2.offset + ffi_type_size p.2.type)
      (ffi_type_align q.2.type) := by
  induction fs with
  | nil => intro o j p q hp hq; simp [layoutFieldsSpec] at hp
  | cons hd rest ih =>
    intro o j p q hp hq
    obtain ⟨f, t⟩ := hd
    match j with
    | 0 =>
      simp only [layoutFieldsSpec, List.getElem?_cons_zero, Option.some.injEq] at hp
      subst hp
      simp only [layoutFieldsSpec, List.getElem?_cons_succ] at hq
      have := layoutFieldsSpec_head rest _ q hq
      simpa using this
    | j' + 1 =>
      simp only [layoutFieldsSpec, List.getElem?_cons_succ] at hp hq
      exact ih _ j' p q hp hq

/-- The end offset is the last placed field's offset plus its size. -/
theorem endOff_eq_last (fs : List (String × FfiType)) :
    ∀ (o : Nat), fs ≠ [] →
    ∃ p, (layoutFieldsSpec o fs).getLast? = some p ∧
      endOff o fs = p.2.offset + ffi_type_size p.2.type := by
  induction fs with
  | nil => intro o h; exact absurd rfl h
  | cons hd rest ih =>
    intro o _
    obtain ⟨f, t⟩ := hd
    cases rest with
    | nil =>
      refine ⟨(f, { offset := roundUp o (ffi_type_align t), type := t }), ?_, ?_⟩
      · rfl
      · simp [layoutFieldsSpec, endOff]
    | cons q rest' =>
      obtain ⟨p, hp1, hp2⟩ := ih (roundUp o (ffi_type_align t) + ffi_type_size t) (by simp)
      refine ⟨p, ?_, ?_⟩
      · obtain ⟨f', t'⟩ := q
        have hspec :
            layoutFieldsSpec o ((f, t) :: (f', t') :: rest')
            = (f, { offset := roundUp o (ffi_type_align t), type := t })
              :: (f', { offset := roundUp (roundUp o (ffi_type_align t) + ffi_type_size t)
                          (ffi_type_align t'), type := t' })
              :: layoutFieldsSpec (roundUp (roundUp o (ffi_type_align t) + ffi_type_size t)
                    (ffi_type_align t') + ffi_type_size t') rest' := rfl
        rw [hspec, List.getLast?_cons_cons]
        simpa [layoutFieldsSpec] using hp1
      · exact hp2

/-- `maxAl` is the left fold of `max` over the field alignments. -/
theorem maxAl_eq_foldl (fs : List (String × FfiType)) :
    ∀ a : Nat, maxAl a fs = (fs.map (fun p => ffi_type_align p.2)).foldl max a := by
  induction fs with
  | nil => intro a; rfl
  | cons p rest ih =>
    intro a
    obtain ⟨f, t⟩ := p
    simp [maxAl, ih]

/-- Every kept field's alignment bounds the running maximum from below. -/
theorem maxAl_pos (fs : List (String × FfiType)) (hfs : allKept fs) (hne : fs ≠ []) :
    maxAl 0 fs ≠ 0 := by
  have key : ∀ (a : Nat) (gs : List (String × FfiType)), a ≤ maxAl a gs := by
    intro a gs
    induction gs generalizing a with
    | nil => exact Nat.le_refl a
    | cons q rest ih =>
      obtain ⟨g, s⟩ := q
      exact Nat.le_trans (Nat.le_max_left _ _) (ih (max a (ffi_type_align s)))
  cases fs with
  | nil => exact absurd rfl hne
  | cons p rest =>
    obtain ⟨f, t⟩ := p
    have ht : ffi_type_align t ≠ 0 := fun h =>
      hfs (f, t) (List.mem_cons_self _ _) (Or.inl h)
    have : max 0 (ffi_type_align t) ≤ maxAl (max 0 (ffi_type_align t)) rest :=
      key _ rest
    have hmax : max 0 (ffi_type_align t) = ffi_type_align t := Nat.max_eq_right (Nat.zero_le _)
    simp only [maxAl]
    rw [hmax] at this ⊢
    omega

/-- C2.  For every record definition, the layout computed by
`compute_layout` satisfies the spec's equations: the first (kept) field
sits at offset 0; each later field sits at the previous field's end
rounded up to its own alignment; the record alignment is the maximum of
the field alignments; and the record size is the last field's end rounded
up to the record alignment.  I32/F32 have size and alignment 4,
I64/F64/Ptr have 8, and Void fields are skipped (`keptFields`). -/
theorem fusion_C2 (d : StructDef) (hk : keptFields d.fields ≠ []) :
    ((compute_layout d).fields.map Prod.fst = (keptFields d.fields).map Prod.fst) ∧
    ((compute_layout d).fields.map (fun p => p.2.type)
        = (keptFields d.fields).map Prod.snd) ∧
    (∀ p : String × FieldLayout,
      (compute_layout d).fields[0]? = some p → p.2.offset = 0) ∧
    (∀ (j : Nat) (p q : String × FieldLayout),
      (compute_layout d).fields[j]? = some p →
      (compute_layout d).fields[j + 1]? = some q →
      q.2.offset = roundUp (p.2.offset + ffi_type_size p.2.type)
        (ffi_type_align q.2.type)) ∧
    ((compute_layout d).alignment
        = ((keptFields d.fields).map (fun p => ffi_type_align p.2)).foldl max 0) ∧
    (∀ p : String × FieldLayout,
      (compute_layout d).fields.getLast? = some p →
      (compute_layout d).size
        = roundUp (p.2.offset + ffi_type_size p.2.type) (compute_layout d).alignment) := by
  have hak := keptFields_allKept d.fields
  have hfe : d.fields ≠ [] := by
    intro hnil
    apply hk
    rw [hnil]
    rfl
  have hloop : layoutLoop 0 0 [] d.fields
      = (maxAl 0 (keptFields d.fields), endOff 0 (keptFields d.fields),
         layoutFieldsSpec 0 (keptFields d.fields)) := by
    rw [layoutLoop_eq_kept, layoutLoop_spec _ hak]
    simp
  have hCL : compute_layout d =
      { size := if endOff 0 (keptFields d.fields) % maxAl 0 (keptFields d.fields) ≠ 0
            then endOff 0 (keptFields d.fields)
              + (maxAl 0 (keptFields d.fields)
                  - endOff 0 (keptFields d.fields) % maxAl 0 (keptFields d.fields))
            else endOff 0 (keptFields d.fields),
        alignment := maxAl 0 (keptFields d.fields),
        fields := layoutFieldsSpec 0 (keptFields d.fields) } := by
    unfold compute_layout
    rw [if_neg (by simpa [List.isEmpty_iff] using hfe), hloop]
  have hal : maxAl 0 (keptFields d.fields) ≠ 0 := maxAl_pos _ hak hk
  refine ⟨?_, ?_, ?_, ?_, ?_, ?_⟩
  · rw [hCL]
    exact layoutFieldsSpec_map_fst 0 _
  · rw [hCL]
    exact layoutFieldsSpec_map_type 0 _
  · intro p hp
    rw [hCL] at hp
    have := layoutFieldsSpec_head _ _ _ hp
    rw [this, roundUp_zero]
  · intro j p q hp hq
    rw [hCL] at hp hq
    exact layoutFieldsSpec_chain _ 0 j p q hp hq
  · rw [hCL]
    exact maxAl_eq_foldl _ 0
  · intro p hp
    rw [hCL] at hp ⊢
    obtain ⟨p', hp1, hp2⟩ := endOff_eq_last (keptFields d.fields) 0 hk
    have hpp : p = p' := by
      have : some p = some p' := by rw [← hp, ← hp1]
      exact Option.some.inj this
    subst hpp
    simp only
    rw [hp2, roundUp_eq_adjust _ _ hal]

/-- Witness for C2 at a concrete record: `struct Vec { tag: i32; x: f64; y: f32; }`
lays out as offsets 0, 8, 16 with alignment 8 and size 24. -/
theorem fusion_C2_witness :
    keptFields c2Demo.fields ≠ [] ∧
    (((compute_layout c2Demo).fields.map Prod.fst
        = (keptFields c2Demo.fields).map Prod.fst) ∧
      ((compute_layout c2Demo).fields.map (fun p => p.2.type)
        = (keptFields c2Demo.fields).map Prod.snd) ∧
      (∀ p : String × FieldLayout,
        (compute_layout c2Demo).fields[0]? = some p → p.2.offset = 0) ∧
      (∀ (j : Nat) (p q : String × FieldLayout),
        (compute_layout c2Demo).fields[j]? = some p →
        (compute_layout c2Demo).fields[j + 1]? = some q →
        q.2.offset = roundUp (p.2.offset + ffi_type_size p.2.type)
          (ffi_type_align q.2.type)) ∧
      ((compute_layout c2Demo).alignment
        = ((keptFields c2Demo.fields).map (fun p => ffi_type_align p.2)).foldl max 0) ∧
      (∀ p : String × FieldLayout,
        (compute_layout c2Demo).fields.getLast? = some p →
        (compute_layout c2Demo).size
          = roundUp (p.2.offset + ffi_type_size p.2.type)
            (compute_layout c2Demo).alignment)) :=
  ⟨by decide, fusion_C2 c2Demo (by decide)⟩

/-- C7.  The lexer's keyword table stops at `elif`: `import`, `export`,
`for` and `in` are *not* mapped to keyword tokens and lex as plain
identifiers, although the parser (`parser.cpp`) and the repository's own
lexer tests (`TokenizesBracketsAndForIn`, `TokenizesImportExportLib`)
require `KwImport`/`KwExport`/`KwFor`/`KwIn` tokens for them.  This
theorem evaluates the code at the failing inputs. -/
theorem fusion_C7_code_eval :
    keyword_from_ident "import" = TokenKind.Ident ∧
    keyword_from_ident "export" = TokenKind.Ident ∧
    keyword_from_ident "for" = TokenKind.Ident ∧
    keyword_from_ident "in" = TokenKind.Ident ∧
    (lex "for").map (fun t => (t.kind, t.ident))
      = [(TokenKind.Ident, "for"), (TokenKind.Eof, "")] ∧
    (lex "import export in").map (fun t => (t.kind, t.ident))
      = [(TokenKind.Ident, "import"), (TokenKind.Ident, "export"),
         (TokenKind.Ident, "in"), (TokenKind.Eof, "")] := by
  decide

/-- C8.  The lexer has no cases for a lone `-`, `*`, `/`, `[` or `]`:
those characters fall through to the final `advance()` and produce no
token at all, although the parser's expression grammar and the
repository's own lexer tests (`TokenizesStarAndSlash`, `TokenizesMinus`,
`TokenizesBracketsAndForIn`) require `Minus`/`Star`/`Slash`/`LBracket`/
`RBracket` tokens.  This theorem evaluates the code at the failing
inputs: the punctuation is silently dropped from the stream. -/
theorem fusion_C8_code_eval :
    (lex "5-2").map (fun t => (t.kind, t.int_value))
      = [(TokenKind.IntLiteral, 5), (TokenKind.IntLiteral, 2), (TokenKind.Eof, 0)] ∧
    (lex "2*3 6/2").map (fun t => (t.kind, t.int_value))
      = [(TokenKind.IntLiteral, 2), (TokenKind.IntLiteral, 3),
         (TokenKind.IntLiteral, 6), (TokenKind.IntLiteral, 2), (TokenKind.Eof, 0)] ∧
    (lex "a[0]").map (fun t => t.kind)
      = [TokenKind.Ident, TokenKind.IntLiteral, TokenKind.Eof] ∧
    ((lex "5-2").map (fun t => t.kind)).count TokenKind.Minus = 0 ∧
    ((lex "2*3 6/2").map (fun t => t.kind)).count TokenKind.Star = 0 ∧
    ((lex "2*3 6/2").map (fun t => t.kind)).count TokenKind.Slash = 0 ∧
    ((lex "a[0]").map (fun t => t.kind)).count TokenKind.LBracket = 0 ∧
    ((lex "a[0]").map (fun t => t.kind)).count TokenKind.RBracket = 0 := by
  decide

/-- C6.  Precedence in the expression grammar of `parser.cpp`: for any
identifier or literal operand tokens `a`, `b`, `c`, the stream
`a + b * c` parses as `a + (b * c)`, `a - b - c` parses as `(a - b) - c`,
and `a < b + c` parses as `a < (b + c)` — multiplicative binds tighter
than additive, which binds tighter than comparison, and additive is left
associative. -/
theorem fusion_C6 (a b c : Token)
    (ha : isOperandTok a) (hb : isOperandTok b) (hc : isOperandTok c) :
    parse_expr 32 [a, tokOf .Plus, b, tokOf .Star, c, tokOf .Eof]
      = some (.binop .Add (operandExpr a)
          (.binop .Mul (operandExpr b) (operandExpr c)), [tokOf .Eof]) ∧
    parse_expr 32 [a, tokOf .Minus, b, tokOf .Minus, c, tokOf .Eof]
      = some (.binop .Sub (.binop .Sub (operandExpr a) (operandExpr b))
          (operandExpr c), [tokOf .Eof]) ∧
    parse_expr 32 [a, tokOf .Lt, b, tokOf .Plus, c, tokOf .Eof]
      = some (.compare .Lt (operandExpr a)
          (.binop .Add (operandExpr b) (operandExpr c)), [tokOf .Eof]) := by
  obtain ⟨ka, iva, fva, sva, ida, la, ca⟩ := a
  obtain ⟨kb, ivb, fvb, svb, idb, lb, cb⟩ := b
  obtain ⟨kc, ivc, fvc, svc, idc, lc, cc⟩ := c
  simp only [isOperandTok] at ha hb hc
  rcases ha with h | h | h | h <;> subst h <;>
    rcases hb with h | h | h | h <;> subst h <;>
      rcases hc with h | h | h | h <;> subst h <;>
        exact ⟨rfl, rfl, rfl⟩

/-- Witness for C6 at concrete operands `a`, `2`, `c`. -/
theorem fusion_C6_witness :
    isOperandTok { kind := .Ident, ident := "a" } ∧
    isOperandTok { kind := .IntLiteral, int_value := 2 } ∧
    isOperandTok { kind := .Ident, ident := "c" } ∧
    (parse_expr 32 [{ kind := .Ident, ident := "a" }, tokOf .Plus,
        { kind := .IntLiteral, int_value := 2 }, tokOf .Star,
        { kind := .Ident, ident := "c" }, tokOf .Eof]
      = some (.binop .Add (operandExpr { kind := .Ident, ident := "a" })
          (.binop .Mul (operandExpr { kind := .IntLiteral, int_value := 2 })
            (operandExpr { kind := .Ident, ident := "c" })), [tokOf .Eof]) ∧
    parse_expr 32 [{ kind := .Ident, ident := "a" }, tokOf .Minus,
        { kind := .IntLiteral, int_value := 2 }, tokOf .Minus,
        { kind := .Ident, ident := "c" }, tokOf .Eof]
      = some (.binop .Sub
          (.binop .Sub (operandExpr { kind := .Ident, ident := "a" })
            (operandExpr { kind := .IntLiteral, int_value := 2 }))
          (operandExpr { kind := .Ident, ident := "c" }), [tokOf .Eof]) ∧
    parse_expr 32 [{ kind := .Ident, ident := "a" }, tokOf .Lt,
        { kind := .IntLiteral, int_value := 2 }, tokOf .Plus,
        { kind := .Ident, ident := "c" }, tokOf .Eof]
      = some (.compare .Lt (operandExpr { kind := .Ident, ident := "a" })
          (.binop .Add (operandExpr { kind := .IntLiteral, int_value := 2 })
            (operandExpr { kind := .Ident, ident := "c" })), [tokOf .Eof])) :=
  ⟨Or.inr (Or.inr (Or.inr rfl)), Or.inl rfl, Or.inr (Or.inr (Or.inr rfl)),
    fusion_C6 { kind := .Ident, ident := "a" }
      { kind := .IntLiteral, int_value := 2 }
      { kind := .Ident, ident := "c" }
      (Or.inr (Or.inr (Or.inr rfl))) (Or.inl rfl) (Or.inr (Or.inr (Or.inr rfl)))⟩

/-- The first guard of `check`: an empty top-level item list fails
immediately with "no program or no statements". -/
theorem check_top_empty_err (p : Program) (h : p.top_level = []) :
    check p = .error "no program or no statements" := by
  unfold check
  rw [h]
  rfl

/-- The second guard of `check`: extern fns with no extern libs
(top-level non-empty so the first guard passes). -/
theorem check_no_libs_err (p : Program) (h1 : p.top_level ≠ [])
    (h2 : p.extern_fns ≠ []) (h3 : p.libs = []) :
    check p = .error "at least one extern lib required when declaring extern fn" := by
  have e1 : p.top_level.isEmpty = false := by
    cases htl : p.top_level with
    | nil => exact absurd htl h1
    | cons a l => rfl
  have e2 : p.extern_fns.isEmpty = false := by
    cases hef : p.extern_fns with
    | nil => exact absurd hef h2
    | cons a l => rfl
  unfold check
  rw [e1, e2, h3]
  rfl

theorem contains_eq_false_of_not_mem {l : List String} {a : String}
    (h : a ∉ l) : l.contains a = false := by
  induction l with
  | nil => rfl
  | cons b rest ih =>
    have hne : (a == b) = false := by
      cases hab : a == b with
      | false => rfl
      | true =>
        exact absurd (by rw [eq_of_beq hab]; exact List.mem_cons_self b rest) h
    have hrest : a ∉ rest := fun hr => h (List.mem_cons_of_mem b hr)
    have := ih hrest
    simp only [List.contains, List.elem, hne] at this ⊢
    exact this

/-- If some external function references an undeclared lib name, the
extern-validation loop of `check` returns an error. -/
theorem check_extern_fn_loop_err (lib_names : List String) (p : Program)
    (l : List ExternFn) (hex : ∃ e ∈ l, e.lib_name ∉ lib_names) :
    ∃ m, check_extern_fn_loop lib_names p l = .error m := by
  induction l with
  | nil =>
    obtain ⟨e, he, _⟩ := hex
    exact absurd he (List.not_mem_nil e)
  | cons ext rest ih =>
    cases hb : lib_names.contains ext.lib_name with
    | false =>
      refine ⟨"extern fn '" ++ ext.name ++ "' references unknown lib '"
        ++ ext.lib_name ++ "'", ?_⟩
      unfold check_extern_fn_loop
      rw [hb]
      rfl
    | true =>
      have hexr : ∃ e ∈ rest, e.lib_name ∉ lib_names := by
        obtain ⟨e, he, hnm⟩ := hex
        rcases List.mem_cons.mp he with heq | hin
        · subst heq
          have : lib_names.contains e.lib_name = false :=
            contains_eq_false_of_not_mem hnm
          rw [this] at hb
          exact absurd hb (by simp)
        · exact ⟨e, hin, hnm⟩
      obtain ⟨m, hm⟩ := ih hexr
      unfold check_extern_fn_loop
      rw [hb]
      simp only [Bool.not_true, Bool.false_eq_true, if_false]
      cases hp : (if ext.param_type_names.length == ext.params.length then
          check_extern_param_types p ext.name ext.param_type_names
        else Except.ok ()) with
      | error m' => exact ⟨m', rfl⟩
      | ok u =>
        by_cases hr : (ext.return_type_name != ""
            && !(is_named_type_known ext.return_type_name p)) = true
        · exact ⟨_, if_pos hr⟩
        · exact ⟨m, (if_neg hr).trans hm⟩

/-- C9.  Semantic analysis rejects every program whose top-level item
list is empty with exactly the error "no program or no statements",
whatever structs, extern declarations or user functions it contains; no
other checking happens in that case (the result is independent of every
other component of the program). -/
theorem fusion_C9 (p : Program) (h : p.top_level = []) :
    check p = .error "no program or no statements" :=
  check_top_empty_err p h

/-- Witness for C9: a program with a struct, an extern lib and fn, and a
user function, but no top-level items. -/
theorem fusion_C9_witness :
    c9Demo.top_level = [] ∧
    check c9Demo = .error "no program or no statements" :=
  ⟨rfl, fusion_C9 c9Demo rfl⟩

/-- C10 (amended).  Provided the top-level item list is non-empty (an
empty one is rejected earlier with "no program or no statements" — see
the counterexample), a program that declares at least one external
function and zero external libraries fails semantic analysis with
exactly "at least one extern lib required when declaring extern fn";
and every program in which some external function's lib-name does not
name a declared external library fails semantic analysis, before any
expression or statement is checked (the failure is forced by the
extern-validation prepass alone, for arbitrary bodies and top-level
items). -/
theorem fusion_C10 :
    (∀ p : Program, p.top_level ≠ [] → p.extern_fns ≠ [] → p.libs = [] →
      check p = .error "at least one extern lib required when declaring extern fn") ∧
    (∀ p : Program, (∃ e ∈ p.extern_fns, e.lib_name ∉ p.libs.map (·.name)) →
      check p ≠ .ok ()) := by
  constructor
  · exact check_no_libs_err
  · intro p hex
    have e2 : p.extern_fns ≠ [] := by
      obtain ⟨e, he, _⟩ := hex
      intro hnil
      rw [hnil] at he
      exact absurd he (List.not_mem_nil e)
    by_cases h1 : p.top_level = []
    · rw [check_top_empty_err p h1]
      intro hcontra
      exact Except.noConfusion hcontra
    · by_cases h3 : p.libs = []
      · rw [check_no_libs_err p h1 e2 h3]
        intro hcontra
        exact Except.noConfusion hcontra
      · have e1 : p.top_level.isEmpty = false := by
          cases htl : p.top_level with
          | nil => exact absurd htl h1
          | cons a l => rfl
        obtain ⟨m, hm⟩ :=
          check_extern_fn_loop_err (p.libs.map (·.name)) p p.extern_fns hex
        unfold check
        rw [e1]
        by_cases hg : (!p.extern_fns.isEmpty && p.libs.isEmpty) = true
        · simp only [Bool.false_eq_true, if_false, if_pos hg]
          intro hcontra
          exact Except.noConfusion hcontra
        · simp only [Bool.false_eq_true, if_false, if_neg hg]
          rw [hm]
          intro hcontra
          exact Except.noConfusion hcontra

/-- Counterexample for C10 as literally stated: a program with one
extern fn, no extern libs, and an *empty* top-level list fails with
"no program or no statements", not with the claimed extern-lib error. -/
theorem fusion_C10_counterexample :
    c10Counter.extern_fns ≠ [] ∧ c10Counter.libs = [] ∧
    check c10Counter = .error "no program or no statements" ∧
    check c10Counter
      ≠ .error "at least one extern lib required when declaring extern fn" := by
  refine ⟨by decide, rfl, rfl, ?_⟩
  intro h
  have : ("no program or no statements" : String)
      = "at least one extern lib required when declaring extern fn" := by
    have h0 : check c10Counter = .error "no program or no statements" := rfl
    rw [h0] at h
    exact Except.error.inj h
  exact absurd this (by decide)

/-- Witness for C10 at concrete programs. -/
theorem fusion_C10_witness :
    (c10Demo1.top_level ≠ [] ∧ c10Demo1.extern_fns ≠ [] ∧ c10Demo1.libs = [] ∧
      check c10Demo1
        = .error "at least one extern lib required when declaring extern fn") ∧
    ((∃ e ∈ c10Demo2.extern_fns, e.lib_name ∉ c10Demo2.libs.map (·.name)) ∧
      check c10Demo2 ≠ .ok ()) :=
  ⟨⟨by simp [c10Demo1], by decide, rfl,
      fusion_C10.1 c10Demo1 (by simp [c10Demo1]) (by decide) rfl⟩,
    ⟨by decide, fusion_C10.2 c10Demo2 (by decide)⟩⟩

/-- C4: `alloc_array(T, n)` is lowered to a `malloc` of
`8 + n * sizeof(T)` bytes whose first 8 bytes receive `n`, for every
element name whose `sizeof` the spec defines (primitives and known
records). -/
theorem fusion_C4 (env : CodegenEnv) (elem_name : String) (n : Int) (s : Nat)
    (hs : specSizeofAllocElem env.layout_map elem_name = some s) :
    emit_alloc_array env elem_name n =
      { allocator := "malloc", total_bytes := 8 + n * (s : Int), len_stored := n } := by
  unfold specSizeofAllocElem at hs
  unfold emit_alloc_array
  by_cases h1 : elem_name = "i32" ∨ elem_name = "f32"
  · rw [if_pos h1] at hs
    obtain rfl : (4 : Nat) = s := Option.some.inj hs
    have hb : (elem_name == "i32" || elem_name == "f32") = true := by
      rcases h1 with h | h <;> simp [h]
    simp [hb]
  · rw [if_neg h1] at hs
    obtain ⟨hn1, hn2⟩ := not_or.mp h1
    have hb1 : (elem_name == "i32" || elem_name == "f32") = false := by
      simp [hn1, hn2]
    by_cases h2 : elem_name = "i64" ∨ elem_name = "f64" ∨ elem_name = "ptr"
    · rw [if_pos h2] at hs
      obtain rfl : (8 : Nat) = s := Option.some.inj hs
      have hb2 : (elem_name == "i64" || elem_name == "f64" || elem_name == "ptr")
          = true := by
        rcases h2 with h | h | h <;> simp [h]
      simp [hb1, hb2]
    · rw [if_neg h2] at hs
      obtain ⟨hn3, hrest⟩ := not_or.mp h2
      obtain ⟨hn4, hn5⟩ := not_or.mp hrest
      have hb2 : (elem_name == "i64" || elem_name == "f64" || elem_name == "ptr")
          = false := by
        simp [hn3, hn4, hn5]
      obtain ⟨l, hl, hsz⟩ := Option.map_eq_some'.mp hs
      simp [hb1, hb2, hl, hsz]

/-- Witness for C4 at a primitive element (`i64`, size 8) and at a
record element (`S {x,y : i64}`, layout size 16). -/
theorem fusion_C4_witness :
    specSizeofAllocElem cgDemoEnv.layout_map "i64" = some 8 ∧
    emit_alloc_array cgDemoEnv "i64" 5 =
      { allocator := "malloc", total_bytes := 8 + 5 * ((8 : Nat) : Int)
        len_stored := 5 } ∧
    specSizeofAllocElem c1Env.layout_map "S" = some 16 ∧
    emit_alloc_array c1Env "S" 5 =
      { allocator := "malloc", total_bytes := 8 + 5 * ((16 : Nat) : Int)
        len_stored := 5 } :=
  ⟨rfl, fusion_C4 cgDemoEnv "i64" 5 8 rfl, rfl, fusion_C4 c1Env "S" 5 16 rfl⟩

theorem indexElemTy (prog : Program) (lay : List (String × StructLayout))
    (fst : List (List (String × FnPtrSig))) (vt : Option (List (String × FfiType)))
    (s : List (String × FfiType)) (rest : List (List (String × FfiType)))
    (a : String) (ty : FfiType) (hty : ty ≠ .Void) :
    index_lowering_elem_ty (CodegenEnv.mk prog lay (mapInsert s a ty :: rest) fst vt)
      (.varRef a) = ty := by
  have h1 : List.find? (fun q => q.1 == a) ((a, ty) :: s) = some (a, ty) :=
    List.find?_cons_of_pos _ (by simp)
  simp [index_lowering_elem_ty, array_element_type_from_expr,
    codegen_array_elem_lookup, scopesFind, mapFind, mapInsert, h1, hty]

theorem indexParts (prog : Program) (lay : List (String × StructLayout))
    (fst : List (List (String × FnPtrSig))) (vt : Option (List (String × FfiType)))
    (s : List (String × FfiType)) (rest : List (List (String × FfiType)))
    (a : String) (ty : FfiType) (sz : Nat) (len i : Int)
    (hty : ty ≠ .Void)
    (hsz : (if ty == FfiType.I32 || ty == FfiType.F32 then (4 : Nat) else 8) = sz) :
    (emit_index_outcome (CodegenEnv.mk prog lay (mapInsert s a ty :: rest) fst vt)
        (.varRef a) len i = .panic "index out of bounds" ↔ i < 0 ∨ len ≤ i) ∧
    (emit_index_assign_outcome (CodegenEnv.mk prog lay (mapInsert s a ty :: rest) fst vt)
        (.varRef a) len i = .panic "index out of bounds" ↔ i < 0 ∨ len ≤ i) ∧
    (¬(i < 0 ∨ len ≤ i) →
      emit_index_outcome (CodegenEnv.mk prog lay (mapInsert s a ty :: rest) fst vt)
        (.varRef a) len i = .access (8 + i * (sz : Int)) ty ∧
      emit_index_assign_outcome (CodegenEnv.mk prog lay (mapInsert s a ty :: rest) fst vt)
        (.varRef a) len i = .storeAt (8 + i * (sz : Int)) ty) := by
  have helem := indexElemTy prog lay fst vt s rest a ty hty
  subst hsz
  refine ⟨?_, ?_, ?_⟩
  · by_cases hc : i < 0 ∨ len ≤ i <;>
      simp [emit_index_outcome, helem, hc]
  · by_cases hc : i < 0 ∨ len ≤ i <;>
      simp [emit_index_assign_outcome, helem, hc]
  · intro hc
    constructor <;>
      simp [emit_index_outcome, emit_index_assign_outcome, helem, hc]

theorem beqFalseOfNe {a b : String} (h : a ≠ b) : (a == b) = false := by
  cases hb : a == b
  · rfl
  · exact absurd (eq_of_beq hb) h

theorem letAnnotateRecord (env0 : CodegenEnv) (a tname : String) (cnt : Expr)
    (fuel : Nat) (hnone : specPrimElem tname = none) :
    codegen_let_annotate (fuel + 1) env0 a (.allocArray tname cnt) = env0 := by
  simp only [specPrimElem] at hnone
  split_ifs at hnone with h1 h2 h3 h4 h5
  have hb1 := beqFalseOfNe h1
  have hb2 := beqFalseOfNe h2
  have hb3 := beqFalseOfNe h3
  have hb4 := beqFalseOfNe h4
  have hb5 := beqFalseOfNe h5
  obtain ⟨prog, lay, ast, fst, vt⟩ := env0
  simp [codegen_let_annotate, codegen_expr_type, codegen_lookup_fnptr_sig,
    array_element_type_from_expr, hb1, hb2, hb3, hb4, hb5]

/-- C1 (amended): reading `a[i]` and assigning to `a[i]` in the emitted
code branch to a panic calling `rt_panic` with exactly "index out of
bounds" iff `i < 0` or `i ≥ len` (the 8-byte length prefix loaded from
offset 0 of the base) — for every indexed expression, whatever the
element type.  In bounds, after `let a = alloc_array(T, cnt)` with
primitive `T`, the element is touched at byte offset `8 + i·sizeof(T)`.
For a record name `T`, however, the `let` records no element annotation
at all (the environment is unchanged), so the subsequent `a[i]` uses
whatever annotation an enclosing binding of the same name left behind
(stride 4 for a stale `i32`/`f32` annotation) or, absent one, defaults
to an 8-byte `i64` access — not `sizeof(T)`; see the counterexample. -/
theorem fusion_C1 :
    (∀ (env : CodegenEnv) (base : Expr) (len i : Int),
      emit_index_outcome env base len i = .panic "index out of bounds"
        ↔ i < 0 ∨ len ≤ i) ∧
    (∀ (env : CodegenEnv) (base : Expr) (len i : Int),
      emit_index_assign_outcome env base len i = .panic "index out of bounds"
        ↔ i < 0 ∨ len ≤ i) ∧
    (∀ (env0 : CodegenEnv) (a tname : String) (cnt : Expr) (len i : Int)
        (fuel : Nat) (ty : FfiType) (sz : Nat),
      specPrimElem tname = some (ty, sz) →
      env0.array_element_scope_stack ≠ [] →
      ¬(i < 0 ∨ len ≤ i) →
      emit_index_outcome (codegen_let_annotate (fuel + 1) env0 a (.allocArray tname cnt))
        (.varRef a) len i = .access (8 + i * (sz : Int)) ty ∧
      emit_index_assign_outcome (codegen_let_annotate (fuel + 1) env0 a (.allocArray tname cnt))
        (.varRef a) len i = .storeAt (8 + i * (sz : Int)) ty) ∧
    (∀ (env0 : CodegenEnv) (a tname : String) (cnt : Expr) (fuel : Nat),
      specPrimElem tname = none →
      codegen_let_annotate (fuel + 1) env0 a (.allocArray tname cnt) = env0) ∧
    (∀ (env0 : CodegenEnv) (a tname : String) (cnt : Expr) (len i : Int) (fuel : Nat),
      specPrimElem tname = none →
      ¬(i < 0 ∨ len ≤ i) →
      emit_index_outcome (codegen_let_annotate (fuel + 1) env0 a (.allocArray tname cnt))
        (.varRef a) len i
        = .access (8 + i * ((if index_lowering_elem_ty env0 (.varRef a) == FfiType.I32
              || index_lowering_elem_ty env0 (.varRef a) == FfiType.F32
            then (4 : Nat) else 8) : Int))
          (index_lowering_elem_ty env0 (.varRef a)) ∧
      emit_index_assign_outcome (codegen_let_annotate (fuel + 1) env0 a (.allocArray tname cnt))
        (.varRef a) len i
        = .storeAt (8 + i * ((if index_lowering_elem_ty env0 (.varRef a) == FfiType.I32
              || index_lowering_elem_ty env0 (.varRef a) == FfiType.F32
            then (4 : Nat) else 8) : Int))
          (index_lowering_elem_ty env0 (.varRef a))) := by
  refine ⟨?_, ?_, ?_, ?_, ?_⟩
  · intro env base len i
    constructor
    · intro h
      by_contra hc
      simp only [emit_index_outcome] at h
      rw [if_neg hc] at h
      exact IndexOutcome.noConfusion h
    · intro hc
      simp only [emit_index_outcome]
      rw [if_pos hc]
  · intro env base len i
    constructor
    · intro h
      by_contra hc
      simp only [emit_index_assign_outcome] at h
      rw [if_neg hc] at h
      exact IndexAssignOutcome.noConfusion h
    · intro hc
      simp only [emit_index_assign_outcome]
      rw [if_pos hc]
  · intro env0 a tname cnt len i fuel ty sz hprim hstk hni
    obtain ⟨prog, lay, ast, fst, vt⟩ := env0
    cases ast with
    | nil => exact absurd rfl hstk
    | cons s rest =>
      by_cases h1 : tname = "i32"
      · subst h1
        obtain ⟨rfl, rfl⟩ := Prod.mk.inj (Option.some.inj hprim)
        have henv : codegen_let_annotate (fuel + 1)
            (CodegenEnv.mk prog lay (s :: rest) fst vt) a (.allocArray "i32" cnt)
            = CodegenEnv.mk prog lay (mapInsert s a .I32 :: rest) fst vt := rfl
        rw [henv]
        exact (indexParts prog lay fst vt s rest a .I32 4 len i (by simp) rfl).2.2 hni
      · by_cases h2 : tname = "i64"
        · subst h2
          obtain ⟨rfl, rfl⟩ := Prod.mk.inj (Option.some.inj hprim)
          have henv : codegen_let_annotate (fuel + 1)
              (CodegenEnv.mk prog lay (s :: rest) fst vt) a (.allocArray "i64" cnt)
              = CodegenEnv.mk prog lay (mapInsert s a .I64 :: rest) fst vt := rfl
          rw [henv]
          exact (indexParts prog lay fst vt s rest a .I64 8 len i (by simp) rfl).2.2 hni
        · by_cases h3 : tname = "f32"
          · subst h3
            obtain ⟨rfl, rfl⟩ := Prod.mk.inj (Option.some.inj hprim)
            have henv : codegen_let_annotate (fuel + 1)
                (CodegenEnv.mk prog lay (s :: rest) fst vt) a (.allocArray "f32" cnt)
                = CodegenEnv.mk prog lay (mapInsert s a .F32 :: rest) fst vt := rfl
            rw [henv]
            exact (indexParts prog lay fst vt s rest a .F32 4 len i (by simp) rfl).2.2 hni
          · by_cases h4 : tname = "f64"
            · subst h4
              obtain ⟨rfl, rfl⟩ := Prod.mk.inj (Option.some.inj hprim)
              have henv : codegen_let_annotate (fuel + 1)
                  (CodegenEnv.mk prog lay (s :: rest) fst vt) a (.allocArray "f64" cnt)
                  = CodegenEnv.mk prog lay (mapInsert s a .F64 :: rest) fst vt := rfl
              rw [henv]
              exact (indexParts prog lay fst vt s rest a .F64 8 len i (by simp) rfl).2.2 hni
            · by_cases h5 : tname = "ptr"
              · subst h5
                obtain ⟨rfl, rfl⟩ := Prod.mk.inj (Option.some.inj hprim)
                have henv : codegen_let_annotate (fuel + 1)
                    (CodegenEnv.mk prog lay (s :: rest) fst vt) a (.allocArray "ptr" cnt)
                    = CodegenEnv.mk prog lay (mapInsert s a .Ptr :: rest) fst vt := rfl
                rw [henv]
                exact (indexParts prog lay fst vt s rest a .Ptr 8 len i (by simp) rfl).2.2 hni
              · simp [specPrimElem, h1, h2, h3, h4, h5] at hprim
  · intro env0 a tname cnt fuel hnone
    exact letAnnotateRecord env0 a tname cnt fuel hnone
  · intro env0 a tname cnt len i fuel hnone hni
    rw [letAnnotateRecord env0 a tname cnt fuel hnone]
    constructor
    · simp only [emit_index_outcome]
      rw [if_neg hni]
      split_ifs <;> rfl
    · simp only [emit_index_assign_outcome]
      rw [if_neg hni]
      split_ifs <;> rfl

/-- Counterexample for C1 as literally stated, at the record element
`S {x, y : i64}` (`sizeof(S)` = 16, which the allocation itself uses):
with no enclosing annotation, the in-bounds access of `a[1]` reads byte
offset 16 = 8 + 1·8, not the claimed 8 + 1·sizeof(S) = 24; and with a
stale enclosing `i32` annotation for the same name (`c1StaleEnv`), it
reads offset 12 = 8 + 1·4 as an `i32` element — so no single record
stride holds, only the annotation rule of the amended statement. -/
theorem fusion_C1_counterexample :
    specSizeofAllocElem c1Env.layout_map "S" = some 16 ∧
    emit_alloc_array c1Env "S" 2 =
      { allocator := "malloc", total_bytes := 8 + 2 * 16, len_stored := 2 } ∧
    emit_index_outcome (codegen_let_annotate 9 c1Env "a" (.allocArray "S" (.intLit 2)))
        (.varRef "a") 2 1 = .access 16 .I64 ∧
    (16 : Int) ≠ 8 + 1 * 16 ∧
    emit_index_outcome (codegen_let_annotate 9 c1StaleEnv "a" (.allocArray "S" (.intLit 2)))
        (.varRef "a") 2 1 = .access 12 .I32 ∧
    (12 : Int) ≠ 8 + 1 * 16 := by
  refine ⟨by decide, by decide, by decide, by decide, by decide, by decide⟩

/-- Witness for C1: panic iff out of bounds at `a[7]` of a 3-element
array; in-bounds access/store of `a[1]` at byte offset 16 after
`let a = alloc_array(i64, 3)`; and the record case at `c1StaleEnv`
(no annotation recorded, stale `i32` stride 4 used). -/
theorem fusion_C1_witness :
    (emit_index_outcome (codegen_let_annotate (8 + 1) cgDemoEnv "a" (.allocArray "i64" (.intLit 3)))
        (.varRef "a") 3 7 = .panic "index out of bounds" ↔ (7 : Int) < 0 ∨ (3 : Int) ≤ 7) ∧
    (emit_index_assign_outcome (codegen_let_annotate (8 + 1) cgDemoEnv "a" (.allocArray "i64" (.intLit 3)))
        (.varRef "a") 3 7 = .panic "index out of bounds" ↔ (7 : Int) < 0 ∨ (3 : Int) ≤ 7) ∧
    specPrimElem "i64" = some (.I64, 8) ∧
    cgDemoEnv.array_element_scope_stack ≠ [] ∧
    emit_index_outcome (codegen_let_annotate (8 + 1) cgDemoEnv "a" (.allocArray "i64" (.intLit 3)))
        (.varRef "a") 3 1 = .access 16 .I64 ∧
    emit_index_assign_outcome (codegen_let_annotate (8 + 1) cgDemoEnv "a" (.allocArray "i64" (.intLit 3)))
        (.varRef "a") 3 1 = .storeAt 16 .I64 ∧
    specPrimElem "S" = none ∧
    codegen_let_annotate (8 + 1) c1StaleEnv "a" (.allocArray "S" (.intLit 2)) = c1StaleEnv ∧
    emit_index_outcome (codegen_let_annotate (8 + 1) c1StaleEnv "a" (.allocArray "S" (.intLit 2)))
        (.varRef "a") 2 1 = .access 12 .I32 := by
  have h := fusion_C1
  have hp := h.2.2.1 cgDemoEnv "a" "i64" (.intLit 3) 3 1 8 .I64 8 rfl (by decide) (by decide)
  refine ⟨h.1 _ _ 3 7, h.2.1 _ _ 3 7, rfl, by decide, ?_, ?_, rfl, ?_, ?_⟩
  · exact hp.1.trans (by decide)
  · exact hp.2.trans (by decide)
  · exact h.2.2.2.1 c1StaleEnv "a" "S" (.intLit 2) 8 rfl
  · exact (h.2.2.2.2 c1StaleEnv "a" "S" (.intLit 2) 2 1 8 rfl (by decide)).1.trans (by decide)

theorem scopesFind_eq_none {α : Type} (stk : List (List (String × α))) (nm : String)
    (h : ∀ scope ∈ stk, mapFind scope nm = none) : scopesFind stk nm = none := by
  induction stk with
  | nil => rfl
  | cons s rest ih =>
    have hs := h s (List.mem_cons_self s rest)
    have hr := ih (fun sc hsc => h sc (List.mem_cons_of_mem s hsc))
    simp [scopesFind, hs, hr]

theorem emit_call_sig_of_fnptr_head (prog : Program)
    (lay : List (String × StructLayout)) (ast : List (List (String × FfiType)))
    (vt : Option (List (String × FfiType))) (s : List (String × FnPtrSig))
    (rest : List (List (String × FnPtrSig))) (p : String) (sig : FnPtrSig)
    (k : Nat) (ip : List FfiType) (ir : FfiType) :
    emit_call_sig (CodegenEnv.mk prog lay ast (mapInsert s p sig :: rest) vt)
      (.varRef p) k ip ir = .ok sig := by
  have h1 : List.find? (fun q => q.1 == p) ((p, sig) :: s) = some (p, sig) :=
    List.find?_cons_of_pos _ (by simp)
  simp [emit_call_sig, codegen_lookup_fnptr_sig, scopesFind, mapFind, mapInsert, h1]

/-- C3: a `call` through a pointer bound by `let` or by assignment from
`get_func_ptr(f)`, or aimed directly at a known user or extern function,
is lowered with exactly `f`'s declared parameter and result types; the
analyzer's own `lookup_fnptr_sig` recovers the same signature from the
`get_func_ptr(f)` shape. -/
theorem fusion_C3 (env : CodegenEnv) (p fname : String) (f : FnDef)
    (fuel k : Nat) (ip : List FfiType) (ir : FfiType) (sctx : SemaCtx)
    (hf : env.program.user_fns.find? (fun d => d.name == fname) = some f)
    (hstk : env.fnptr_scope_stack ≠ [])
    (hs : mapFind sctx.user_fn_by_name fname = some f) :
    emit_call_sig (codegen_let_annotate (fuel + 1) env p
        (Expr.mkCall "get_func_ptr" [.varRef fname]))
      (.varRef p) k ip ir = .ok (fn_def_to_sig f) ∧
    emit_call_sig (codegen_assign_annotate env p true
        (Expr.mkCall "get_func_ptr" [.varRef fname]))
      (.varRef p) k ip ir = .ok (fn_def_to_sig f) ∧
    ((∀ scope ∈ env.fnptr_scope_stack, mapFind scope fname = none) →
      emit_call_sig env (.varRef fname) k ip ir = .ok (fn_def_to_sig f)) ∧
    (∀ (envx : CodegenEnv) (ename : String) (e : ExternFn),
      (∀ scope ∈ envx.fnptr_scope_stack, mapFind scope ename = none) →
      envx.program.user_fns.find? (fun d => d.name == ename) = none →
      envx.program.extern_fns.find? (fun x => x.name == ename) = some e →
      emit_call_sig envx (.varRef ename) k ip ir = .ok (extern_fn_to_sig e)) ∧
    lookup_fnptr_sig sctx (Expr.mkCall "get_func_ptr" [.varRef fname])
      = some (fn_def_to_sig f) := by
  obtain ⟨prog, lay, ast, fst, vt⟩ := env
  simp only at hf hstk ⊢
  cases fst with
  | nil => exact absurd rfl hstk
  | cons s rest =>
    have hlook : codegen_lookup_fnptr_sig (CodegenEnv.mk prog lay ast (s :: rest) vt)
        (.call "get_func_ptr" [.varRef fname] "" [] .Void) = some (fn_def_to_sig f) := by
      simp [codegen_lookup_fnptr_sig, hf]
    refine ⟨?_, ?_, ?_, ?_, ?_⟩
    · have henv : codegen_let_annotate (fuel + 1) (CodegenEnv.mk prog lay ast (s :: rest) vt)
          p (Expr.mkCall "get_func_ptr" [.varRef fname])
          = CodegenEnv.mk prog lay (scopesInsertBack ast p .Ptr)
              (mapInsert s p (fn_def_to_sig f) :: rest) vt := by
        simp [Expr.mkCall, codegen_let_annotate, hlook, codegen_expr_type,
          array_element_type_from_expr, scopesInsertBack]
      rw [henv]
      exact emit_call_sig_of_fnptr_head prog lay (scopesInsertBack ast p .Ptr) vt
        s rest p (fn_def_to_sig f) k ip ir
    · have henv : codegen_assign_annotate (CodegenEnv.mk prog lay ast (s :: rest) vt)
          p true (Expr.mkCall "get_func_ptr" [.varRef fname])
          = CodegenEnv.mk prog lay ast (mapInsert s p (fn_def_to_sig f) :: rest) vt := by
        simp [Expr.mkCall, codegen_assign_annotate, hlook, scopesInsertBack]
      rw [henv]
      exact emit_call_sig_of_fnptr_head prog lay ast vt s rest p (fn_def_to_sig f) k ip ir
    · intro hnone
      have hn := scopesFind_eq_none (s :: rest) fname hnone
      simp [emit_call_sig, codegen_lookup_fnptr_sig, hn, hf]
    · intro envx ename e hnone hu hx
      have hn := scopesFind_eq_none envx.fnptr_scope_stack ename hnone
      simp [emit_call_sig, codegen_lookup_fnptr_sig, hn, hu, hx]
    · simp [Expr.mkCall, lookup_fnptr_sig, hs]

/-- Witness for C3 at `fn add(i64, f64) -> f64` and extern
`cos(f64) -> f64`. -/
theorem fusion_C3_witness :
    c3Env.program.user_fns.find? (fun d => d.name == "add") = some c3Add ∧
    c3Env.fnptr_scope_stack ≠ [] ∧
    mapFind c3Sctx.user_fn_by_name "add" = some c3Add ∧
    emit_call_sig (codegen_let_annotate (5 + 1) c3Env "p"
        (Expr.mkCall "get_func_ptr" [.varRef "add"]))
      (.varRef "p") 2 [] .Void = .ok { params := [.I64, .F64], result := .F64 } ∧
    emit_call_sig (codegen_assign_annotate c3Env "p" true
        (Expr.mkCall "get_func_ptr" [.varRef "add"]))
      (.varRef "p") 2 [] .Void = .ok { params := [.I64, .F64], result := .F64 } ∧
    emit_call_sig c3Env (.varRef "add") 2 [] .Void
      = .ok { params := [.I64, .F64], result := .F64 } ∧
    emit_call_sig c3EnvExt (.varRef "cos") 2 [] .Void
      = .ok { params := [.F64], result := .F64 } ∧
    lookup_fnptr_sig c3Sctx (Expr.mkCall "get_func_ptr" [.varRef "add"])
      = some { params := [.I64, .F64], result := .F64 } := by
  have h := fusion_C3 c3Env "p" "add" c3Add 5 2 [] .Void c3Sctx rfl (by decide) rfl
  exact ⟨rfl, by decide, rfl, h.1, h.2.1, h.2.2.1 (by decide),
    h.2.2.2.1 c3EnvExt "cos" c3Cos (by decide) rfl rfl, h.2.2.2.2⟩

theorem contains_eq_true_of_mem {a : String} {l : List String} (h : a ∈ l) :
    l.contains a = true := by
  induction l with
  | nil => cases h
  | cons x xs ih =>
    by_cases hax : (a == x) = true
    · simp only [List.contains, List.elem, hax]
    · have hax' : (a == x) = false := by
        cases hb : a == x
        · rfl
        · exact absurd hb hax
      have hmem : a ∈ xs := by
        rcases List.mem_cons.mp h with rfl | hm
        · simp at hax'
        · exact hm
      simp only [List.contains, List.elem, hax']
      exact ih hmem

theorem zip_self_all_pairEq (l : List (String × FfiType)) :
    (l.zip l).all (fun pq => pq.1.1 == pq.2.1 && pq.1.2 == pq.2.2) = true := by
  induction l with
  | nil => rfl
  | cons x xs ih => simp [List.all_cons, ih]

theorem struct_defs_equal_refl (a : StructDef) : struct_defs_equal a a = true := by
  simp [struct_defs_equal, zip_self_all_pairEq]

theorem fndecl_matches_name (d : FnDecl) (f : FnDef)
    (h : fndecl_matches_fndef d f = true) : f.name = d.name := by
  unfold fndecl_matches_fndef at h
  cases hb : d.name == f.name
  · rw [hb] at h; simp at h
  · exact (eq_of_beq hb).symm

theorem mapFind_mem {α : Type} {m : List (String × α)} {k : String} {v : α}
    (h : mapFind m k = some v) : ∃ p ∈ m, p.2 = v ∧ (p.1 == k) = true := by
  unfold mapFind at h
  cases hf : m.find? (fun p => p.1 == k) with
  | none => rw [hf] at h; cases h
  | some pr =>
    rw [hf] at h
    have hbeq := List.find?_some hf
    exact ⟨pr, List.mem_of_find?_eq_some hf, Option.some.inj h, by simpa using hbeq⟩

theorem buildLibUserMap_entries (fns : List FnDef) :
    ∀ (m0 : List (String × FnDef)), (∀ p ∈ m0, (p.2 : FnDef).name = p.1) →
    ∀ p ∈ fns.foldl (fun mp f => mapInsert mp f.name f) m0, (p.2 : FnDef).name = p.1 := by
  induction fns with
  | nil => intro m0 h0 p hp; exact h0 p hp
  | cons f rest ih =>
    intro m0 h0 p hp
    rw [List.foldl_cons] at hp
    refine ih (mapInsert m0 f.name f) ?_ p hp
    intro q hq
    rcases List.mem_cons.mp hq with rfl | hmem
    · rfl
    · exact h0 q hmem

theorem buildLibUserMap_name {fns : List FnDef} {h : String} {f : FnDef}
    (hf : mapFind (buildLibUserMap fns) h = some f) : f.name = h := by
  obtain ⟨p, hpm, hpv, hpk⟩ := mapFind_mem hf
  have hname := buildLibUserMap_entries fns [] (by intro q hq; cases hq) p hpm
  rw [hpv] at hname
  rw [hname]
  exact eq_of_beq hpk

theorem structDupCheck_true_append (rqn sname : String) (sdef : StructDef)
    (l t : List StructDef) (h : structDupCheck rqn sname sdef l = .ok true) :
    structDupCheck rqn sname sdef (l ++ t) = .ok true := by
  induction l with
  | nil => unfold structDupCheck at h; simp at h
  | cons x xs ih =>
    rw [List.cons_append]
    unfold structDupCheck at h ⊢
    by_cases hx : (x.name == sname) = true
    · rw [if_pos hx] at h ⊢
      by_cases he : struct_defs_equal x sdef = true
      · rw [if_pos he]
      · rw [if_neg he] at h; simp at h
    · rw [if_neg hx] at h ⊢
      exact ih h

theorem structDupCheck_false_names (rqn sname : String) (sdef : StructDef)
    (l : List StructDef) (h : structDupCheck rqn sname sdef l = .ok false) :
    ∀ s ∈ l, (s.name == sname) = false := by
  induction l with
  | nil => intro s hs; cases hs
  | cons x xs ih =>
    unfold structDupCheck at h
    by_cases hx : (x.name == sname) = true
    · rw [if_pos hx] at h
      by_cases he : struct_defs_equal x sdef = true
      · rw [if_pos he] at h; simp at h
      · rw [if_neg he] at h; simp at h
    · rw [if_neg hx] at h
      intro s hs
      rcases List.mem_cons.mp hs with rfl | hmem
      · cases hb : s.name == sname
        · rfl
        · exact absurd hb hx
      · exact ih h s hmem

theorem names_false_structDupCheck (rqn sname : String) (sdef : StructDef)
    (l : List StructDef) (h : ∀ s ∈ l, (s.name == sname) = false) :
    structDupCheck rqn sname sdef l = .ok false := by
  induction l with
  | nil => rfl
  | cons x xs ih =>
    have hx := h x (List.mem_cons_self x xs)
    unfold structDupCheck
    rw [hx]
    simp only [Bool.false_eq_true, if_false]
    exact ih (fun s hs => h s (List.mem_cons_of_mem x hs))

theorem structDupCheck_extend_self (rqn sname : String) (sdef : StructDef)
    (l t : List StructDef) (h : structDupCheck rqn sname sdef l = .ok false)
    (hn : (sdef.name == sname) = true) :
    structDupCheck rqn sname sdef (l ++ sdef :: t) = .ok true := by
  induction l with
  | nil =>
    rw [List.nil_append]
    unfold structDupCheck
    rw [hn]
    simp [struct_defs_equal_refl]
  | cons x xs ih =>
    have hx := structDupCheck_false_names rqn sname sdef (x :: xs) h x
      (List.mem_cons_self x xs)
    rw [List.cons_append]
    unfold structDupCheck
    rw [hx]
    simp only [Bool.false_eq_true, if_false]
    apply ih
    unfold structDupCheck at h
    rw [hx] at h
    simpa using h

theorem structDup_error_of_find (rqn sname : String) (sdef ex : StructDef)
    (mains : List StructDef)
    (hfind : mains.find? (fun s => s.name == sname) = some ex)
    (hne : struct_defs_equal ex sdef = false) :
    structDupCheck rqn sname sdef mains = .error
      ("duplicate symbol '" ++ sname ++ "': exported by lib '" ++ rqn
        ++ "' and already defined") := by
  induction mains with
  | nil => cases hfind
  | cons x xs ih =>
    unfold structDupCheck
    by_cases hx : (x.name == sname) = true
    · rw [if_pos hx]
      have hcons : List.find? (fun s => s.name == sname) (x :: xs) = some x :=
        List.find?_cons_of_pos xs hx
      rw [hcons] at hfind
      obtain rfl : x = ex := Option.some.inj hfind
      rw [hne]
      simp
    · rw [if_neg hx]
      apply ih
      have hcons : List.find? (fun s => s.name == sname) (x :: xs)
          = List.find? (fun s => s.name == sname) xs :=
        List.find?_cons_of_neg xs hx
      rwa [hcons] at hfind

theorem merge_structs_extends (L : List StructDef) (rqn : String) :
    ∀ (names : List String) (mains out : List StructDef),
      merge_structs L rqn mains names = .ok out → ∃ t, out = mains ++ t := by
  intro names
  induction names with
  | nil =>
    intro mains out h
    exact ⟨[], by simpa using (Except.ok.inj h).symm⟩
  | cons sname rest ih =>
    intro mains out h
    unfold merge_structs at h
    cases hf : L.find? (fun s => s.exported && s.name == sname) with
    | none => simp only [hf] at h; exact Except.noConfusion h
    | some sdef =>
      simp only [hf] at h
      cases hd : structDupCheck rqn sname sdef mains with
      | error e => rw [hd] at h; simp at h
      | ok b =>
        rw [hd] at h
        cases b with
        | true => exact ih mains out h
        | false =>
          obtain ⟨t, ht⟩ := ih (mains ++ [sdef]) out h
          exact ⟨sdef :: t, by simpa [List.append_assoc] using ht⟩

theorem merge_structs_idem (L : List StructDef) (rqn : String) :
    ∀ (names : List String) (mains out : List StructDef),
      merge_structs L rqn mains names = .ok out →
      merge_structs L rqn out names = .ok out := by
  intro names
  induction names with
  | nil => intro mains out _; rfl
  | cons sname rest ih =>
    intro mains out h
    unfold merge_structs at h ⊢
    cases hf : L.find? (fun s => s.exported && s.name == sname) with
    | none => simp only [hf] at h; exact Except.noConfusion h
    | some sdef =>
      simp only [hf] at h ⊢
      have hname : (sdef.name == sname) = true := by
        have hp := List.find?_some hf
        simp only [Bool.and_eq_true] at hp
        exact hp.2
      cases hd : structDupCheck rqn sname sdef mains with
      | error e => rw [hd] at h; simp at h
      | ok b =>
        rw [hd] at h
        cases b with
        | true =>
          obtain ⟨t, ht⟩ := merge_structs_extends L rqn rest mains out h
          have hd2 : structDupCheck rqn sname sdef out = .ok true := by
            rw [ht]; exact structDupCheck_true_append rqn sname sdef mains t hd
          rw [hd2]
          exact ih mains out h
        | false =>
          obtain ⟨t, ht⟩ := merge_structs_extends L rqn rest (mains ++ [sdef]) out h
          have hd2 : structDupCheck rqn sname sdef out = .ok true := by
            rw [ht, List.append_assoc]
            exact structDupCheck_extend_self rqn sname sdef mains t hd hname
          rw [hd2]
          exact ih (mains ++ [sdef]) out h

theorem merge_structs_count_keep (L : List StructDef) (rqn sname : String) :
    ∀ (names : List String) (mains out : List StructDef),
      merge_structs L rqn mains names = .ok out →
      (mains.filter (fun s => s.name == sname)).length = 1 →
      (out.filter (fun s => s.name == sname)).length = 1 := by
  intro names
  induction names with
  | nil =>
    intro mains out h hc
    rw [← Except.ok.inj h]
    exact hc
  | cons n rest ih =>
    intro mains out h hc
    unfold merge_structs at h
    cases hf : L.find? (fun s => s.exported && s.name == n) with
    | none => simp only [hf] at h; exact Except.noConfusion h
    | some sdef =>
      simp only [hf] at h
      have hnameN : (sdef.name == n) = true := by
        have hp := List.find?_some hf
        simp only [Bool.and_eq_true] at hp
        exact hp.2
      have hsn : sdef.name = n := eq_of_beq hnameN
      cases hd : structDupCheck rqn n sdef mains with
      | error e => rw [hd] at h; simp at h
      | ok b =>
        rw [hd] at h
        cases b with
        | true => exact ih mains out h hc
        | false =>
          by_cases hns : n = sname
          · exfalso
            have hall := structDupCheck_false_names rqn n sdef mains hd
            have hex : ∃ s ∈ mains, (s.name == sname) = true := by
              rcases hfil : mains.filter (fun s => s.name == sname) with _ | ⟨x, xs⟩
              · rw [hfil] at hc; simp at hc
              · have hxmem : x ∈ mains.filter (fun s => s.name == sname) := by
                  rw [hfil]; exact List.mem_cons_self x xs
                have hpx := List.of_mem_filter hxmem
                exact ⟨x, List.mem_of_mem_filter hxmem, by simpa using hpx⟩
            obtain ⟨s, hsm, hs⟩ := hex
            rw [← hns] at hs
            rw [hall s hsm] at hs
            exact Bool.noConfusion hs
          · apply ih (mains ++ [sdef]) out h
            rw [List.filter_append]
            have hone : List.filter (fun s => s.name == sname) [sdef] = [] := by
              simp [hsn, hns]
            rw [hone, List.append_nil]
            exact hc

theorem merge_structs_count_new (L : List StructDef) (rqn sname : String) :
    ∀ (names : List String) (mains out : List StructDef),
      merge_structs L rqn mains names = .ok out →
      sname ∈ names →
      mains.filter (fun s => s.name == sname) = [] →
      (out.filter (fun s => s.name == sname)).length = 1 := by
  intro names
  induction names with
  | nil => intro mains out _ hm; cases hm
  | cons n rest ih =>
    intro mains out h hm hf0
    unfold merge_structs at h
    cases hf : L.find? (fun s => s.exported && s.name == n) with
    | none => simp only [hf] at h; exact Except.noConfusion h
    | some sdef =>
      simp only [hf] at h
      have hnameN : (sdef.name == n) = true := by
        have hp := List.find?_some hf
        simp only [Bool.and_eq_true] at hp
        exact hp.2
      have hsn : sdef.name = n := eq_of_beq hnameN
      cases hd : structDupCheck rqn n sdef mains with
      | error e => rw [hd] at h; simp at h
      | ok b =>
        rw [hd] at h
        by_cases hns : n = sname
        · subst hns
          have hdf : structDupCheck rqn n sdef mains = .ok false := by
            apply names_false_structDupCheck
            intro s hs
            have := List.filter_eq_nil_iff.mp hf0 s hs
            cases hb : s.name == n
            · rfl
            · exact absurd hb this
          rw [hd] at hdf
          obtain rfl : b = false := Except.ok.inj hdf
          apply merge_structs_count_keep L rqn n rest (mains ++ [sdef]) out h
          rw [List.filter_append, hf0]
          simp [hsn]
        · have hm' : sname ∈ rest := by
            rcases List.mem_cons.mp hm with h1 | h2
            · exact absurd h1.symm hns
            · exact h2
          cases b with
          | true => exact ih mains out h hm' hf0
          | false =>
            apply ih (mains ++ [sdef]) out h hm'
            rw [List.filter_append, hf0]
            simp [hsn, hns]

theorem fnDupCheck_true_append (rqn : String) (fdecl : FnDecl)
    (l t : List FnDef) (h : fnDupCheck rqn fdecl l = .ok true) :
    fnDupCheck rqn fdecl (l ++ t) = .ok true := by
  induction l with
  | nil => unfold fnDupCheck at h; simp at h
  | cons x xs ih =>
    rw [List.cons_append]
    unfold fnDupCheck at h ⊢
    by_cases hx : (x.name == fdecl.name) = true
    · rw [if_pos hx] at h ⊢
      by_cases he : fndecl_matches_fndef fdecl x = true
      · rw [if_pos he]
      · rw [if_neg he] at h; simp at h
    · rw [if_neg hx] at h ⊢
      exact ih h

theorem fnDupCheck_false_names (rqn : String) (fdecl : FnDecl)
    (l : List FnDef) (h : fnDupCheck rqn fdecl l = .ok false) :
    ∀ f ∈ l, (f.name == fdecl.name) = false := by
  induction l with
  | nil => intro f hf; cases hf
  | cons x xs ih =>
    unfold fnDupCheck at h
    by_cases hx : (x.name == fdecl.name) = true
    · rw [if_pos hx] at h
      by_cases he : fndecl_matches_fndef fdecl x = true
      · rw [if_pos he] at h; simp at h
      · rw [if_neg he] at h; simp at h
    · rw [if_neg hx] at h
      intro f hf
      rcases List.mem_cons.mp hf with rfl | hmem
      · cases hb : f.name == fdecl.name
        · rfl
        · exact absurd hb hx
      · exact ih h f hmem

theorem names_false_fnDupCheck (rqn : String) (fdecl : FnDecl)
    (l : List FnDef) (h : ∀ f ∈ l, (f.name == fdecl.name) = false) :
    fnDupCheck rqn fdecl l = .ok false := by
  induction l with
  | nil => rfl
  | cons x xs ih =>
    have hx := h x (List.mem_cons_self x xs)
    unfold fnDupCheck
    rw [hx]
    simp only [Bool.false_eq_true, if_false]
    exact ih (fun f hf => h f (List.mem_cons_of_mem x hf))

theorem fnDupCheck_extend_self (rqn : String) (fdecl : FnDecl) (fdef : FnDef)
    (l t : List FnDef) (h : fnDupCheck rqn fdecl l = .ok false)
    (hmatch : fndecl_matches_fndef fdecl fdef = true) :
    fnDupCheck rqn fdecl (l ++ fdef :: t) = .ok true := by
  have hn : (fdef.name == fdecl.name) = true :=
    beq_iff_eq.mpr (fndecl_matches_name fdecl fdef hmatch)
  induction l with
  | nil =>
    rw [List.nil_append]
    unfold fnDupCheck
    rw [hn]
    simp [hmatch]
  | cons x xs ih =>
    have hx := fnDupCheck_false_names rqn fdecl (x :: xs) h x
      (List.mem_cons_self x xs)
    rw [List.cons_append]
    unfold fnDupCheck
    rw [hx]
    simp only [Bool.false_eq_true, if_false]
    apply ih
    unfold fnDupCheck at h
    rw [hx] at h
    simpa using h

theorem fnDup_error_of_find (rqn : String) (fdecl : FnDecl) (fdef ex : FnDef)
    (mains : List FnDef)
    (hfind : mains.find? (fun f => f.name == fdecl.name) = some ex)
    (hne : fndecl_matches_fndef fdecl ex = false) :
    fnDupCheck rqn fdecl mains = .error
      ("duplicate symbol '" ++ fdecl.name ++ "': exported by lib '" ++ rqn
        ++ "' and already defined") := by
  induction mains with
  | nil => cases hfind
  | cons x xs ih =>
    unfold fnDupCheck
    by_cases hx : (x.name == fdecl.name) = true
    · rw [if_pos hx]
      have hcons : List.find? (fun f => f.name == fdecl.name) (x :: xs) = some x :=
        List.find?_cons_of_pos xs hx
      rw [hcons] at hfind
      obtain rfl : x = ex := Option.some.inj hfind
      rw [hne]
      simp
    · rw [if_neg hx]
      apply ih
      have hcons : List.find? (fun f => f.name == fdecl.name) (x :: xs)
          = List.find? (fun f => f.name == fdecl.name) xs :=
        List.find?_cons_of_neg xs hx
      rwa [hcons] at hfind

theorem merge_fns_extends (L : List FnDef) (rqn : String) :
    ∀ (decls : List FnDecl) (mains out : List FnDef) (imp : List FnDef),
      merge_fns L rqn mains decls = .ok (out, imp) → ∃ t, out = mains ++ t := by
  intro decls
  induction decls with
  | nil =>
    intro mains out imp h
    have := Except.ok.inj h
    exact ⟨[], by simp [← (Prod.mk.inj this).1]⟩
  | cons fdecl rest ih =>
    intro mains out imp h
    unfold merge_fns at h
    cases hf : L.find? (fun f => f.exported && fndecl_matches_fndef fdecl f) with
    | none => simp only [hf] at h; exact Except.noConfusion h
    | some fdef =>
      simp only [hf] at h
      cases hd : fnDupCheck rqn fdecl mains with
      | error e => rw [hd] at h; simp at h
      | ok b =>
        rw [hd] at h
        cases b with
        | true => exact ih mains out imp h
        | false =>
          cases hrec : merge_fns L rqn (mains ++ [fdef]) rest with
          | error e => rw [hrec] at h; simp at h
          | ok pr =>
            obtain ⟨m2, fns2⟩ := pr
            rw [hrec] at h
            have hinj := Except.ok.inj h
            obtain ⟨t, ht⟩ := ih (mains ++ [fdef]) m2 fns2 hrec
            refine ⟨fdef :: t, ?_⟩
            rw [← (Prod.mk.inj hinj).1, ht, List.append_assoc]
            rfl

theorem merge_fns_idem (L : List FnDef) (rqn : String) :
    ∀ (decls : List FnDecl) (mains out : List FnDef) (imp : List FnDef),
      merge_fns L rqn mains decls = .ok (out, imp) →
      ∀ extra, merge_fns L rqn (out ++ extra) decls = .ok (out ++ extra, []) := by
  intro decls
  induction decls with
  | nil => intro mains out imp _ extra; rfl
  | cons fdecl rest ih =>
    intro mains out imp h extra
    unfold merge_fns at h ⊢
    cases hf : L.find? (fun f => f.exported && fndecl_matches_fndef fdecl f) with
    | none => simp only [hf] at h; exact Except.noConfusion h
    | some fdef =>
      simp only [hf] at h ⊢
      have hmatch : fndecl_matches_fndef fdecl fdef = true := by
        have hp := List.find?_some hf
        simp only [Bool.and_eq_true] at hp
        exact hp.2
      cases hd : fnDupCheck rqn fdecl mains with
      | error e => rw [hd] at h; simp at h
      | ok b =>
        rw [hd] at h
        cases b with
        | true =>
          obtain ⟨t, ht⟩ := merge_fns_extends L rqn rest mains out imp h
          have hd2 : fnDupCheck rqn fdecl (out ++ extra) = .ok true := by
            rw [ht, List.append_assoc]
            exact fnDupCheck_true_append rqn fdecl mains (t ++ extra) hd
          rw [hd2]
          exact ih mains out imp h extra
        | false =>
          cases hrec : merge_fns L rqn (mains ++ [fdef]) rest with
          | error e => rw [hrec] at h; simp at h
          | ok pr =>
            obtain ⟨m2, fns2⟩ := pr
            rw [hrec] at h
            have hinj := Except.ok.inj h
            have hout : out = m2 := ((Prod.mk.inj hinj).1).symm
            obtain ⟨t, ht⟩ := merge_fns_extends L rqn rest (mains ++ [fdef]) m2 fns2 hrec
            have hd2 : fnDupCheck rqn fdecl (out ++ extra) = .ok true := by
              rw [hout, ht, List.append_assoc, List.append_assoc]
              exact fnDupCheck_extend_self rqn fdecl fdef mains (t ++ extra) hd hmatch
            rw [hd2]
            have := ih (mains ++ [fdef]) m2 fns2 hrec extra
            rw [hout]
            exact this

theorem merge_fns_count_keep (L : List FnDef) (rqn fname : String) :
    ∀ (decls : List FnDecl) (mains out imp : List FnDef),
      merge_fns L rqn mains decls = .ok (out, imp) →
      (mains.filter (fun f => f.name == fname)).length = 1 →
      (out.filter (fun f => f.name == fname)).length = 1 := by
  intro decls
  induction decls with
  | nil =>
    intro mains out imp h hc
    have hinj := Except.ok.inj h
    rw [← (Prod.mk.inj hinj).1]
    exact hc
  | cons fdecl rest ih =>
    intro mains out imp h hc
    unfold merge_fns at h
    cases hf : L.find? (fun f => f.exported && fndecl_matches_fndef fdecl f) with
    | none => simp only [hf] at h; exact Except.noConfusion h
    | some fdef =>
      simp only [hf] at h
      have hmatch : fndecl_matches_fndef fdecl fdef = true := by
        have hp := List.find?_some hf
        simp only [Bool.and_eq_true] at hp
        exact hp.2
      have hfn : fdef.name = fdecl.name := fndecl_matches_name fdecl fdef hmatch
      cases hd : fnDupCheck rqn fdecl mains with
      | error e => rw [hd] at h; simp at h
      | ok b =>
        rw [hd] at h
        cases b with
        | true => exact ih mains out imp h hc
        | false =>
          by_cases hns : fdecl.name = fname
          · exfalso
            have hall := fnDupCheck_false_names rqn fdecl mains hd
            have hex : ∃ f ∈ mains, (f.name == fname) = true := by
              rcases hfil : mains.filter (fun f => f.name == fname) with _ | ⟨x, xs⟩
              · rw [hfil] at hc; simp at hc
              · have hxmem : x ∈ mains.filter (fun f => f.name == fname) := by
                  rw [hfil]; exact List.mem_cons_self x xs
                have hpx := List.of_mem_filter hxmem
                exact ⟨x, List.mem_of_mem_filter hxmem, by simpa using hpx⟩
            obtain ⟨f, hfm, hftrue⟩ := hex
            rw [← hns] at hftrue
            rw [hall f hfm] at hftrue
            exact Bool.noConfusion hftrue
          · cases hrec : merge_fns L rqn (mains ++ [fdef]) rest with
            | error e => rw [hrec] at h; simp at h
            | ok pr =>
              obtain ⟨m2, fns2⟩ := pr
              rw [hrec] at h
              have hinj := Except.ok.inj h
              rw [← (Prod.mk.inj hinj).1]
              apply ih (mains ++ [fdef]) m2 fns2 hrec
              rw [List.filter_append]
              have hone : List.filter (fun f => f.name == fname) [fdef] = [] := by
                simp [hfn, hns]
              rw [hone, List.append_nil]
              exact hc

theorem merge_fns_count_new (L : List FnDef) (rqn fname : String) :
    ∀ (decls : List FnDecl) (mains out imp : List FnDef),
      merge_fns L rqn mains decls = .ok (out, imp) →
      (∃ d ∈ decls, d.name = fname) →
      mains.filter (fun f => f.name == fname) = [] →
      (out.filter (fun f => f.name == fname)).length = 1 ∧
        fname ∈ imp.map (fun f => f.name) := by
  intro decls
  induction decls with
  | nil => intro mains out imp _ hm; obtain ⟨d, hd, _⟩ := hm; cases hd
  | cons fdecl rest ih =>
    intro mains out imp h hm hf0
    unfold merge_fns at h
    cases hf : L.find? (fun f => f.exported && fndecl_matches_fndef fdecl f) with
    | none => simp only [hf] at h; exact Except.noConfusion h
    | some fdef =>
      simp only [hf] at h
      have hmatch : fndecl_matches_fndef fdecl fdef = true := by
        have hp := List.find?_some hf
        simp only [Bool.and_eq_true] at hp
        exact hp.2
      have hfn : fdef.name = fdecl.name := fndecl_matches_name fdecl fdef hmatch
      by_cases hdn : fdecl.name = fname
      · have hdf : fnDupCheck rqn fdecl mains = .ok false := by
          apply names_false_fnDupCheck
          intro f hfm
          have := List.filter_eq_nil_iff.mp hf0 f hfm
          rw [hdn]
          cases hb : f.name == fname
          · rfl
          · exact absurd hb this
        rw [hdf] at h
        cases hrec : merge_fns L rqn (mains ++ [fdef]) rest with
        | error e => rw [hrec] at h; simp at h
        | ok pr =>
          obtain ⟨m2, fns2⟩ := pr
          rw [hrec] at h
          have hinj := Except.ok.inj h
          obtain ⟨hout, himp⟩ := Prod.mk.inj hinj
          constructor
          · rw [← hout]
            apply merge_fns_count_keep L rqn fname rest (mains ++ [fdef]) m2 fns2 hrec
            rw [List.filter_append, hf0, List.nil_append]
            simp [hfn, hdn]
          · rw [← himp]
            rw [List.map_cons, hfn, hdn]
            exact List.mem_cons_self fname _
      · have hm' : ∃ d ∈ rest, d.name = fname := by
          obtain ⟨d, hdm, hdf2⟩ := hm
          rcases List.mem_cons.mp hdm with rfl | hdrest
          · exact absurd hdf2 hdn
          · exact ⟨d, hdrest, hdf2⟩
        cases hd : fnDupCheck rqn fdecl mains with
        | error e => rw [hd] at h; simp at h
        | ok b =>
          rw [hd] at h
          cases b with
          | true => exact ih mains out imp h hm' hf0
          | false =>
            cases hrec : merge_fns L rqn (mains ++ [fdef]) rest with
            | error e => rw [hrec] at h; simp at h
            | ok pr =>
              obtain ⟨m2, fns2⟩ := pr
              rw [hrec] at h
              have hinj := Except.ok.inj h
              obtain ⟨hout, himp⟩ := Prod.mk.inj hinj
              have hrecres := ih (mains ++ [fdef]) m2 fns2 hrec hm' (by
                rw [List.filter_append, hf0, List.nil_append]
                simp [hfn, hdn])
              constructor
              · rw [← hout]; exact hrecres.1
              · rw [← himp, List.map_cons]
                exact List.mem_cons_of_mem _ hrecres.2

theorem merge_libs_extends :
    ∀ (libs mains : List ExternLib), ∃ t, (merge_libs mains libs).1 = mains ++ t := by
  intro libs
  induction libs with
  | nil => intro mains; exact ⟨[], by simp [merge_libs]⟩
  | cons lib rest ih =>
    intro mains
    unfold merge_libs
    by_cases hp : lib_has_path mains lib.path = true
    · rw [if_pos hp]
      obtain ⟨t, ht⟩ := ih mains
      exact ⟨t, by simpa using ht⟩
    · rw [if_neg hp]
      obtain ⟨t, ht⟩ := ih (mains ++ [{ lib with name := "__lib" ++ toString mains.length }])
      exact ⟨{ lib with name := "__lib" ++ toString mains.length } :: t,
        by simpa [List.append_assoc] using ht⟩

theorem lib_has_path_append (mains t : List ExternLib) (p : String)
    (h : lib_has_path mains p = true) : lib_has_path (mains ++ t) p = true := by
  unfold lib_has_path at h ⊢
  simp [List.any_append, h]

theorem merge_libs_all_present :
    ∀ (libs mains : List ExternLib), ∀ b ∈ libs,
      lib_has_path (merge_libs mains libs).1 b.path = true := by
  intro libs
  induction libs with
  | nil => intro mains b hb; cases hb
  | cons lib rest ih =>
    intro mains b hb
    unfold merge_libs
    by_cases hp : lib_has_path mains lib.path = true
    · rw [if_pos hp]
      rcases List.mem_cons.mp hb with rfl | hmem
      · show lib_has_path (merge_libs mains rest).1 b.path = true
        obtain ⟨t, ht⟩ := merge_libs_extends rest mains
        rw [ht]
        exact lib_has_path_append mains t b.path hp
      · show lib_has_path (merge_libs mains rest).1 b.path = true
        exact ih mains b hmem
    · rw [if_neg hp]
      rcases List.mem_cons.mp hb with rfl | hmem
      · show lib_has_path
          (merge_libs (mains ++ [{ b with name := "__lib" ++ toString mains.length }]) rest).1
          b.path = true
        obtain ⟨t, ht⟩ := merge_libs_extends rest
          (mains ++ [{ b with name := "__lib" ++ toString mains.length }])
        rw [ht]
        apply lib_has_path_append
        unfold lib_has_path
        rw [List.any_append]
        simp
      · show lib_has_path
          (merge_libs (mains ++ [{ lib with name := "__lib" ++ toString mains.length }]) rest).1
          b.path = true
        exact ih _ b hmem

theorem merge_libs_fst_idem :
    ∀ (libs mains : List ExternLib),
      (∀ b ∈ libs, lib_has_path mains b.path = true) →
      (merge_libs mains libs).1 = mains := by
  intro libs
  induction libs with
  | nil => intro mains _; rfl
  | cons lib rest ih =>
    intro mains h
    unfold merge_libs
    rw [if_pos (h lib (List.mem_cons_self lib rest))]
    show (merge_libs mains rest).1 = mains
    exact ih mains (fun b hb => h b (List.mem_cons_of_mem lib hb))

theorem find_extern_fn_append_of_isSome (l t : List ExternFn) (nm : String)
    (h : (find_extern_fn l nm).isSome = true) :
    (find_extern_fn (l ++ t) nm).isSome = true := by
  induction l with
  | nil => simp [find_extern_fn, List.find?] at h
  | cons x xs ih =>
    by_cases hx : (x.name == nm) = true
    · have h1 : find_extern_fn ((x :: xs) ++ t) nm = some x := by
        rw [List.cons_append]
        unfold find_extern_fn
        exact List.find?_cons_of_pos _ hx
      rw [h1]; rfl
    · have h2 : find_extern_fn (x :: xs) nm = find_extern_fn xs nm := by
        unfold find_extern_fn
        exact List.find?_cons_of_neg _ hx
      have h3 : find_extern_fn ((x :: xs) ++ t) nm = find_extern_fn (xs ++ t) nm := by
        rw [List.cons_append]
        unfold find_extern_fn
        exact List.find?_cons_of_neg _ hx
      rw [h3]
      exact ih (by rwa [h2] at h)

theorem find_extern_fn_mid (l t : List ExternFn) (e2 : ExternFn) (nm : String)
    (hn : (e2.name == nm) = true) :
    (find_extern_fn (l ++ e2 :: t) nm).isSome = true := by
  induction l with
  | nil =>
    have h1 : find_extern_fn ([] ++ e2 :: t) nm = some e2 := by
      rw [List.nil_append]
      unfold find_extern_fn
      exact List.find?_cons_of_pos _ hn
    rw [h1]; rfl
  | cons x xs ih =>
    by_cases hx : (x.name == nm) = true
    · have h1 : find_extern_fn ((x :: xs) ++ e2 :: t) nm = some x := by
        rw [List.cons_append]
        unfold find_extern_fn
        exact List.find?_cons_of_pos _ hx
      rw [h1]; rfl
    · have h3 : find_extern_fn ((x :: xs) ++ e2 :: t) nm
          = find_extern_fn (xs ++ e2 :: t) nm := by
        rw [List.cons_append]
        unfold find_extern_fn
        exact List.find?_cons_of_neg _ hx
      rw [h3]
      exact ih

theorem merge_externs_extends (L : List ExternLib) (rqn : String)
    (pm : List (String × String)) (mlibs : List ExternLib) :
    ∀ (exts mains out : List ExternFn),
      merge_externs L rqn pm mlibs mains exts = .ok out → ∃ t, out = mains ++ t := by
  intro exts
  induction exts with
  | nil => intro mains out h; exact ⟨[], by simpa using (Except.ok.inj h).symm⟩
  | cons ext rest ih =>
    intro mains out h
    simp only [merge_externs] at h
    cases hfe : find_extern_fn mains ext.name with
    | some existing =>
      simp only [hfe] at h
      by_cases hc : (get_lib_path_by_name mlibs existing.lib_name
          != get_lib_path_by_name L ext.lib_name
          || !extern_fn_signature_equal existing ext) = true
      · rw [if_pos hc] at h; simp at h
      · rw [if_neg hc] at h; exact ih mains out h
    | none =>
      simp only [hfe] at h
      cases hpm : mapFind pm (get_lib_path_by_name L ext.lib_name) with
      | some mn =>
        simp only [hpm] at h
        obtain ⟨t, ht⟩ := ih (mains ++ [{ ext with lib_name := mn }]) out h
        exact ⟨{ ext with lib_name := mn } :: t, by simpa [List.append_assoc] using ht⟩
      | none =>
        simp only [hpm] at h
        obtain ⟨t, ht⟩ := ih (mains ++ [ext]) out h
        exact ⟨ext :: t, by simpa [List.append_assoc] using ht⟩

theorem merge_externs_present (L : List ExternLib) (rqn : String)
    (pm : List (String × String)) (mlibs : List ExternLib) :
    ∀ (exts mains out : List ExternFn),
      merge_externs L rqn pm mlibs mains exts = .ok out →
      ∀ ext ∈ exts, (find_extern_fn out ext.name).isSome = true := by
  intro exts
  induction exts with
  | nil => intro mains out _ ext hmem; cases hmem
  | cons ext rest ih =>
    intro mains out h ext' hmem
    simp only [merge_externs] at h
    cases hfe : find_extern_fn mains ext.name with
    | some existing =>
      simp only [hfe] at h
      by_cases hc : (get_lib_path_by_name mlibs existing.lib_name
          != get_lib_path_by_name L ext.lib_name
          || !extern_fn_signature_equal existing ext) = true
      · rw [if_pos hc] at h; simp at h
      · rw [if_neg hc] at h
        rcases List.mem_cons.mp hmem with rfl | hmem'
        · obtain ⟨t, ht⟩ := merge_externs_extends L rqn pm mlibs rest mains out h
          rw [ht]
          exact find_extern_fn_append_of_isSome mains t ext'.name (by rw [hfe]; rfl)
        · exact ih mains out h ext' hmem'
    | none =>
      simp only [hfe] at h
      cases hpm : mapFind pm (get_lib_path_by_name L ext.lib_name) with
      | some mn =>
        simp only [hpm] at h
        rcases List.mem_cons.mp hmem with rfl | hmem'
        · obtain ⟨t, ht⟩ :=
            merge_externs_extends L rqn pm mlibs rest
              (mains ++ [{ ext' with lib_name := mn }]) out h
          rw [ht, List.append_assoc, List.singleton_append]
          exact find_extern_fn_mid mains t _ ext'.name (by simp)
        · exact ih (mains ++ [{ ext with lib_name := mn }]) out h ext' hmem'
      | none =>
        simp only [hpm] at h
        rcases List.mem_cons.mp hmem with rfl | hmem'
        · obtain ⟨t, ht⟩ :=
            merge_externs_extends L rqn pm mlibs rest (mains ++ [ext']) out h
          rw [ht, List.append_assoc, List.singleton_append]
          exact find_extern_fn_mid mains t _ ext'.name (by simp)
        · exact ih (mains ++ [ext]) out h ext' hmem'

theorem merge_externs_idem (L : List ExternLib) (rqn : String)
    (pm : List (String × String)) (mlibs : List ExternLib) :
    ∀ (exts mains : List ExternFn),
      (∀ ext ∈ exts, (find_extern_fn mains ext.name).isSome = true) →
      merge_externs L rqn pm mlibs mains exts = .ok mains ∨
      ∃ e, merge_externs L rqn pm mlibs mains exts = .error e := by
  intro exts
  induction exts with
  | nil => intro mains _; left; rfl
  | cons ext rest ih =>
    intro mains hall
    have hs := hall ext (List.mem_cons_self ext rest)
    obtain ⟨existing, hex⟩ := Option.isSome_iff_exists.mp hs
    by_cases hc : (get_lib_path_by_name mlibs existing.lib_name
        != get_lib_path_by_name L ext.lib_name
        || !extern_fn_signature_equal existing ext) = true
    · right
      refine ⟨"extern fn '" ++ ext.name ++ "' declared by lib '" ++ rqn
        ++ "' conflicts (different signature or lib)", ?_⟩
      simp only [merge_externs, hex]
      rw [if_pos hc]
    · rcases ih mains (fun e he => hall e (List.mem_cons_of_mem ext he)) with hok | ⟨e, herr⟩
      · left
        simp only [merge_externs, hex]
        rw [if_neg hc]
        exact hok
      · right
        exact ⟨e, by simp only [merge_externs, hex]; rw [if_neg hc]; exact herr⟩

theorem merge_helpers_extends (lu : List (String × FnDef)) (rqn : String) :
    ∀ (names : List String) (mains out : List FnDef),
      merge_helpers lu rqn mains names = .ok out → ∃ t, out = mains ++ t := by
  intro names
  induction names with
  | nil => intro mains out h; exact ⟨[], by simpa using (Except.ok.inj h).symm⟩
  | cons hname rest ih =>
    intro mains out h
    unfold merge_helpers at h
    cases hlu : mapFind lu hname with
    | none => simp only [hlu] at h; exact ih mains out h
    | some hdef =>
      simp only [hlu] at h
      cases hd : helperDupCheck rqn hname hdef mains with
      | error e => rw [hd] at h; simp at h
      | ok b =>
        rw [hd] at h
        cases b with
        | true => exact ih mains out h
        | false =>
          obtain ⟨t, ht⟩ := ih (mains ++ [hdef]) out h
          exact ⟨hdef :: t, by simpa [List.append_assoc] using ht⟩

theorem merge_helpers_count_keep (lu : List (String × FnDef)) (rqn fname : String)
    (hlu : ∀ (nm : String) (f : FnDef), mapFind lu nm = some f → f.name = nm) :
    ∀ (names : List String) (mains out : List FnDef),
      merge_helpers lu rqn mains names = .ok out →
      (∀ n ∈ names, n ≠ fname) →
      (mains.filter (fun f => f.name == fname)).length = 1 →
      (out.filter (fun f => f.name == fname)).length = 1 := by
  intro names
  induction names with
  | nil =>
    intro mains out h _ hc
    rw [← Except.ok.inj h]
    exact hc
  | cons hname rest ih =>
    intro mains out h hnames hc
    unfold merge_helpers at h
    cases hlu2 : mapFind lu hname with
    | none =>
      simp only [hlu2] at h
      exact ih mains out h (fun n hn => hnames n (List.mem_cons_of_mem hname hn)) hc
    | some hdef =>
      simp only [hlu2] at h
      cases hd : helperDupCheck rqn hname hdef mains with
      | error e => rw [hd] at h; simp at h
      | ok b =>
        rw [hd] at h
        cases b with
        | true =>
          exact ih mains out h (fun n hn => hnames n (List.mem_cons_of_mem hname hn)) hc
        | false =>
          apply ih (mains ++ [hdef]) out h
            (fun n hn => hnames n (List.mem_cons_of_mem hname hn))
          rw [List.filter_append]
          have hone : List.filter (fun f => f.name == fname) [hdef] = [] := by
            have hdn : hdef.name = hname := hlu hname hdef hlu2
            have hne := hnames hname (List.mem_cons_self hname rest)
            simp [hdn, hne]
          rw [hone, List.append_nil]
          exact hc

theorem C5_struct_clash (main2 lib2 : Program) (rq : ImportLib) (sname : String)
    (rest : List String) (sdef ex : StructDef)
    (hrq : rq.struct_names = sname :: rest)
    (hfl : lib2.struct_defs.find? (fun s => s.exported && s.name == sname) = some sdef)
    (hfm : main2.struct_defs.find? (fun s => s.name == sname) = some ex)
    (hne : struct_defs_equal ex sdef = false) :
    merge_library_into_main main2 lib2 rq = .error
      ("duplicate symbol '" ++ sname ++ "': exported by lib '" ++ rq.name
        ++ "' and already defined") := by
  have hphase : merge_structs lib2.struct_defs rq.name main2.struct_defs (sname :: rest)
      = .error ("duplicate symbol '" ++ sname ++ "': exported by lib '" ++ rq.name
        ++ "' and already defined") := by
    unfold merge_structs
    simp only [hfl]
    rw [structDup_error_of_find rq.name sname sdef ex main2.struct_defs hfm hne]
  simp only [merge_library_into_main, hrq, hphase]

theorem C5_fn_clash (main2 lib2 : Program) (rq : ImportLib) (fdecl : FnDecl)
    (rest : List FnDecl) (fdef ex : FnDef)
    (hrq0 : rq.struct_names = [])
    (hrq : rq.fn_decls = fdecl :: rest)
    (hfl : lib2.user_fns.find? (fun f => f.exported && fndecl_matches_fndef fdecl f)
      = some fdef)
    (hfm : main2.user_fns.find? (fun f => f.name == fdecl.name) = some ex)
    (hne : fndecl_matches_fndef fdecl ex = false) :
    merge_library_into_main main2 lib2 rq = .error
      ("duplicate symbol '" ++ fdecl.name ++ "': exported by lib '" ++ rq.name
        ++ "' and already defined") := by
  have hs0 : merge_structs lib2.struct_defs rq.name main2.struct_defs ([] : List String)
      = .ok main2.struct_defs := rfl
  have hphase : merge_fns lib2.user_fns rq.name main2.user_fns (fdecl :: rest)
      = .error ("duplicate symbol '" ++ fdecl.name ++ "': exported by lib '" ++ rq.name
        ++ "' and already defined") := by
    unfold merge_fns
    simp only [hfl]
    rw [fnDup_error_of_find rq.name fdecl fdef ex main2.user_fns hfm hne]
  simp only [merge_library_into_main, hrq0, hrq, hs0, hphase]

theorem C5_core_m2 (main lib : Program) (req : ImportLib) (m1 m2 : Program)
    (structs2 : List StructDef) (fns2 imported extraF : List FnDef)
    (externs2 : List ExternFn)
    (hS : merge_structs lib.struct_defs req.name main.struct_defs req.struct_names
      = .ok structs2)
    (hF : merge_fns lib.user_fns req.name main.user_fns req.fn_decls
      = .ok (fns2, imported))
    (hE : merge_externs lib.libs req.name (merge_libs main.libs lib.libs).2
      (merge_libs main.libs lib.libs).1 main.extern_fns lib.extern_fns = .ok externs2)
    (hs1 : m1.struct_defs = structs2)
    (hu1 : m1.user_fns = fns2 ++ extraF)
    (hl1 : m1.libs = (merge_libs main.libs lib.libs).1)
    (he1 : m1.extern_fns = externs2)
    (h2 : merge_library_into_main m1 lib req = .ok m2) :
    m2 = m1 := by
  have hS2 : merge_structs lib.struct_defs req.name m1.struct_defs req.struct_names
      = .ok m1.struct_defs := by
    rw [hs1]; exact merge_structs_idem _ _ _ _ _ hS
  have hF2 : merge_fns lib.user_fns req.name m1.user_fns req.fn_decls
      = .ok (m1.user_fns, []) := by
    rw [hu1]; exact merge_fns_idem _ _ _ _ _ _ hF extraF
  have hall_libs : ∀ b ∈ lib.libs, lib_has_path m1.libs b.path = true := by
    intro b hb; rw [hl1]; exact merge_libs_all_present lib.libs main.libs b hb
  have hL2 : (merge_libs m1.libs lib.libs).1 = m1.libs :=
    merge_libs_fst_idem lib.libs m1.libs hall_libs
  have hpres : ∀ ext ∈ lib.extern_fns,
      (find_extern_fn m1.extern_fns ext.name).isSome = true := by
    intro ext hext
    rw [he1]
    exact merge_externs_present _ _ _ _ lib.extern_fns main.extern_fns externs2 hE ext hext
  simp only [merge_library_into_main] at h2
  simp only [hS2] at h2
  simp only [hF2] at h2
  simp only [hL2] at h2
  rcases merge_externs_idem lib.libs req.name (merge_libs m1.libs lib.libs).2 m1.libs
      lib.extern_fns m1.extern_fns hpres with hok | ⟨e, herr⟩
  · simp only [hok] at h2
    exact (Except.ok.inj h2).symm
  · simp only [herr] at h2
    exact Except.noConfusion h2

/-- C5: import merging is idempotent — merging the same library with the
same request a second time returns the main program unchanged — each
requested record and function absent from the main program ends up with
exactly one copy after the merge, and a requested record or function
whose name matches an existing one of different shape or signature is
rejected with the "duplicate symbol" error. -/
theorem fusion_C5 (main lib : Program) (req : ImportLib) (m1 m2 : Program)
    (h1 : merge_library_into_main main lib req = .ok m1)
    (h2 : merge_library_into_main m1 lib req = .ok m2) :
    m2 = m1 ∧
    (∀ sname ∈ req.struct_names,
      main.struct_defs.filter (fun s => s.name == sname) = [] →
      (m1.struct_defs.filter (fun s => s.name == sname)).length = 1) ∧
    (∀ fdecl ∈ req.fn_decls,
      main.user_fns.filter (fun f => f.name == fdecl.name) = [] →
      (m1.user_fns.filter (fun f => f.name == fdecl.name)).length = 1) ∧
    (∀ (main2 lib2 : Program) (rq : ImportLib) (sname : String)
        (rest : List String) (sdef ex : StructDef),
      rq.struct_names = sname :: rest →
      lib2.struct_defs.find? (fun s => s.exported && s.name == sname) = some sdef →
      main2.struct_defs.find? (fun s => s.name == sname) = some ex →
      struct_defs_equal ex sdef = false →
      merge_library_into_main main2 lib2 rq = .error
        ("duplicate symbol '" ++ sname ++ "': exported by lib '" ++ rq.name
          ++ "' and already defined")) ∧
    (∀ (main2 lib2 : Program) (rq : ImportLib) (fdecl : FnDecl)
        (rest : List FnDecl) (fdef ex : FnDef),
      rq.struct_names = [] →
      rq.fn_decls = fdecl :: rest →
      lib2.user_fns.find? (fun f => f.exported && fndecl_matches_fndef fdecl f)
        = some fdef →
      main2.user_fns.find? (fun f => f.name == fdecl.name) = some ex →
      fndecl_matches_fndef fdecl ex = false →
      merge_library_into_main main2 lib2 rq = .error
        ("duplicate symbol '" ++ fdecl.name ++ "': exported by lib '" ++ rq.name
          ++ "' and already defined")) := by
  simp only [merge_library_into_main] at h1
  split at h1
  · exact Except.noConfusion h1
  · rename_i structs2 hS
    split at h1
    · exact Except.noConfusion h1
    · rename_i fns2 imported hF
      split at h1
      · exact Except.noConfusion h1
      · rename_i externs2 hE
        split at h1
        · rename_i himp
          have hm1 := (Except.ok.inj h1).symm
          refine ⟨?_, ?_, ?_, ?_, ?_⟩
          · exact C5_core_m2 main lib req m1 m2 structs2 fns2 imported [] externs2
              hS hF hE (by rw [hm1]) (by rw [hm1]; simp) (by rw [hm1]) (by rw [hm1]) h2
          · intro sname hmem hclean
            have hcount := merge_structs_count_new lib.struct_defs req.name sname
              req.struct_names main.struct_defs structs2 hS hmem hclean
            rw [hm1]
            simpa using hcount
          · intro fdecl hmem hclean
            have hres := merge_fns_count_new lib.user_fns req.name fdecl.name
              req.fn_decls main.user_fns fns2 imported hF ⟨fdecl, hmem, rfl⟩ hclean
            rw [hm1]
            simpa using hres.1
          · intro main2 lib2 rq sname rest sdef ex hA hB hC hD
            exact C5_struct_clash main2 lib2 rq sname rest sdef ex hA hB hC hD
          · intro main2 lib2 rq fdecl rest fdef ex hA hB hC hD hEE
            exact C5_fn_clash main2 lib2 rq fdecl rest fdef ex hA hB hC hD hEE
        · rename_i himp
          split at h1
          · exact Except.noConfusion h1
          · rename_i fns3 hH
            have hm1 := (Except.ok.inj h1).symm
            obtain ⟨extraF, hext⟩ :=
              merge_helpers_extends (buildLibUserMap lib.user_fns) req.name _ fns2 fns3 hH
            refine ⟨?_, ?_, ?_, ?_, ?_⟩
            · exact C5_core_m2 main lib req m1 m2 structs2 fns2 imported extraF externs2
                hS hF hE (by rw [hm1]) (by rw [hm1]; simpa using hext)
                (by rw [hm1]) (by rw [hm1]) h2
            · intro sname hmem hclean
              have hcount := merge_structs_count_new lib.struct_defs req.name sname
                req.struct_names main.struct_defs structs2 hS hmem hclean
              rw [hm1]
              simpa using hcount
            · intro fdecl hmem hclean
              have hres := merge_fns_count_new lib.user_fns req.name fdecl.name
                req.fn_decls main.user_fns fns2 imported hF ⟨fdecl, hmem, rfl⟩ hclean
              have hkeep := merge_helpers_count_keep (buildLibUserMap lib.user_fns)
                req.name fdecl.name (fun nm f hf => buildLibUserMap_name hf)
                _ fns2 fns3 hH (by
                  intro n hn hcontra
                  have hp := List.of_mem_filter hn
                  have hc2 : (imported.map (fun f => f.name)).contains n = false := by
                    cases hb : (imported.map (fun f => f.name)).contains n
                    · rfl
                    · rw [hb] at hp; simp at hp
                  subst hcontra
                  rw [contains_eq_true_of_mem hres.2] at hc2
                  exact Bool.noConfusion hc2) hres.1
              rw [hm1]
              simpa using hkeep
            · intro main2 lib2 rq sname rest sdef ex hA hB hC hD
              exact C5_struct_clash main2 lib2 rq sname rest sdef ex hA hB hC hD
            · intro main2 lib2 rq fdecl rest fdef ex hA hB hC hD hEE
              exact C5_fn_clash main2 lib2 rq fdecl rest fdef ex hA hB hC hD hEE

/-- Witness for C5: merging `c5Lib` into `c5Main` twice is idempotent
(one copy of `P`, `g` and the helper `h`), and the clash programs are
rejected with the duplicate-symbol errors. -/
theorem fusion_C5_witness :
    merge_library_into_main c5Main c5Lib c5Req = .ok c5M1 ∧
    merge_library_into_main c5M1 c5Lib c5Req = .ok c5M1 ∧
    ("P" ∈ c5Req.struct_names ∧
      c5Main.struct_defs.filter (fun s => s.name == "P") = [] ∧
      (c5M1.struct_defs.filter (fun s => s.name == "P")).length = 1) ∧
    (c5Gdecl ∈ c5Req.fn_decls ∧
      c5Main.user_fns.filter (fun f => f.name == c5Gdecl.name) = [] ∧
      (c5M1.user_fns.filter (fun f => f.name == c5Gdecl.name)).length = 1) ∧
    merge_library_into_main c5MainClash c5Lib c5Req
      = .error "duplicate symbol 'P': exported by lib 'mylib' and already defined" ∧
    merge_library_into_main c5MainFClash c5Lib c5ReqF
      = .error "duplicate symbol 'g': exported by lib 'mylib' and already defined" := by
  have h := fusion_C5 c5Main c5Lib c5Req c5M1 c5M1 rfl rfl
  refine ⟨rfl, rfl, ⟨?_, rfl, h.2.1 "P" ?_ rfl⟩,
    ⟨?_, rfl, h.2.2.1 c5Gdecl ?_ rfl⟩, ?_, ?_⟩
  · simp [c5Req]
  · simp [c5Req]
  · simp [c5Req]
  · simp [c5Req]
  · exact h.2.2.2.1 c5MainClash c5Lib c5Req "P" [] c5P _ rfl rfl rfl rfl
  · exact h.2.2.2.2 c5MainFClash c5Lib c5ReqF c5Gdecl [] c5G _ rfl rfl rfl rfl rfl

end Fusion
